import Mathlib

/-!
Hector forcing component: a shallow embedding.

Source: `src/src/forcing_component.cpp`, `src/inst/include/forcing_component.hpp`.

Conventions of the embedding.

* A C++ `double` is an exact rational (`Rat`): rounding, infinities and NaN are
  not modelled.  The libm functions `log`, `sqrt` and `pow` are uninterpreted
  parameters (`Libm`).
* A C++ exception is the error side of `Except h_exception`.  A member function
  that can throw after it has mutated the object returns the pair of its outcome
  and the object as the exception (or the return) leaves it.
* `std::map` is a list of key/value pairs kept strictly sorted by key (`StdMap`).
* The logger is fire-and-forget and is left out.
-/

namespace Hector

/-! ## Exceptions -/

/-- Modelled from the spec: `h_exception.hpp` is not among the sources.  An
exception carries its message and the context added by each re-throw, newest
first. -/
abbrev h_exception := List String

/-- Macro `H_THROW(msg)`. -/
def H_THROW {α : Type} (msg : String) : Except h_exception α := Except.error [msg]

/-- Macro `H_ASSERT(cond, msg)`. -/
def H_ASSERT (cond : Bool) (msg : String) : Except h_exception Unit :=
  if cond then Except.ok () else Except.error [msg]

/-- Macro `H_RETHROW(e, msg)`: the caught exception with added context. -/
def H_RETHROW {α : Type} (e : h_exception) (msg : String) : Except h_exception α :=
  Except.error (msg :: e)

/-- Whether a computation returned normally. -/
def completes {ε α : Type} : Except ε α → Bool
  | Except.ok _ => true
  | Except.error _ => false

/-! ## `std::map` -/

section StdMapList

variable {κ α : Type} [LinearOrder κ]

/-- Insert-or-overwrite in a key-sorted list (`m[k] = v`). -/
def insertList (k : κ) (v : α) : List (κ × α) → List (κ × α)
  | [] => [(k, v)]
  | (k1, v1) :: rest =>
    if k < k1 then (k, v) :: (k1, v1) :: rest
    else if k = k1 then (k, v) :: rest
    else (k1, v1) :: insertList k v rest

/-- Value bound to a key (`m.find(k)`). -/
def lookupList (k : κ) : List (κ × α) → Option α
  | [] => none
  | (k1, v1) :: rest => if k = k1 then some v1 else lookupList k rest

/-- Remove a key (`m.erase(k)`); a no-op when the key is absent. -/
def eraseList (k : κ) : List (κ × α) → List (κ × α)
  | [] => []
  | (k1, v1) :: rest => if k = k1 then rest else (k1, v1) :: eraseList k rest

theorem mem_insertList {k : κ} {v : α} {l : List (κ × α)} {x : κ × α}
    (hx : x ∈ insertList k v l) : x = (k, v) ∨ x ∈ l := by
  induction l with
  | nil => simp [insertList] at hx; exact Or.inl hx
  | cons hd tl ih =>
    obtain ⟨k1, v1⟩ := hd
    unfold insertList at hx
    split_ifs at hx with h1 h2
    · simpa using hx
    · rcases List.mem_cons.1 hx with h | h
      · exact Or.inl h
      · exact Or.inr (List.mem_cons_of_mem _ h)
    · rcases List.mem_cons.1 hx with h | h
      · exact Or.inr (h ▸ List.mem_cons_self _ _)
      · rcases ih h with h3 | h3
        · exact Or.inl h3
        · exact Or.inr (List.mem_cons_of_mem _ h3)

theorem insertList_sorted (k : κ) (v : α) {l : List (κ × α)}
    (hl : l.Pairwise (fun a b => a.1 < b.1)) :
    (insertList k v l).Pairwise (fun a b => a.1 < b.1) := by
  induction l with
  | nil => simp [insertList]
  | cons hd tl ih =>
    obtain ⟨k1, v1⟩ := hd
    rw [List.pairwise_cons] at hl
    unfold insertList
    split_ifs with h1 h2
    · refine List.pairwise_cons.2 ⟨?_, List.pairwise_cons.2 hl⟩
      intro x hx
      rcases List.mem_cons.1 hx with h | h
      · rw [h]; exact h1
      · exact lt_trans h1 (hl.1 x h)
    · refine List.pairwise_cons.2 ⟨?_, hl.2⟩
      intro x hx
      have := hl.1 x hx
      rw [h2]; exact this
    · refine List.pairwise_cons.2 ⟨?_, ih hl.2⟩
      intro x hx
      rcases mem_insertList hx with h | h
      · rw [h]
        exact lt_of_le_of_ne (not_lt.1 h1) (fun h3 => h2 h3.symm)
      · exact hl.1 x h

theorem mem_eraseList {k : κ} {l : List (κ × α)} {x : κ × α}
    (hx : x ∈ eraseList k l) : x ∈ l := by
  induction l with
  | nil => simp [eraseList] at hx
  | cons hd tl ih =>
    obtain ⟨k1, v1⟩ := hd
    unfold eraseList at hx
    split_ifs at hx with h1
    · exact List.mem_cons_of_mem _ hx
    · rcases List.mem_cons.1 hx with h | h
      · exact h ▸ List.mem_cons_self _ _
      · exact List.mem_cons_of_mem _ (ih h)

theorem eraseList_sorted (k : κ) {l : List (κ × α)}
    (hl : l.Pairwise (fun a b => a.1 < b.1)) :
    (eraseList k l).Pairwise (fun a b => a.1 < b.1) := by
  induction l with
  | nil => simp [eraseList]
  | cons hd tl ih =>
    obtain ⟨k1, v1⟩ := hd
    rw [List.pairwise_cons] at hl
    unfold eraseList
    split_ifs with h1
    · exact hl.2
    · exact List.pairwise_cons.2 ⟨fun x hx => hl.1 x (mem_eraseList hx), ih hl.2⟩

end StdMapList

/-- A `std::map<κ, α>`: its entries in iteration order, strictly increasing in
the key. -/
structure StdMap (κ α : Type) [LinearOrder κ] where
  entries : List (κ × α)
  sorted : entries.Pairwise (fun a b => a.1 < b.1)

namespace StdMap

variable {κ α : Type} [LinearOrder κ]

theorem ext_entries {m1 m2 : StdMap κ α} (h : m1.entries = m2.entries) : m1 = m2 := by
  cases m1; cases m2; cases h; rfl

instance [DecidableEq α] : DecidableEq (StdMap κ α) := fun m1 m2 =>
  decidable_of_iff (m1.entries = m2.entries) ⟨ext_entries, fun h => h ▸ rfl⟩

/-- The empty map. -/
def empty : StdMap κ α := ⟨[], List.Pairwise.nil⟩

instance : Inhabited (StdMap κ α) := ⟨empty⟩

/-- The assignment `m[k] = v`. -/
def insert (m : StdMap κ α) (k : κ) (v : α) : StdMap κ α :=
  ⟨insertList k v m.entries, insertList_sorted k v m.sorted⟩

/-- Lookup `m.find(k)`, `none` standing for `m.end()`. -/
def find (m : StdMap κ α) (k : κ) : Option α := lookupList k m.entries

/-- Key count `m.count(k)` as a truth value. -/
def contains (m : StdMap κ α) (k : κ) : Bool := (m.find k).isSome

/-- Removal `m.erase(k)`. -/
def erase (m : StdMap κ α) (k : κ) : StdMap κ α :=
  ⟨eraseList k m.entries, eraseList_sorted k m.sorted⟩

/-- Number of entries `m.size()`. -/
def size (m : StdMap κ α) : Nat := m.entries.length

/-- The subscript `m[k]` used as a value: a key that is absent is first bound to
the default value.  Returns the value read and the map after the access. -/
def subscript [Inhabited α] (m : StdMap κ α) (k : κ) : α × StdMap κ α :=
  match m.find k with
  | some v => (v, m)
  | none => (default, m.insert k default)

end StdMap

/-! ## Unit-tagged values -/

/-- Modelled from the spec: `unitval.hpp` is not among the sources.  The unit
tags used by the forcing component. -/
inductive unit_types where
  | U_UNDEFINED
  | U_UNITLESS
  | U_W_M2
  | U_PPMV_CO2
  | U_PPBV_CH4
  | U_PPBV_N2O
  | U_DU_O3
  | U_TG
  | U_GG_S
  | U_PGC
deriving DecidableEq, Repr

open unit_types

/-- Modelled from the spec: `unitval.hpp` is not among the sources.  A scalar
paired with a physical unit tag. -/
structure unitval where
  val : Rat
  valUnits : unit_types
deriving DecidableEq

/-- The default constructor `unitval()`. -/
instance : Inhabited unitval := ⟨⟨0, U_UNDEFINED⟩⟩

namespace unitval

/-- Modelled from the spec: `x.value(u)` reads the scalar and fails fast when
the unit tag is not `u`. -/
def value (x : unitval) (u : unit_types) : Except h_exception Rat :=
  if x.valUnits = u then Except.ok x.val else H_THROW "variable is not of this type"

/-- The setter `x.set(v, u)`. -/
def set (v : Rat) (u : unit_types) : unitval := ⟨v, u⟩

/-- Modelled from the spec: addition fails fast on incompatible units. -/
def add (x y : unitval) : Except h_exception unitval :=
  if x.valUnits = y.valUnits then Except.ok ⟨x.val + y.val, x.valUnits⟩
  else H_THROW "units mismatch"

/-- Modelled from the spec: subtraction fails fast on incompatible units. -/
def sub (x y : unitval) : Except h_exception unitval :=
  if x.valUnits = y.valUnits then Except.ok ⟨x.val - y.val, x.valUnits⟩
  else H_THROW "units mismatch"

/-- Modelled from the spec: the quotient of two unit values is a plain number
and fails fast on incompatible units. -/
def div (x y : unitval) : Except h_exception Rat :=
  if x.valUnits = y.valUnits then Except.ok (x.val / y.val)
  else H_THROW "units mismatch"

/-- Scaling `x * d` and `d * x` by a plain number keeps the unit. -/
def scale (x : unitval) (d : Rat) : unitval := ⟨x.val * d, x.valUnits⟩

/-- The implicit conversion of a unit value to `double`. -/
def toDouble (x : unitval) : Rat := x.val

end unitval

/-! ## Time-indexed stores -/

/-- Modelled from the spec: `tvector.hpp` is not among the sources.  The
checkpoint store of section 4.2 for values that cannot be interpolated: an
ordered mapping from date to value. -/
structure tvector (α : Type) where
  mapdata : StdMap Rat α

namespace tvector

variable {α : Type}

instance [DecidableEq α] : DecidableEq (tvector α) := fun a b =>
  decidable_of_iff (a.mapdata = b.mapdata)
    ⟨fun h => by cases a; cases b; cases h; rfl, fun h => h ▸ rfl⟩

instance : Inhabited (tvector α) := ⟨⟨StdMap.empty⟩⟩

/-- Modelled from the spec: `set(date, value)` is overwrite-or-insert. -/
def set (tv : tvector α) (t : Rat) (v : α) : tvector α := ⟨tv.mapdata.insert t v⟩

/-- Modelled from the spec: `exists(date)`. -/
def hasDate (tv : tvector α) (t : Rat) : Bool := tv.mapdata.contains t

/-- Modelled from the spec: `get(date)` requires an exact match. -/
def get (tv : tvector α) (t : Rat) : Except h_exception α :=
  match tv.mapdata.find t with
  | some v => Except.ok v
  | none => H_THROW "No data at requested date"

/-- Number of recorded dates. -/
def size (tv : tvector α) : Nat := tv.mapdata.size

/-- Modelled from the spec: `firstdate()`; there is none in an empty store. -/
def firstdate (tv : tvector α) : Except h_exception Rat :=
  match tv.mapdata.entries.head? with
  | some e => Except.ok e.1
  | none => H_THROW "no data"

/-- Modelled from the spec: `lastdate()`; there is none in an empty store. -/
def lastdate (tv : tvector α) : Except h_exception Rat :=
  match tv.mapdata.entries.getLast? with
  | some e => Except.ok e.1
  | none => H_THROW "no data"

/-- Modelled from the spec: `truncate(date)` discards all entries strictly after
`date`. -/
def truncate (tv : tvector α) (t : Rat) : tvector α :=
  ⟨⟨tv.mapdata.entries.filter (fun e => decide (e.1 ≤ t)),
    tv.mapdata.sorted.sublist (List.filter_sublist _)⟩⟩

end tvector

/-- Modelled from the spec: `tseries.hpp` is not among the sources.  The time
series of section 3 holding unit values, with opt-in linear interpolation. -/
structure tseries where
  mapdata : StdMap Rat unitval
  interp_allowed : Bool
  name : String
deriving DecidableEq

namespace tseries

instance : Inhabited tseries := ⟨⟨StdMap.empty, false, ""⟩⟩

/-- The switch `allowInterp(b)`. -/
def allowInterp (ts : tseries) (b : Bool) : tseries := { ts with interp_allowed := b }

/-- Modelled from the spec: `set(date, value)` is overwrite-or-insert. -/
def set (ts : tseries) (t : Rat) (v : unitval) : tseries :=
  { ts with mapdata := ts.mapdata.insert t v }

/-- Number of recorded dates `size()`. -/
def size (ts : tseries) : Nat := ts.mapdata.size

/-- Modelled from the spec: `exists(date)`. -/
def hasDate (ts : tseries) (t : Rat) : Bool := ts.mapdata.contains t

/-- Modelled from the spec: `firstdate()`; there is none in an empty series. -/
def firstdate (ts : tseries) : Except h_exception Rat :=
  match ts.mapdata.entries.head? with
  | some e => Except.ok e.1
  | none => H_THROW "no data"

/-- Modelled from the spec: `lastdate()`; there is none in an empty series. -/
def lastdate (ts : tseries) : Except h_exception Rat :=
  match ts.mapdata.entries.getLast? with
  | some e => Except.ok e.1
  | none => H_THROW "no data"

/-- Linear interpolation at `t` between the recorded points `p0` and `p1`. -/
def interpolate (p0 p1 : Rat × unitval) (t : Rat) : Except h_exception unitval := do
  let d ← p1.2.sub p0.2
  p0.2.add (d.scale ((t - p0.1) / (p1.1 - p0.1)))

/-- Modelled from the spec: `get(date)` returns the exact match; without one,
and with interpolation enabled, the linear interpolation between the two
bracketing dates; it fails when `date` is outside the recorded range. -/
def get (ts : tseries) (t : Rat) : Except h_exception unitval :=
  match ts.mapdata.find t with
  | some v => Except.ok v
  | none =>
    if ts.interp_allowed then
      match (ts.mapdata.entries.filter (fun e => decide (e.1 < t))).getLast?,
            (ts.mapdata.entries.filter (fun e => decide (t < e.1))).head? with
      | some p0, some p1 => interpolate p0 p1 t
      | _, _ => H_THROW "date outside the recorded range"
    else H_THROW "no exact match and interpolation is not allowed"

end tseries

/-! ## The core, as seen from the forcing component -/

/-- Modelled from the spec: `message_data.hpp` is not among the sources.  The
date and the optional unit-value payload of a message. -/
structure message_data where
  date : Rat
  value_unitval : Option unitval

/-- Modelled from the spec: the payload read in the expected unit.  It is
convertible when it carries that unit or no unit at all. -/
def message_data.getUnitval (data : message_data) (expectedUnits : unit_types) :
    Except h_exception unitval :=
  match data.value_unitval with
  | none => H_THROW "no value in message"
  | some v =>
    if v.valUnits = expectedUnits ∨ v.valUnits = U_UNDEFINED then
      Except.ok ⟨v.val, expectedUnits⟩
    else H_THROW "units mismatch in message"

/-- Modelled from the spec: `core.hpp` is not among the sources.  What the
forcing component reads from the core: the reserved date that means no date,
the model start date, the capability check, and the router's answer to a
message `(verb, capability, data)`. -/
structure Core where
  undefinedIndex : Rat
  getStartDate : Rat
  checkCapability : String → Bool
  sendMessage : String → String → message_data → Except h_exception unitval

/-- The constructor `message_data()`: no date, no payload. -/
def Core.noData (core : Core) : message_data := ⟨core.undefinedIndex, none⟩

/-- The constructor `message_data(date)`. -/
def message_data.ofDate (d : Rat) : message_data := ⟨d, none⟩

/-- The functions of the C math library used by `run`, uninterpreted. -/
structure Libm where
  log : Rat → Rat
  sqrt : Rat → Rat
  pow : Rat → Rat → Rat

/-! ## Message verbs and capability names

Modelled from the spec: the header that defines the capability macros is not
among the sources.  A capability name is an opaque, globally unique string; each
macro is given its own identifier as its value. -/

/-- Modelled from the spec: the macro of this name, an opaque unique string. -/
def M_GETDATA : String := "M_GETDATA"

/-- Modelled from the spec: the macro of this name, an opaque unique string. -/
def M_SETDATA : String := "M_SETDATA"

/-- Modelled from the spec: the macro of this name, an opaque unique string. -/
def FORCING_COMPONENT_NAME : String := "FORCING_COMPONENT_NAME"

/-- Modelled from the spec: the macro of this name, an opaque unique string. -/
def D_RF_TOTAL : String := "D_RF_TOTAL"

/-- Modelled from the spec: the macro of this name, an opaque unique string. -/
def D_RF_BASEYEAR : String := "D_RF_BASEYEAR"

/-- Modelled from the spec: the macro of this name, an opaque unique string. -/
def D_RF_CO2 : String := "D_RF_CO2"

/-- Modelled from the spec: the macro of this name, an opaque unique string. -/
def D_RF_CH4 : String := "D_RF_CH4"

/-- Modelled from the spec: the macro of this name, an opaque unique string. -/
def D_RF_N2O : String := "D_RF_N2O"

/-- Modelled from the spec: the macro of this name, an opaque unique string. -/
def D_RF_H2O_STRAT : String := "D_RF_H2O_STRAT"

/-- Modelled from the spec: the macro of this name, an opaque unique string. -/
def D_RF_O3_TROP : String := "D_RF_O3_TROP"

/-- Modelled from the spec: the macro of this name, an opaque unique string. -/
def D_RF_BC : String := "D_RF_BC"

/-- Modelled from the spec: the macro of this name, an opaque unique string. -/
def D_RF_OC : String := "D_RF_OC"

/-- Modelled from the spec: the macro of this name, an opaque unique string. -/
def D_RF_SO2d : String := "D_RF_SO2d"

/-- Modelled from the spec: the macro of this name, an opaque unique string. -/
def D_RF_SO2i : String := "D_RF_SO2i"

/-- Modelled from the spec: the macro of this name, an opaque unique string. -/
def D_RF_SO2 : String := "D_RF_SO2"

/-- Modelled from the spec: the macro of this name, an opaque unique string. -/
def D_RF_VOL : String := "D_RF_VOL"

/-- Modelled from the spec: the macro of this name, an opaque unique string. -/
def D_RF_T_ALBEDO : String := "D_RF_T_ALBEDO"

/-- Modelled from the spec: the macro of this name, an opaque unique string. -/
def D_ACO2 : String := "D_ACO2"

/-- Modelled from the spec: the macro of this name, an opaque unique string. -/
def D_AN2O : String := "D_AN2O"

/-- Modelled from the spec: the macro of this name, an opaque unique string. -/
def D_ACH4 : String := "D_ACH4"

/-- Modelled from the spec: the macro of this name, an opaque unique string. -/
def D_ATROPO3 : String := "D_ATROPO3"

/-- Modelled from the spec: the macro of this name, an opaque unique string. -/
def D_ASO2D : String := "D_ASO2D"

/-- Modelled from the spec: the macro of this name, an opaque unique string. -/
def D_FTOT_CONSTRAIN : String := "D_FTOT_CONSTRAIN"

/-- Modelled from the spec: the macro of this name, an opaque unique string. -/
def D_ATMOSPHERIC_CO2 : String := "D_ATMOSPHERIC_CO2"

/-- Modelled from the spec: the macro of this name, an opaque unique string. -/
def D_ATMOSPHERIC_CH4 : String := "D_ATMOSPHERIC_CH4"

/-- Modelled from the spec: the macro of this name, an opaque unique string. -/
def D_ATMOSPHERIC_N2O : String := "D_ATMOSPHERIC_N2O"

/-- Modelled from the spec: the macro of this name, an opaque unique string. -/
def D_ATMOSPHERIC_O3 : String := "D_ATMOSPHERIC_O3"

/-- Modelled from the spec: the macro of this name, an opaque unique string. -/
def D_PREINDUSTRIAL_CH4 : String := "D_PREINDUSTRIAL_CH4"

/-- Modelled from the spec: the macro of this name, an opaque unique string. -/
def D_PREINDUSTRIAL_N2O : String := "D_PREINDUSTRIAL_N2O"

/-- Modelled from the spec: the macro of this name, an opaque unique string. -/
def D_EMISSIONS_BC : String := "D_EMISSIONS_BC"

/-- Modelled from the spec: the macro of this name, an opaque unique string. -/
def D_EMISSIONS_OC : String := "D_EMISSIONS_OC"

/-- Modelled from the spec: the macro of this name, an opaque unique string. -/
def D_NATURAL_SO2 : String := "D_NATURAL_SO2"

/-- Modelled from the spec: the macro of this name, an opaque unique string. -/
def D_EMISSIONS_SO2 : String := "D_EMISSIONS_SO2"

/-- Modelled from the spec: the macro of this name, an opaque unique string. -/
def D_2000_SO2 : String := "D_2000_SO2"

/-- Modelled from the spec: the macro of this name, an opaque unique string. -/
def D_VOLCANIC_SO2 : String := "D_VOLCANIC_SO2"

/-- Modelled from the spec: the macro of this name, an opaque unique string. -/
def D_RF_CF4 : String := "D_RF_CF4"

/-- Modelled from the spec: the macro of this name, an opaque unique string. -/
def D_RF_C2F6 : String := "D_RF_C2F6"

/-- Modelled from the spec: the macro of this name, an opaque unique string. -/
def D_RF_HFC23 : String := "D_RF_HFC23"

/-- Modelled from the spec: the macro of this name, an opaque unique string. -/
def D_RF_HFC32 : String := "D_RF_HFC32"

/-- Modelled from the spec: the macro of this name, an opaque unique string. -/
def D_RF_HFC4310 : String := "D_RF_HFC4310"

/-- Modelled from the spec: the macro of this name, an opaque unique string. -/
def D_RF_HFC125 : String := "D_RF_HFC125"

/-- Modelled from the spec: the macro of this name, an opaque unique string. -/
def D_RF_HFC134a : String := "D_RF_HFC134a"

/-- Modelled from the spec: the macro of this name, an opaque unique string. -/
def D_RF_HFC143a : String := "D_RF_HFC143a"

/-- Modelled from the spec: the macro of this name, an opaque unique string. -/
def D_RF_HFC227ea : String := "D_RF_HFC227ea"

/-- Modelled from the spec: the macro of this name, an opaque unique string. -/
def D_RF_HFC245fa : String := "D_RF_HFC245fa"

/-- Modelled from the spec: the macro of this name, an opaque unique string. -/
def D_RF_SF6 : String := "D_RF_SF6"

/-- Modelled from the spec: the macro of this name, an opaque unique string. -/
def D_RF_CFC11 : String := "D_RF_CFC11"

/-- Modelled from the spec: the macro of this name, an opaque unique string. -/
def D_RF_CFC12 : String := "D_RF_CFC12"

/-- Modelled from the spec: the macro of this name, an opaque unique string. -/
def D_RF_CFC113 : String := "D_RF_CFC113"

/-- Modelled from the spec: the macro of this name, an opaque unique string. -/
def D_RF_CFC114 : String := "D_RF_CFC114"

/-- Modelled from the spec: the macro of this name, an opaque unique string. -/
def D_RF_CFC115 : String := "D_RF_CFC115"

/-- Modelled from the spec: the macro of this name, an opaque unique string. -/
def D_RF_CCl4 : String := "D_RF_CCl4"

/-- Modelled from the spec: the macro of this name, an opaque unique string. -/
def D_RF_CH3CCl3 : String := "D_RF_CH3CCl3"

/-- Modelled from the spec: the macro of this name, an opaque unique string. -/
def D_RF_HCFC22 : String := "D_RF_HCFC22"

/-- Modelled from the spec: the macro of this name, an opaque unique string. -/
def D_RF_HCFC141b : String := "D_RF_HCFC141b"

/-- Modelled from the spec: the macro of this name, an opaque unique string. -/
def D_RF_HCFC142b : String := "D_RF_HCFC142b"

/-- Modelled from the spec: the macro of this name, an opaque unique string. -/
def D_RF_halon1211 : String := "D_RF_halon1211"

/-- Modelled from the spec: the macro of this name, an opaque unique string. -/
def D_RF_halon1301 : String := "D_RF_halon1301"

/-- Modelled from the spec: the macro of this name, an opaque unique string. -/
def D_RF_halon2402 : String := "D_RF_halon2402"

/-- Modelled from the spec: the macro of this name, an opaque unique string. -/
def D_RF_CH3Cl : String := "D_RF_CH3Cl"

/-- Modelled from the spec: the macro of this name, an opaque unique string. -/
def D_RF_CH3Br : String := "D_RF_CH3Br"

/-- Modelled from the spec: the macro of this name, an opaque unique string. -/
def D_RFADJ_CF4 : String := "D_RFADJ_CF4"

/-- Modelled from the spec: the macro of this name, an opaque unique string. -/
def D_RFADJ_C2F6 : String := "D_RFADJ_C2F6"

/-- Modelled from the spec: the macro of this name, an opaque unique string. -/
def D_RFADJ_HFC23 : String := "D_RFADJ_HFC23"

/-- Modelled from the spec: the macro of this name, an opaque unique string. -/
def D_RFADJ_HFC32 : String := "D_RFADJ_HFC32"

/-- Modelled from the spec: the macro of this name, an opaque unique string. -/
def D_RFADJ_HFC4310 : String := "D_RFADJ_HFC4310"

/-- Modelled from the spec: the macro of this name, an opaque unique string. -/
def D_RFADJ_HFC125 : String := "D_RFADJ_HFC125"

/-- Modelled from the spec: the macro of this name, an opaque unique string. -/
def D_RFADJ_HFC134a : String := "D_RFADJ_HFC134a"

/-- Modelled from the spec: the macro of this name, an opaque unique string. -/
def D_RFADJ_HFC143a : String := "D_RFADJ_HFC143a"

/-- Modelled from the spec: the macro of this name, an opaque unique string. -/
def D_RFADJ_HFC227ea : String := "D_RFADJ_HFC227ea"

/-- Modelled from the spec: the macro of this name, an opaque unique string. -/
def D_RFADJ_HFC245fa : String := "D_RFADJ_HFC245fa"

/-- Modelled from the spec: the macro of this name, an opaque unique string. -/
def D_RFADJ_SF6 : String := "D_RFADJ_SF6"

/-- Modelled from the spec: the macro of this name, an opaque unique string. -/
def D_RFADJ_CFC11 : String := "D_RFADJ_CFC11"

/-- Modelled from the spec: the macro of this name, an opaque unique string. -/
def D_RFADJ_CFC12 : String := "D_RFADJ_CFC12"

/-- Modelled from the spec: the macro of this name, an opaque unique string. -/
def D_RFADJ_CFC113 : String := "D_RFADJ_CFC113"

/-- Modelled from the spec: the macro of this name, an opaque unique string. -/
def D_RFADJ_CFC114 : String := "D_RFADJ_CFC114"

/-- Modelled from the spec: the macro of this name, an opaque unique string. -/
def D_RFADJ_CFC115 : String := "D_RFADJ_CFC115"

/-- Modelled from the spec: the macro of this name, an opaque unique string. -/
def D_RFADJ_CCl4 : String := "D_RFADJ_CCl4"

/-- Modelled from the spec: the macro of this name, an opaque unique string. -/
def D_RFADJ_CH3CCl3 : String := "D_RFADJ_CH3CCl3"

/-- Modelled from the spec: the macro of this name, an opaque unique string. -/
def D_RFADJ_HCFC22 : String := "D_RFADJ_HCFC22"

/-- Modelled from the spec: the macro of this name, an opaque unique string. -/
def D_RFADJ_HCFC141b : String := "D_RFADJ_HCFC141b"

/-- Modelled from the spec: the macro of this name, an opaque unique string. -/
def D_RFADJ_HCFC142b : String := "D_RFADJ_HCFC142b"

/-- Modelled from the spec: the macro of this name, an opaque unique string. -/
def D_RFADJ_halon1211 : String := "D_RFADJ_halon1211"

/-- Modelled from the spec: the macro of this name, an opaque unique string. -/
def D_RFADJ_halon1301 : String := "D_RFADJ_halon1301"

/-- Modelled from the spec: the macro of this name, an opaque unique string. -/
def D_RFADJ_halon2402 : String := "D_RFADJ_halon2402"

/-- Modelled from the spec: the macro of this name, an opaque unique string. -/
def D_RFADJ_CH3Cl : String := "D_RFADJ_CH3Cl"

/-- Modelled from the spec: the macro of this name, an opaque unique string. -/
def D_RFADJ_CH3Br : String := "D_RFADJ_CH3Br"

/-- The constant `N_HALO_FORCINGS`. -/
def N_HALO_FORCINGS : Nat := 26

/-- The array `ForcingComponent::adjusted_halo_forcings`. -/
def adjusted_halo_forcings : List String :=
  [D_RFADJ_CF4,
   D_RFADJ_C2F6,
   D_RFADJ_HFC23,
   D_RFADJ_HFC32,
   D_RFADJ_HFC4310,
   D_RFADJ_HFC125,
   D_RFADJ_HFC134a,
   D_RFADJ_HFC143a,
   D_RFADJ_HFC227ea,
   D_RFADJ_HFC245fa,
   D_RFADJ_SF6,
   D_RFADJ_CFC11,
   D_RFADJ_CFC12,
   D_RFADJ_CFC113,
   D_RFADJ_CFC114,
   D_RFADJ_CFC115,
   D_RFADJ_CCl4,
   D_RFADJ_CH3CCl3,
   D_RFADJ_HCFC22,
   D_RFADJ_HCFC141b,
   D_RFADJ_HCFC142b,
   D_RFADJ_halon1211,
   D_RFADJ_halon1301,
   D_RFADJ_halon2402,
   D_RFADJ_CH3Cl,
   D_RFADJ_CH3Br]

/-- The array `ForcingComponent::halo_forcing_names`. -/
def halo_forcing_names : List String :=
  [D_RF_CF4,
   D_RF_C2F6,
   D_RF_HFC23,
   D_RF_HFC32,
   D_RF_HFC4310,
   D_RF_HFC125,
   D_RF_HFC134a,
   D_RF_HFC143a,
   D_RF_HFC227ea,
   D_RF_HFC245fa,
   D_RF_SF6,
   D_RF_CFC11,
   D_RF_CFC12,
   D_RF_CFC113,
   D_RF_CFC114,
   D_RF_CFC115,
   D_RF_CCl4,
   D_RF_CH3CCl3,
   D_RF_HCFC22,
   D_RF_HCFC141b,
   D_RF_HCFC142b,
   D_RF_halon1211,
   D_RF_halon1301,
   D_RF_halon2402,
   D_RF_CH3Cl,
   D_RF_CH3Br]

/-- The local array `halos` of `run`. -/
def halos : List String :=
  [D_RF_CF4,
   D_RF_C2F6,
   D_RF_HFC23,
   D_RF_HFC32,
   D_RF_HFC4310,
   D_RF_HFC125,
   D_RF_HFC134a,
   D_RF_HFC143a,
   D_RF_HFC227ea,
   D_RF_HFC245fa,
   D_RF_SF6,
   D_RF_CFC11,
   D_RF_CFC12,
   D_RF_CFC113,
   D_RF_CFC114,
   D_RF_CFC115,
   D_RF_CCl4,
   D_RF_CH3CCl3,
   D_RF_HCFC22,
   D_RF_HCFC141b,
   D_RF_HCFC142b,
   D_RF_halon1211,
   D_RF_halon1301,
   D_RF_halon2402,
   D_RF_CH3Cl,
   D_RF_CH3Br]

/-! ## The forcing component -/

/-- The type `forcings_t`: all computed forcings by name. -/
abbrev forcings_t := StdMap String unitval

/-- The data members of `ForcingComponent`.  The static `forcing_name_map` is
carried with the object; the core pointer is passed to each member function and
the logger is left out. -/
structure ForcingComponent where
  baseyear_forcings : forcings_t
  forcings_ts : tvector forcings_t
  baseyear : Rat
  currentYear : Rat
  C0 : unitval
  aCO2 : unitval
  aN2O : unitval
  aCH4 : unitval
  atropO3 : unitval
  aso2d : unitval
  aso2in : unitval
  Ftot_constrain : tseries
  forcing_name_map : StdMap String String
deriving DecidableEq

namespace ForcingComponent

/-- The object as the constructor `ForcingComponent()` leaves it, with the
uninitialised numbers read as 0. -/
instance : Inhabited ForcingComponent :=
  ⟨⟨StdMap.empty, default, 0, 0, default, default, default, default, default, default,
    default, default, StdMap.empty⟩⟩

/-- The capabilities `init` registers for the component, in order of
registration. -/
def registeredCapabilities : List String :=
  [D_RF_TOTAL, D_RF_BASEYEAR, D_RF_CO2, D_RF_CH4, D_RF_N2O, D_RF_H2O_STRAT, D_RF_O3_TROP,
   D_RF_BC, D_RF_OC, D_RF_SO2d, D_RF_SO2i, D_RF_SO2, D_RF_VOL,
   D_ACO2, D_AN2O, D_ACH4, D_ATROPO3, D_ASO2D] ++ adjusted_halo_forcings

/-- The loop of `init` that fills `forcing_name_map`:
`forcing_name_map[adjusted_halo_forcings[i]] = halo_forcing_names[i]`. -/
def init_name_map : List String → List String → StdMap String String → StdMap String String
  | a :: as, h :: hs, m => init_name_map as hs (m.insert a h)
  | _, _, m => m

/-- The effect of `ForcingComponent::init` on the object (the registrations with
the core are listed in `registeredCapabilities`). -/
def init (fc : ForcingComponent) : ForcingComponent :=
  { fc with
    baseyear := 0
    currentYear := 0
    Ftot_constrain := { fc.Ftot_constrain.allowInterp true with name := D_RF_TOTAL }
    forcing_name_map :=
      init_name_map adjusted_halo_forcings halo_forcing_names fc.forcing_name_map }

/-- Member function `ForcingComponent::setData`: the body of the `try` block,
returning the object as the block leaves it. -/
def setData_try (core : Core) (fc : ForcingComponent) (varName : String)
    (data : message_data) : Except h_exception Unit × ForcingComponent :=
  if varName = D_RF_BASEYEAR then
    match H_ASSERT (decide (data.date = core.undefinedIndex)) "date not allowed" with
    | Except.error e => (Except.error e, fc)
    | Except.ok _ =>
      match data.getUnitval U_UNDEFINED with
      | Except.error e => (Except.error e, fc)
      | Except.ok v => (Except.ok (), { fc with baseyear := v.toDouble })
  else if varName = D_ACO2 then
    match H_ASSERT (decide (data.date = core.undefinedIndex)) "date not allowed" with
    | Except.error e => (Except.error e, fc)
    | Except.ok _ =>
      match data.getUnitval U_W_M2 with
      | Except.error e => (Except.error e, fc)
      | Except.ok v => (Except.ok (), { fc with aCO2 := v })
  else if varName = D_AN2O then
    match H_ASSERT (decide (data.date = core.undefinedIndex)) "date not allowed" with
    | Except.error e => (Except.error e, fc)
    | Except.ok _ =>
      match data.getUnitval U_W_M2 with
      | Except.error e => (Except.error e, fc)
      | Except.ok v => (Except.ok (), { fc with aN2O := v })
  else if varName = D_ACH4 then
    match H_ASSERT (decide (data.date = core.undefinedIndex)) "date not allowed" with
    | Except.error e => (Except.error e, fc)
    | Except.ok _ =>
      match data.getUnitval U_W_M2 with
      | Except.error e => (Except.error e, fc)
      | Except.ok v => (Except.ok (), { fc with aCH4 := v })
  else if varName = D_ATROPO3 then
    match H_ASSERT (decide (data.date = core.undefinedIndex)) "date not allowed" with
    | Except.error e => (Except.error e, fc)
    | Except.ok _ =>
      match data.getUnitval U_W_M2 with
      | Except.error e => (Except.error e, fc)
      | Except.ok v => (Except.ok (), { fc with atropO3 := v })
  else if varName = D_ASO2D then
    match H_ASSERT (decide (data.date = core.undefinedIndex)) "date not allowed" with
    | Except.error e => (Except.error e, fc)
    | Except.ok _ =>
      match data.getUnitval U_W_M2 with
      | Except.error e => (Except.error e, fc)
      | Except.ok v => (Except.ok (), { fc with aso2d := v })
  else if varName = D_FTOT_CONSTRAIN then
    match H_ASSERT (decide (data.date ≠ core.undefinedIndex)) "date required" with
    | Except.error e => (Except.error e, fc)
    | Except.ok _ =>
      match data.getUnitval U_W_M2 with
      | Except.error e => (Except.error e, fc)
      | Except.ok v =>
        (Except.ok (), { fc with Ftot_constrain := fc.Ftot_constrain.set data.date v })
  else
    (H_THROW ("Unknown variable name while parsing " ++ FORCING_COMPONENT_NAME ++ ": "
        ++ varName), fc)

/-- Member function `ForcingComponent::setData`: the `try` block and its `catch`,
which re-throws with the variable name added. -/
def setData (core : Core) (fc : ForcingComponent) (varName : String)
    (data : message_data) : Except h_exception Unit × ForcingComponent :=
  match setData_try core fc varName data with
  | (Except.error parseException, fc1) =>
    (H_RETHROW parseException ("Could not parse var: " ++ varName), fc1)
  | (Except.ok u, fc1) => (Except.ok u, fc1)

/-- Member function `ForcingComponent::prepareToRun`. -/
def prepareToRun (core : Core) (fc : ForcingComponent) :
    Except h_exception Unit × ForcingComponent :=
  let fc1 := if fc.baseyear = 0 then { fc with baseyear := core.getStartDate + 1 } else fc
  match H_ASSERT (decide (fc1.baseyear > core.getStartDate))
      "Base year must be >= model start date" with
  | Except.error e => (Except.error e, fc1)
  | Except.ok _ => (Except.ok (), { fc1 with baseyear_forcings := StdMap.empty })

/-- The macro `f(M,N)` of `run`: the overlap of the CH4 and N2O bands, equation
(A9) of Joos et al., 2001. -/
def f (m : Libm) (M N : Rat) : Rat :=
  0.47 * m.log (1 + 2.01 * 1e-5 * m.pow (M * N) 0.75 + 5.31 * 1e-15 * M * m.pow (M * N) 1.52)

/-- Block `CO2` of `run`, after `Ca` has been fetched and `C0` updated. -/
def run_CO2 (m : Libm) (fc : ForcingComponent) (Ca : unitval) (forcings : forcings_t) :
    Except h_exception forcings_t := do
  let a ← fc.aCO2.value U_W_M2
  let r ← Ca.div fc.C0
  pure (forcings.insert D_RF_CO2 (unitval.set (a * m.log r) U_W_M2))

/-- Block `Terrestrial albedo` of `run`. -/
def run_albedo (core : Core) (runToDate : Rat) (forcings : forcings_t) :
    Except h_exception forcings_t :=
  if core.checkCapability D_RF_T_ALBEDO then do
    let v ← core.sendMessage M_GETDATA D_RF_T_ALBEDO (message_data.ofDate runToDate)
    pure (forcings.insert D_RF_T_ALBEDO v)
  else pure forcings

/-- Block `N2O and CH4` of `run`, with the stratospheric H2O forcing. -/
def run_CH4_N2O (m : Libm) (core : Core) (fc : ForcingComponent) (runToDate : Rat)
    (forcings : forcings_t) : Except h_exception forcings_t :=
  if core.checkCapability D_ATMOSPHERIC_CH4 && core.checkCapability D_ATMOSPHERIC_N2O then do
    let Ma ← (← core.sendMessage M_GETDATA D_ATMOSPHERIC_CH4
      (message_data.ofDate runToDate)).value U_PPBV_CH4
    let M0 ← (← core.sendMessage M_GETDATA D_PREINDUSTRIAL_CH4 core.noData).value U_PPBV_CH4
    let Na ← (← core.sendMessage M_GETDATA D_ATMOSPHERIC_N2O
      (message_data.ofDate runToDate)).value U_PPBV_N2O
    let N0 ← (← core.sendMessage M_GETDATA D_PREINDUSTRIAL_N2O core.noData).value U_PPBV_N2O
    let aCH4v ← fc.aCH4.value U_W_M2
    let fch4 := aCH4v * (m.sqrt Ma - m.sqrt M0) - (f m Ma N0 - f m M0 N0)
    let forcings := forcings.insert D_RF_CH4 (unitval.set fch4 U_W_M2)
    let aN2Ov ← fc.aN2O.value U_W_M2
    let fn2o := aN2Ov * (m.sqrt Na - m.sqrt N0) - (f m M0 Na - f m M0 N0)
    let forcings := forcings.insert D_RF_N2O (unitval.set fn2o U_W_M2)
    let aCH4w ← fc.aCH4.value U_W_M2
    let fh2o_strat := 0.05 * (aCH4w * (m.sqrt Ma - m.sqrt M0))
    pure (forcings.insert D_RF_H2O_STRAT (unitval.set fh2o_strat U_W_M2))
  else pure forcings

/-- Block `Troposheric Ozone` of `run`. -/
def run_O3 (core : Core) (fc : ForcingComponent) (runToDate : Rat) (forcings : forcings_t) :
    Except h_exception forcings_t :=
  if core.checkCapability D_ATMOSPHERIC_O3 then do
    let ozone ← (← core.sendMessage M_GETDATA D_ATMOSPHERIC_O3
      (message_data.ofDate runToDate)).value U_DU_O3
    let fo3_trop := (fc.atropO3.scale ozone).toDouble
    pure (forcings.insert D_RF_O3_TROP (unitval.set fo3_trop U_W_M2))
  else pure forcings

/-- Block `Halocarbons` of `run`: the loop over the array `halos`. -/
def run_halos (core : Core) (runToDate : Rat) :
    List String → forcings_t → Except h_exception forcings_t
  | [], forcings => pure forcings
  | h :: hs, forcings =>
    if core.checkCapability h then do
      let v ← core.sendMessage M_GETDATA h (message_data.ofDate runToDate)
      run_halos core runToDate hs (forcings.insert h v)
    else run_halos core runToDate hs forcings

/-- Block `Black carbon` of `run`. -/
def run_BC (core : Core) (runToDate : Rat) (forcings : forcings_t) :
    Except h_exception forcings_t :=
  if core.checkCapability D_EMISSIONS_BC then do
    let e ← (← core.sendMessage M_GETDATA D_EMISSIONS_BC
      (message_data.ofDate runToDate)).value U_TG
    let fbc := 0.0743 * e
    pure (forcings.insert D_RF_BC (unitval.set fbc U_W_M2))
  else pure forcings

/-- Block `Organic carbon` of `run`. -/
def run_OC (core : Core) (runToDate : Rat) (forcings : forcings_t) :
    Except h_exception forcings_t :=
  if core.checkCapability D_EMISSIONS_OC then do
    let e ← (← core.sendMessage M_GETDATA D_EMISSIONS_OC
      (message_data.ofDate runToDate)).value U_TG
    let foc := -0.0128 * e
    pure (forcings.insert D_RF_OC (unitval.set foc U_W_M2))
  else pure forcings

/-- Block `Sulphate Aerosols` of `run`: direct and indirect forcing. -/
def run_SO2 (m : Libm) (core : Core) (fc : ForcingComponent) (runToDate : Rat)
    (forcings : forcings_t) : Except h_exception forcings_t :=
  if core.checkCapability D_NATURAL_SO2 && core.checkCapability D_EMISSIONS_SO2 then do
    let S0 ← core.sendMessage M_GETDATA D_2000_SO2 core.noData
    let SN ← core.sendMessage M_GETDATA D_NATURAL_SO2 core.noData
    let s0 ← S0.value U_GG_S
    H_ASSERT (decide (s0 > 0)) "S0 is 0"
    let emission ← core.sendMessage M_GETDATA D_EMISSIONS_SO2 (message_data.ofDate runToDate)
    let aso2dv ← fc.aso2d.value U_W_M2
    let fso2d ← (emission.scale aso2dv).div S0
    let forcings := forcings.insert D_RF_SO2d (unitval.set fso2d U_W_M2)
    let sn ← SN.value U_GG_S
    let em ← emission.value U_GG_S
    let a := -0.6 * m.log ((sn + em) / sn)
    let s0b ← S0.value U_GG_S
    let b := m.pow (m.log ((sn + s0b) / sn)) (-1)
    let fso2i := a * b
    pure (forcings.insert D_RF_SO2i (unitval.set fso2i U_W_M2))
  else pure forcings

/-- Block `Volcanic forcings` of `run`. -/
def run_vol (core : Core) (runToDate : Rat) (forcings : forcings_t) :
    Except h_exception forcings_t :=
  if core.checkCapability D_VOLCANIC_SO2 then do
    let v ← core.sendMessage M_GETDATA D_VOLCANIC_SO2 (message_data.ofDate runToDate)
    pure (forcings.insert D_RF_VOL v)
  else pure forcings

/-- The forcing agents of `run` in sequence, from the empty local map
`forcings` to the map of all absolute forcings before the total. -/
def run_agents (m : Libm) (core : Core) (fc : ForcingComponent) (runToDate : Rat)
    (Ca : unitval) : Except h_exception forcings_t := do
  let forcings : forcings_t := StdMap.empty
  let forcings ← run_CO2 m fc Ca forcings
  let forcings ← run_albedo core runToDate forcings
  let forcings ← run_CH4_N2O m core fc runToDate forcings
  let forcings ← run_O3 core fc runToDate forcings
  let forcings ← run_halos core runToDate halos forcings
  let forcings ← run_BC core runToDate forcings
  let forcings ← run_OC core runToDate forcings
  let forcings ← run_SO2 m core fc runToDate forcings
  run_vol core runToDate forcings

/-- Block `Total` of `run`: the loop `Ftot = Ftot + (*it).second` over the
entries of `forcings`. -/
def run_Ftot : List (String × unitval) → unitval → Except h_exception unitval
  | [], Ftot => pure Ftot
  | it :: rest, Ftot => do
    let Ftot1 ← Ftot.add it.2
    run_Ftot rest Ftot1

/-- The value `run` stores under `D_RF_TOTAL`: the user-supplied total when the
guard `Ftot_constrain.size() && runToDate <= Ftot_constrain.lastdate()` holds,
the computed total otherwise. -/
def run_total (fc : ForcingComponent) (runToDate : Rat) (Ftot : unitval) :
    Except h_exception unitval := do
  let guard ← (if fc.Ftot_constrain.size ≠ 0 then do
      let ld ← fc.Ftot_constrain.lastdate
      pure (decide (runToDate ≤ ld))
    else pure false)
  if guard then fc.Ftot_constrain.get runToDate else pure Ftot

/-- All absolute forcings of a step of `run`, the total included: what the
local map `forcings` holds when the comment `Change to relative forcing` is
reached. -/
def run_absolute (m : Libm) (core : Core) (fc : ForcingComponent) (runToDate : Rat)
    (Ca : unitval) : Except h_exception forcings_t := do
  let forcings ← run_agents m core fc runToDate Ca
  let Ftot ← run_Ftot forcings.entries (unitval.set 0 U_W_M2)
  let tot ← run_total fc runToDate Ftot
  pure (forcings.insert D_RF_TOTAL tot)

/-- The loop of `run` that makes the forcings relative to the base year:
`forcings[it->first] = it->second - baseyear_forcings[it->first]` for each entry
in turn.  The subscript on `baseyear_forcings` binds an absent name to the
default value; the second component is `baseyear_forcings` after the loop, or at
the point where the subtraction threw. -/
def run_relative : List (String × unitval) → forcings_t →
    Except h_exception (List (String × unitval)) × forcings_t
  | [], base => (Except.ok [], base)
  | it :: rest, base =>
    let b := base.subscript it.1
    match it.2.sub b.1 with
    | Except.error e => (Except.error e, b.2)
    | Except.ok r =>
      match run_relative rest b.2 with
      | (Except.error e, base1) => (Except.error e, base1)
      | (Except.ok rs, base1) => (Except.ok ((it.1, r) :: rs), base1)

/-- Store a list of entries in a map, one assignment per entry. -/
def assignAll (l : List (String × unitval)) (forcings : forcings_t) : forcings_t :=
  l.foldl (fun acc e => acc.insert e.1 e.2) forcings

/-- Member function `ForcingComponent::run`. -/
def run (m : Libm) (core : Core) (fc : ForcingComponent) (runToDate : Rat) :
    Except h_exception Unit × ForcingComponent :=
  let fc1 := { fc with currentYear := runToDate }
  if runToDate < fc1.baseyear then (Except.ok (), fc1)
  else
    match core.sendMessage M_GETDATA D_ATMOSPHERIC_CO2 core.noData with
    | Except.error e => (Except.error e, fc1)
    | Except.ok Ca =>
      let fc2 := if runToDate = fc1.baseyear then { fc1 with C0 := Ca } else fc1
      match run_absolute m core fc2 runToDate Ca with
      | Except.error e => (Except.error e, fc2)
      | Except.ok forcings =>
        let fc3 := if runToDate = fc2.baseyear then
          { fc2 with baseyear_forcings := forcings } else fc2
        match run_relative forcings.entries fc3.baseyear_forcings with
        | (Except.error e, base) => (Except.error e, { fc3 with baseyear_forcings := base })
        | (Except.ok rel, base) =>
          (Except.ok (),
            { fc3 with
              baseyear_forcings := base
              forcings_ts := fc3.forcings_ts.set runToDate (assignAll rel forcings) })

/-- Member function `ForcingComponent::getData`.  The second component is the
object after the call. -/
def getData (core : Core) (fc : ForcingComponent) (varName : String) (date : Rat) :
    Except h_exception unitval × ForcingComponent :=
  let getdate := if date = core.undefinedIndex then fc.currentYear else date
  if getdate < fc.baseyear then
    let returnval := unitval.set 0 U_W_M2
    let returnval :=
      if varName = D_ACO2 then fc.aCO2
      else if varName = D_AN2O then fc.aN2O
      else if varName = D_ACH4 then fc.aCH4
      else if varName = D_ATROPO3 then fc.atropO3
      else if varName = D_ASO2D then fc.aso2d
      else returnval
    (Except.ok returnval, fc)
  else
    match fc.forcings_ts.get getdate with
    | Except.error e => (Except.error e, fc)
    | Except.ok forcings =>
      if varName = D_RF_BASEYEAR then
        (Except.ok (unitval.set fc.baseyear U_UNITLESS), fc)
      else if varName = D_RF_SO2 then
        let forcing_SO2d := forcings.find D_RF_SO2d
        let forcing_SO2i := forcings.find D_RF_SO2i
        match forcing_SO2d with
        | some d =>
          match forcing_SO2i with
          | some i => (d.add i, fc)
          | none => (Except.ok d, fc)
        | none =>
          match forcing_SO2i with
          | some i => (Except.ok i, fc)
          | none => (Except.ok (unitval.set 0 U_W_M2), fc)
      else
        let forcit := fc.forcing_name_map.find varName
        let named : String × StdMap String String :=
          if forcit.isSome then fc.forcing_name_map.subscript varName
          else (varName, fc.forcing_name_map)
        let forcing_name := named.1
        let fc1 := { fc with forcing_name_map := named.2 }
        match forcings.find forcing_name with
        | some v => (Except.ok v, fc1)
        | none =>
          if fc.currentYear < fc.baseyear then (Except.ok (unitval.set 0 U_W_M2), fc1)
          else (H_THROW ("Caller is requesting unknown variable: " ++ varName), fc1)

/-- Member function `ForcingComponent::reset`. -/
def reset (fc : ForcingComponent) (time : Rat) : ForcingComponent :=
  { fc with currentYear := time, forcings_ts := fc.forcings_ts.truncate time }

/-- Member function `ForcingComponent::sendMessage`. -/
def sendMessage (core : Core) (fc : ForcingComponent) (message datum : String)
    (info : message_data) : Except h_exception unitval × ForcingComponent :=
  let returnval : unitval := default
  if message = M_GETDATA then getData core fc datum info.date
  else if message = M_SETDATA then
    match setData core fc datum info with
    | (Except.error e, fc1) => (Except.error e, fc1)
    | (Except.ok _, fc1) => (Except.ok returnval, fc1)
  else (H_THROW ("Caller sent unknown message: " ++ message), fc)

end ForcingComponent

end Hector

namespace Hector
open unit_types

deriving instance DecidableEq for Except


namespace ForcingComponent

/-! ## Auxiliary definitions used to state the properties -/

/-- The value the subscript `baseyear_forcings[k]` reads: the value bound to `k`,
or the default unit value when `k` is absent. -/
def baselineOf (base : forcings_t) (k : String) : unitval := (base.subscript k).1

/-- An entry made relative to the baseline `base`. -/
def rebaseEntry (base : forcings_t) (it : String × unitval) : unitval :=
  ⟨it.2.val - (baselineOf base it.1).val, it.2.valUnits⟩

/-- The object as `run` holds it once `Ca` is fetched: the clock is advanced and,
at the base year, `C0` is `Ca`. -/
def atStep (fc : ForcingComponent) (runToDate : Rat) (Ca : unitval) : ForcingComponent :=
  if runToDate = fc.baseyear then { fc with currentYear := runToDate, C0 := Ca }
  else { fc with currentYear := runToDate }

/-- The baseline a step of `run` subtracts: the absolute forcings of the step
itself at the base year, the stored snapshot otherwise. -/
def baselineAt (fc : ForcingComponent) (runToDate : Rat) (absolute : forcings_t) : forcings_t :=
  if runToDate = fc.baseyear then absolute else fc.baseyear_forcings

/-- The forcing agents of `run` with the condition under which each is present
in a step, in the order of the blocks of `run`. -/
def agentTable (core : Core) : List (String × Bool) :=
  [(D_RF_CO2, true),
   (D_RF_T_ALBEDO, core.checkCapability D_RF_T_ALBEDO),
   (D_RF_CH4, core.checkCapability D_ATMOSPHERIC_CH4 && core.checkCapability D_ATMOSPHERIC_N2O),
   (D_RF_N2O, core.checkCapability D_ATMOSPHERIC_CH4 && core.checkCapability D_ATMOSPHERIC_N2O),
   (D_RF_H2O_STRAT,
     core.checkCapability D_ATMOSPHERIC_CH4 && core.checkCapability D_ATMOSPHERIC_N2O),
   (D_RF_O3_TROP, core.checkCapability D_ATMOSPHERIC_O3)]
  ++ halos.map (fun h => (h, core.checkCapability h))
  ++ [(D_RF_BC, core.checkCapability D_EMISSIONS_BC),
      (D_RF_OC, core.checkCapability D_EMISSIONS_OC),
      (D_RF_SO2d, core.checkCapability D_NATURAL_SO2 && core.checkCapability D_EMISSIONS_SO2),
      (D_RF_SO2i, core.checkCapability D_NATURAL_SO2 && core.checkCapability D_EMISSIONS_SO2),
      (D_RF_VOL, core.checkCapability D_VOLCANIC_SO2)]

/-- The names of the forcing agents of `run`. -/
def agentNames : List String :=
  [D_RF_CO2, D_RF_T_ALBEDO, D_RF_CH4, D_RF_N2O, D_RF_H2O_STRAT, D_RF_O3_TROP]
  ++ halos ++ [D_RF_BC, D_RF_OC, D_RF_SO2d, D_RF_SO2i, D_RF_VOL]

/-- The absolute forcing of an agent in a map of forcings, 0 when absent. -/
def forcingOf (forcings : forcings_t) (k : String) : Rat :=
  match forcings.find k with
  | some v => v.val
  | none => 0

/-- The object with no total-forcing constraint supplied: the series
`Ftot_constrain` is empty. -/
def withoutConstraint (fc : ForcingComponent) : ForcingComponent :=
  { fc with Ftot_constrain := { fc.Ftot_constrain with mapdata := StdMap.empty } }

/-- Every value of the constraint series is in W/m2, as `setData` stores it. -/
def constraintInWM2 (fc : ForcingComponent) : Prop :=
  ∀ e ∈ fc.Ftot_constrain.mapdata.entries, e.2.valUnits = U_W_M2

instance (fc : ForcingComponent) : Decidable (constraintInWM2 fc) := by
  unfold constraintInWM2; infer_instance


/-! ## Concrete inputs -/

/-- Libm stand-ins for evaluating `run` on concrete inputs. -/
def demoLibm : Libm := { log := fun x => x - 1, sqrt := fun x => x, pow := fun x _ => x }

/-- A core at the base year: terrestrial albedo and black-carbon emissions are
registered, atmospheric CO2 is 280 ppmv. -/
def demoCore : Core :=
  { undefinedIndex := -1
    getStartDate := 1745
    checkCapability := fun s => decide (s = D_RF_T_ALBEDO) || decide (s = D_EMISSIONS_BC)
    sendMessage := fun _ datum _ =>
      if datum = D_ATMOSPHERIC_CO2 then Except.ok ⟨280, U_PPMV_CO2⟩
      else if datum = D_RF_T_ALBEDO then Except.ok ⟨-1 / 5, U_W_M2⟩
      else if datum = D_EMISSIONS_BC then Except.ok ⟨8, U_TG⟩
      else H_THROW "unknown capability" }

/-- The same core one year later: atmospheric CO2 is 290 ppmv. -/
def demoCoreLater : Core :=
  { demoCore with
    sendMessage := fun _ datum _ =>
      if datum = D_ATMOSPHERIC_CO2 then Except.ok ⟨290, U_PPMV_CO2⟩
      else if datum = D_RF_T_ALBEDO then Except.ok ⟨-1 / 4, U_W_M2⟩
      else if datum = D_EMISSIONS_BC then Except.ok ⟨9, U_TG⟩
      else H_THROW "unknown capability" }

/-- A component after `init`, with base year 1746 and `aCO2` set. -/
def demoFc : ForcingComponent :=
  { (default : ForcingComponent).init with baseyear := 1746, aCO2 := ⟨5, U_W_M2⟩ }

/-- The component `demoFc` after the step at its base year. -/
def demoFcBase : ForcingComponent := (run demoLibm demoCore demoFc 1746).2

/-- The component `demoFc` with a total-forcing constraint supplied through
`setData` for 1746 (2 W/m2) and 1750 (4 W/m2). -/
def demoFcConstrained : ForcingComponent :=
  (setData demoCore
    (setData demoCore demoFc D_FTOT_CONSTRAIN ⟨1746, some ⟨2, U_W_M2⟩⟩).2
    D_FTOT_CONSTRAIN ⟨1750, some ⟨4, U_UNDEFINED⟩⟩).2

/-- The component `demoFcConstrained` after the step at its base year. -/
def demoFcConstrainedBase : ForcingComponent :=
  (run demoLibm demoCore demoFcConstrained 1746).2

/-- The component `demoFc` with a total-forcing constraint that starts after the
base year: 1750 (2 W/m2) and 1760 (4 W/m2). -/
def demoFcLate : ForcingComponent :=
  (setData demoCore
    (setData demoCore demoFc D_FTOT_CONSTRAIN ⟨1750, some ⟨2, U_W_M2⟩⟩).2
    D_FTOT_CONSTRAIN ⟨1760, some ⟨4, U_W_M2⟩⟩).2

end ForcingComponent
end Hector

namespace Hector

/-! ## Biome sweeps of `SimpleNbox`

Source: `src/inst/include/simpleNbox.hpp`, the member templates
`add_biome_to_ts`, `remove_biome_from_ts` and `rename_biome_in_ts`. -/

/-- Lookup `m.at(k)`, which throws when the key is absent. -/
def StdMap.atKey {κ α : Type} [LinearOrder κ] (m : StdMap κ α) (k : κ) :
    Except h_exception α :=
  match m.find k with
  | some v => Except.ok v
  | none => H_THROW "map::at: key not found"

/-- The values `i` takes in `for (double i = first; i < last; i++)`: `first`,
`first + 1`, ... as long as they are below `last`. -/
def forDates (first last : Rat) : List Rat :=
  (List.range (Int.toNat ⌈last - first⌉)).map (fun (k : Nat) => first + (k : Rat))

namespace SimpleNbox

variable {α : Type}

/-- The loop of `add_biome_to_ts` over the values of `i`:
`if (ts.exists(i)) { newval = ts.get(i); newval[biome] = init_value; ts.set(i, newval); }`.
The second component is the series as the loop leaves it. -/
def add_biome_loop (biome : String) (init_value : α) :
    List Rat → tvector (StdMap String α) → Except h_exception Unit × tvector (StdMap String α)
  | [], ts => (Except.ok (), ts)
  | i :: rest, ts =>
    if ts.hasDate i then
      match ts.get i with
      | Except.error e => (Except.error e, ts)
      | Except.ok newval =>
        add_biome_loop biome init_value rest (ts.set i (newval.insert biome init_value))
    else add_biome_loop biome init_value rest ts

/-- Member template `SimpleNbox::add_biome_to_ts`.  The loop only overwrites
dates that exist, so its bounds `ts.firstdate()` and `ts.lastdate()` are those
at the start of the call. -/
def add_biome_to_ts (ts : tvector (StdMap String α)) (biome : String) (init_value : α) :
    Except h_exception Unit × tvector (StdMap String α) :=
  match ts.firstdate with
  | Except.error e => (Except.error e, ts)
  | Except.ok first =>
    match ts.get first with
    | Except.error e => (Except.error e, ts)
    | Except.ok m0 =>
      if m0.contains biome then
        (H_THROW ("Biome '" ++ biome ++ "' already exists in data."), ts)
      else
        match ts.lastdate with
        | Except.error e => (Except.error e, ts)
        | Except.ok last => add_biome_loop biome init_value (forDates first last) ts

/-- The loop of `remove_biome_from_ts` over the values of `i`:
`if (ts.exists(i)) { currval = ts.get(i); currval.erase(biome); ts.set(i, currval); }`. -/
def remove_biome_loop (biome : String) :
    List Rat → tvector (StdMap String α) → Except h_exception Unit × tvector (StdMap String α)
  | [], ts => (Except.ok (), ts)
  | i :: rest, ts =>
    if ts.hasDate i then
      match ts.get i with
      | Except.error e => (Except.error e, ts)
      | Except.ok currval => remove_biome_loop biome rest (ts.set i (currval.erase biome))
    else remove_biome_loop biome rest ts

/-- Member template `SimpleNbox::remove_biome_from_ts`. -/
def remove_biome_from_ts (ts : tvector (StdMap String α)) (biome : String) :
    Except h_exception Unit × tvector (StdMap String α) :=
  match ts.firstdate with
  | Except.error e => (Except.error e, ts)
  | Except.ok first =>
    match ts.lastdate with
    | Except.error e => (Except.error e, ts)
    | Except.ok last => remove_biome_loop biome (forDates first last) ts

/-- The loop of `rename_biome_in_ts` over the values of `i`:
`if (ts.exists(i)) { currval = ts.get(i); currval[newname] = currval.at(oldname);
currval.erase(oldname); ts.set(i, currval); }`. -/
def rename_biome_loop (oldname newname : String) :
    List Rat → tvector (StdMap String α) → Except h_exception Unit × tvector (StdMap String α)
  | [], ts => (Except.ok (), ts)
  | i :: rest, ts =>
    if ts.hasDate i then
      match ts.get i with
      | Except.error e => (Except.error e, ts)
      | Except.ok currval =>
        match currval.atKey oldname with
        | Except.error e => (Except.error e, ts)
        | Except.ok v =>
          rename_biome_loop oldname newname rest
            (ts.set i ((currval.insert newname v).erase oldname))
    else rename_biome_loop oldname newname rest ts

/-- Member template `SimpleNbox::rename_biome_in_ts`. -/
def rename_biome_in_ts (ts : tvector (StdMap String α)) (oldname newname : String) :
    Except h_exception Unit × tvector (StdMap String α) :=
  match ts.firstdate with
  | Except.error e => (Except.error e, ts)
  | Except.ok first =>
    match ts.get first with
    | Except.error e => (Except.error e, ts)
    | Except.ok m0 =>
      if ¬ m0.contains oldname then
        (H_THROW ("Biome '" ++ oldname ++ "' not found in data."), ts)
      else
        match ts.get first with
        | Except.error e => (Except.error e, ts)
        | Except.ok m1 =>
          if m1.contains newname then
            (H_THROW ("Biome '" ++ newname ++ "' already exists in data."), ts)
          else
            match ts.lastdate with
            | Except.error e => (Except.error e, ts)
            | Except.ok last => rename_biome_loop oldname newname (forDates first last) ts

/-- Two series record the same dates and, at every date, bind every key outside
`keys` to the same value. -/
def sameOffKeys (keys : List String) (ts ts2 : tvector (StdMap String α)) : Prop :=
  (∀ d, ts2.hasDate d = ts.hasDate d) ∧
  ∀ d m m2, ts.mapdata.find d = some m → ts2.mapdata.find d = some m2 →
    ∀ k, k ∉ keys → m2.find k = m.find k

/-- A biome-keyed map with the single biome `biome` bound to `v`. -/
def biomeMap (biome : String) (v : Rat) : StdMap String Rat :=
  (StdMap.empty : StdMap String Rat).insert biome v

/-- A history of three yearly records of a one-biome map. -/
def demoBiomeTs : tvector (StdMap String Rat) :=
  (((default : tvector (StdMap String Rat)).set 1745 (biomeMap "global" 10)).set 1746
    (biomeMap "global" 11)).set 1747 (biomeMap "global" 12)

/-- A history with a single record. -/
def demoBiomeTsOne : tvector (StdMap String Rat) :=
  (default : tvector (StdMap String Rat)).set 1745 (biomeMap "a" 10)

end SimpleNbox

end Hector

namespace Hector
namespace ForcingComponent

/-! ## Sequences of steps -/

/-- The component after the steps `run(d)` of a sequence, each step paired with
the core that answers its queries. -/
def runSeq (m : Libm) : List (Core × Rat) → ForcingComponent → ForcingComponent
  | [], fc => fc
  | step :: rest, fc => runSeq m rest (run m step.1 fc step.2).2

/-- Every step of the sequence returns normally. -/
def runSeqCompletes (m : Libm) : List (Core × Rat) → ForcingComponent → Bool
  | [], _ => true
  | step :: rest, fc =>
    completes (run m step.1 fc step.2).1 && runSeqCompletes m rest (run m step.1 fc step.2).2

/-- The object with the four members that `run` and `reset` write replaced. -/
def withState (fc : ForcingComponent) (currentYear : Rat) (C0 : unitval)
    (baseyear_forcings : forcings_t) (forcings_ts : tvector forcings_t) : ForcingComponent :=
  { fc with
    currentYear := currentYear
    C0 := C0
    baseyear_forcings := baseyear_forcings
    forcings_ts := forcings_ts }

end ForcingComponent
end Hector

namespace Hector
open unit_types

/-! ## Visitors -/

/-- The classes for which `AVisitor` declares an overload of `visit`, in the
order of the declarations. -/
inductive Visitable where
  | Core
  | DummyModelComponent
  | ForcingComponent
  | slrComponent
  | CarbonCycleSolver
  | SimpleNbox
  | HalocarbonComponent
  | OHComponent
  | CH4Component
  | N2OComponent
  | TemperatureComponent
  | BlackCarbonComponent
  | OrganicCarbonComponent
  | OceanComponent
  | SulfurComponent
  | OzoneComponent
  deriving DecidableEq

/-- The object a handler is given: the component for `ForcingComponent`; the
other classes are not among the sources and stand as a token. -/
@[reducible]
def Visitable.object : Visitable → Type
  | Visitable.ForcingComponent => Hector.ForcingComponent
  | _ => Unit

/-- Class `AVisitor`, for a visitor whose data members are a value of `V`: its
virtual member functions.  `visit c` is the overload of `visit` for the class
`c`; it receives a pointer to the object, so it returns the object as it leaves
it together with the visitor. -/
structure AVisitor (V : Type) where
  shouldVisit : V → Bool → Rat → Bool
  reset : V → Rat → V
  visit : (c : Visitable) → V → c.object → V × c.object

/-- The members as `AVisitor` itself defines them: `reset` and every `visit`
have the empty body; `shouldVisit` is pure virtual and comes from the subclass. -/
def AVisitor.inherited {V : Type} (shouldVisit : V → Bool → Rat → Bool) : AVisitor V :=
  { shouldVisit := shouldVisit
    reset := fun v _ => v
    visit := fun _ v c => (v, c) }

/-- A visitor together with a journal of the handlers entered, each with the
object it was given. -/
def AVisitor.journaled {V : Type} (visitor : AVisitor V) :
    AVisitor (V × List (Σ c : Visitable, c.object)) :=
  { shouldVisit := fun s => visitor.shouldVisit s.1
    reset := fun s d => (visitor.reset s.1 d, s.2)
    visit := fun c s x =>
      (((visitor.visit c s.1 x).1, s.2 ++ [⟨c, x⟩]), (visitor.visit c s.1 x).2) }

namespace ForcingComponent

/-- Member function `ForcingComponent::accept`: `visitor->visit( this )`. -/
def accept {V : Type} (visitor : AVisitor V) (v : V) (fc : ForcingComponent) :
    V × ForcingComponent :=
  visitor.visit Visitable.ForcingComponent v fc

end ForcingComponent

/-! ## Mass balance of `SimpleNbox` -/

/-- The members of class `SimpleNbox` that enter the mass balance, in Pg C: the
earth and atmosphere pools, the pools of each biome, the total the ocean
component reports, and the tracker `masstot`. -/
structure SimpleNbox where
  earth_c : Rat
  atmos_c : Rat
  veg_c : StdMap String Rat
  detritus_c : StdMap String Rat
  soil_c : StdMap String Rat
  permafrost_c : StdMap String Rat
  thawed_permafrost_c : StdMap String Rat
  ocean_c : Rat
  masstot : Rat
  deriving DecidableEq

namespace SimpleNbox

/-- Macro `MB_EPSILON`: allowed tolerance for mass-balance checks, Pg C. -/
def MB_EPSILON : Rat := 0.001

/-- Modelled from the spec: `sum_map` is declared in `simpleNbox.hpp` (sums a
map) and defined outside the sources. -/
def sum_map (pool : StdMap String Rat) : Rat := (pool.entries.map Prod.snd).sum

/-- Modelled from the spec: the land total of section 4.4, the pools of every
biome (the static part is a fraction of the thawed permafrost pool). -/
def land_total (s : SimpleNbox) : Rat :=
  sum_map s.veg_c + sum_map s.detritus_c + sum_map s.soil_c + sum_map s.permafrost_c
    + sum_map s.thawed_permafrost_c

/-- Modelled from the spec: the total carbon across all pools,
atmosphere + land total + ocean total + earth. -/
def total_c (s : SimpleNbox) : Rat := s.atmos_c + land_total s + s.ocean_c + s.earth_c

/-- Modelled from the spec: `sanitychecks` is declared in `simpleNbox.hpp`
(performs mass-balance and other checks) and defined outside the sources.  The
mass-balance check of section 4.4 on the pools of a step: the total carbon must
equal the running total of the previous step plus the net external fluxes
within `MB_EPSILON`; a violation throws, otherwise the total becomes the running
total. -/
def sanitychecks (s : SimpleNbox) (net_external : Rat) :
    Except h_exception Unit × SimpleNbox :=
  if |total_c s - (s.masstot + net_external)| ≤ MB_EPSILON then
    (Except.ok (), { s with masstot := total_c s })
  else (H_THROW "Mass not conserved", s)

/-- A state in balance: 600 Pg C in the atmosphere, 2000 on land in one biome,
38000 in the ocean and 5000 in the earth. -/
def demoPools : SimpleNbox :=
  { earth_c := 5000
    atmos_c := 600
    veg_c := StdMap.empty.insert "global" 500
    detritus_c := StdMap.empty.insert "global" 50
    soil_c := StdMap.empty.insert "global" 1450
    permafrost_c := StdMap.empty
    thawed_permafrost_c := StdMap.empty
    ocean_c := 38000
    masstot := 45600 }

end SimpleNbox

namespace ForcingComponent

/-- A core in which the CH4 and N2O components are registered: 1800 ppbv CH4
over a preindustrial 700, 320 ppbv N2O over a preindustrial 270. -/
def demoCoreCH4 : Core :=
  { undefinedIndex := -1
    getStartDate := 1745
    checkCapability := fun s =>
      decide (s = D_ATMOSPHERIC_CH4) || decide (s = D_ATMOSPHERIC_N2O)
    sendMessage := fun _ datum _ =>
      if datum = D_ATMOSPHERIC_CO2 then Except.ok ⟨280, U_PPMV_CO2⟩
      else if datum = D_ATMOSPHERIC_CH4 then Except.ok ⟨1800, U_PPBV_CH4⟩
      else if datum = D_PREINDUSTRIAL_CH4 then Except.ok ⟨700, U_PPBV_CH4⟩
      else if datum = D_ATMOSPHERIC_N2O then Except.ok ⟨320, U_PPBV_N2O⟩
      else if datum = D_PREINDUSTRIAL_N2O then Except.ok ⟨270, U_PPBV_N2O⟩
      else H_THROW "unknown capability" }

/-- The component `demoFc` with the CH4 and N2O efficiencies set. -/
def demoFcCH4 : ForcingComponent :=
  { demoFc with aCH4 := ⟨36 / 1000, U_W_M2⟩, aN2O := ⟨12 / 100, U_W_M2⟩ }

/-- The component `demoFcBase` with the base year changed to 1700, before the
start date 1745 of `demoCore`. -/
def demoFcEarly : ForcingComponent :=
  (setData demoCore demoFcBase D_RF_BASEYEAR ⟨-1, some ⟨1700, U_UNDEFINED⟩⟩).2

end ForcingComponent
end Hector

namespace Hector
open unit_types
namespace ForcingComponent

/-- A core in which the halocarbon component for CF4 is registered, with a
forcing of 1/10 W/m2. -/
def demoCoreHalo : Core :=
  { undefinedIndex := -1
    getStartDate := 1745
    checkCapability := fun s => decide (s = D_RF_CF4)
    sendMessage := fun _ datum _ =>
      if datum = D_ATMOSPHERIC_CO2 then Except.ok ⟨280, U_PPMV_CO2⟩
      else if datum = D_RF_CF4 then Except.ok ⟨1 / 10, U_W_M2⟩
      else H_THROW "unknown capability" }

/-- The same core a year later: the CF4 forcing is 3/10 W/m2. -/
def demoCoreHaloLater : Core :=
  { demoCoreHalo with
    sendMessage := fun _ datum _ =>
      if datum = D_ATMOSPHERIC_CO2 then Except.ok ⟨290, U_PPMV_CO2⟩
      else if datum = D_RF_CF4 then Except.ok ⟨3 / 10, U_W_M2⟩
      else H_THROW "unknown capability" }

/-- The component `demoFc` after the steps at 1746 and 1747 with CF4 present. -/
def demoFcHalo : ForcingComponent :=
  runSeq demoLibm [(demoCoreHalo, 1746), (demoCoreHaloLater, 1747)] demoFc

/-- The component `demoFc` with a record for 1746 that holds a direct and an
indirect SO2 forcing. -/
def demoFcSulfur : ForcingComponent :=
  { demoFc with
    currentYear := 1746
    forcings_ts := (default : tvector forcings_t).set 1746
      ((StdMap.empty.insert D_RF_SO2d ⟨-3 / 10, U_W_M2⟩).insert D_RF_SO2i ⟨-5 / 10, U_W_M2⟩) }

end ForcingComponent
end Hector

namespace Hector
open unit_types

namespace SimpleNbox

/-- A history of three yearly records in which the biome "global" is a key at
the first and the last date but not at 1746. -/
def demoBiomeTsGap : tvector (StdMap String Rat) :=
  (((default : tvector (StdMap String Rat)).set 1745 (biomeMap "global" 10)).set 1746
    (biomeMap "tundra" 11)).set 1747 (biomeMap "global" 12)

end SimpleNbox

namespace ForcingComponent

/-- A core in which the CH4 and N2O components are registered and report the
preindustrial concentrations as the current ones: 700 ppbv CH4, 270 ppbv N2O. -/
def demoCorePre : Core :=
  { demoCoreCH4 with
    sendMessage := fun _ datum _ =>
      if datum = D_ATMOSPHERIC_CO2 then Except.ok ⟨280, U_PPMV_CO2⟩
      else if datum = D_ATMOSPHERIC_CH4 then Except.ok ⟨700, U_PPBV_CH4⟩
      else if datum = D_PREINDUSTRIAL_CH4 then Except.ok ⟨700, U_PPBV_CH4⟩
      else if datum = D_ATMOSPHERIC_N2O then Except.ok ⟨270, U_PPBV_N2O⟩
      else if datum = D_PREINDUSTRIAL_N2O then Except.ok ⟨270, U_PPBV_N2O⟩
      else H_THROW "unknown capability" }

/-- A core that answers no query and has no capability registered. -/
def demoCoreSilent : Core :=
  { undefinedIndex := -1
    getStartDate := 1745
    checkCapability := fun _ => false
    sendMessage := fun _ _ _ => H_THROW "unknown capability" }

end ForcingComponent
end Hector

namespace Hector

section StdMapLemmas

variable {κ α : Type} [LinearOrder κ]

theorem lookupList_insertList_self (k : κ) (v : α) (l : List (κ × α)) :
    lookupList k (insertList k v l) = some v := by
  induction l with
  | nil => simp [insertList, lookupList]
  | cons hd tl ih =>
    obtain ⟨k1, v1⟩ := hd
    unfold insertList
    split_ifs with h1 h2
    · simp [lookupList]
    · simp [lookupList]
    · simp [lookupList, h2, ih]

theorem lookupList_insertList_ne {k k2 : κ} (h : k2 ≠ k) (v : α) (l : List (κ × α)) :
    lookupList k2 (insertList k v l) = lookupList k2 l := by
  induction l with
  | nil => simp [insertList, lookupList, h]
  | cons hd tl ih =>
    obtain ⟨k1, v1⟩ := hd
    unfold insertList
    split_ifs with h1 h2
    · simp [lookupList, h]
    · subst h2
      simp [lookupList, h]
    · simp [lookupList, ih]

theorem lookupList_mem {k : κ} {v : α} {l : List (κ × α)}
    (h : lookupList k l = some v) : (k, v) ∈ l := by
  induction l with
  | nil => simp [lookupList] at h
  | cons hd tl ih =>
    obtain ⟨k1, v1⟩ := hd
    unfold lookupList at h
    split_ifs at h with h1
    · subst h1
      simp only [Option.some.injEq] at h
      subst h
      exact List.mem_cons_self _ _
    · exact List.mem_cons_of_mem _ (ih h)

theorem mem_lookupList {k : κ} {v : α} {l : List (κ × α)}
    (hl : l.Pairwise (fun a b => a.1 < b.1)) (h : (k, v) ∈ l) :
    lookupList k l = some v := by
  induction l with
  | nil => simp at h
  | cons hd tl ih =>
    obtain ⟨k1, v1⟩ := hd
    rw [List.pairwise_cons] at hl
    unfold lookupList
    rcases List.mem_cons.1 h with h1 | h1
    · simp only [Prod.mk.injEq] at h1
      simp [h1.1, h1.2]
    · have hlt : k1 < k := hl.1 (k, v) h1
      rw [if_neg (ne_of_gt hlt)]
      exact ih hl.2 h1

theorem lookupList_map_snd (g : κ × α → α) (k : κ) (l : List (κ × α)) :
    lookupList k (l.map (fun it => (it.1, g it))) = (lookupList k l).map (fun v => g (k, v)) := by
  induction l with
  | nil => simp [lookupList]
  | cons hd tl ih =>
    obtain ⟨k1, v1⟩ := hd
    simp only [List.map_cons, lookupList]
    split_ifs with h1
    · subst h1; simp
    · exact ih

theorem insertList_mid (k : κ) (v v0 : α) (p s : List (κ × α))
    (hp : ∀ x ∈ p, x.1 < k) :
    insertList k v (p ++ (k, v0) :: s) = p ++ (k, v) :: s := by
  induction p with
  | nil => simp [insertList]
  | cons hd tl ih =>
    obtain ⟨k1, v1⟩ := hd
    have h1 : k1 < k := hp (k1, v1) (List.mem_cons_self _ _)
    rw [List.cons_append, insertList, if_neg (not_lt.2 (le_of_lt h1)), if_neg (ne_of_gt h1),
      ih (fun x hx => hp x (List.mem_cons_of_mem _ hx)), List.cons_append]

end StdMapLemmas

namespace StdMap

variable {κ α : Type} [LinearOrder κ]

theorem find_insert_self (m : StdMap κ α) (k : κ) (v : α) : (m.insert k v).find k = some v :=
  lookupList_insertList_self k v m.entries

theorem find_insert_ne (m : StdMap κ α) {k k2 : κ} (h : k2 ≠ k) (v : α) :
    (m.insert k v).find k2 = m.find k2 :=
  lookupList_insertList_ne h v m.entries

theorem find_eq_some_iff (m : StdMap κ α) (k : κ) (v : α) :
    m.find k = some v ↔ (k, v) ∈ m.entries :=
  ⟨lookupList_mem, mem_lookupList m.sorted⟩

theorem contains_insert (m : StdMap κ α) (k k2 : κ) (v : α) :
    (m.insert k v).contains k2 = true ↔ (k2 = k ∨ m.contains k2 = true) := by
  unfold contains
  by_cases h : k2 = k
  · subst h; simp [find_insert_self]
  · simp [find_insert_ne m h, h]

end StdMap

namespace ForcingComponent

theorem assignAll_entries_aux (g : String × unitval → unitval) :
    ∀ (s p : List (String × unitval)) (acc : forcings_t), acc.entries = p ++ s →
      (assignAll (s.map (fun it => (it.1, g it))) acc).entries
        = p ++ s.map (fun it => (it.1, g it)) := by
  intro s
  induction s with
  | nil => intro p acc h; simpa [assignAll] using h
  | cons e s ih =>
    intro p acc h
    obtain ⟨k, v0⟩ := e
    have hs := acc.sorted
    rw [h, List.pairwise_append] at hs
    have hp : ∀ x ∈ p, x.1 < k := fun x hx => hs.2.2 x hx (k, v0) (List.mem_cons_self _ _)
    have h1 : (acc.insert k (g (k, v0))).entries = (p ++ [(k, g (k, v0))]) ++ s := by
      show insertList k (g (k, v0)) acc.entries = _
      rw [h, insertList_mid k _ v0 p s hp]
      simp
    have := ih (p ++ [(k, g (k, v0))]) (acc.insert k (g (k, v0))) h1
    simpa [assignAll] using this

theorem assignAll_entries (g : String × unitval → unitval) (forcings : forcings_t) :
    (assignAll (forcings.entries.map (fun it => (it.1, g it))) forcings).entries
      = forcings.entries.map (fun it => (it.1, g it)) := by
  simpa using assignAll_entries_aux g forcings.entries [] forcings rfl

end ForcingComponent

end Hector

namespace Hector
open unit_types
namespace ForcingComponent

theorem baselineOf_eq (base : forcings_t) (k : String) :
    baselineOf base k = (base.find k).getD default := by
  unfold baselineOf StdMap.subscript
  cases base.find k <;> rfl

theorem baselineOf_subscript (base : forcings_t) (k k2 : String) :
    baselineOf (base.subscript k).2 k2 = baselineOf base k2 := by
  rw [baselineOf_eq, baselineOf_eq]
  unfold StdMap.subscript
  cases hk : base.find k with
  | some v => rfl
  | none =>
    by_cases h : k2 = k
    · subst h; simp [StdMap.find_insert_self, hk]
    · simp [StdMap.find_insert_ne base h]

theorem subscript_of_find {base : forcings_t} {k : String} {v : unitval}
    (h : base.find k = some v) : base.subscript k = (v, base) := by
  unfold StdMap.subscript; rw [h]

theorem subscript_contains_self (base : forcings_t) (k : String) :
    (base.subscript k).2.contains k = true := by
  unfold StdMap.subscript StdMap.contains
  cases hk : base.find k with
  | some v => simp [hk]
  | none => simp [StdMap.find_insert_self]

theorem subscript_contains_mono (base : forcings_t) (k k2 : String)
    (h : base.contains k2 = true) : (base.subscript k).2.contains k2 = true := by
  unfold StdMap.subscript
  cases hk : base.find k with
  | some v => exact h
  | none =>
    show (base.insert k default).contains k2 = true
    rw [StdMap.contains_insert]; exact Or.inr h

theorem run_relative_ok : ∀ (l : List (String × unitval)) (base : forcings_t)
    (rel : List (String × unitval)) (base1 : forcings_t),
    run_relative l base = (Except.ok rel, base1) →
      rel = l.map (fun it => (it.1, rebaseEntry base it)) ∧
      (∀ it ∈ l, it.2.valUnits = (baselineOf base it.1).valUnits) ∧
      (∀ k, baselineOf base1 k = baselineOf base k) ∧
      ((∀ it ∈ l, base.contains it.1 = true) → base1 = base) ∧
      (∀ k, base.contains k = true → base1.contains k = true) ∧
      (∀ it ∈ l, base1.contains it.1 = true) := by
  intro l
  induction l with
  | nil =>
    intro base rel base1 h
    simp only [run_relative, Prod.mk.injEq, Except.ok.injEq] at h
    obtain ⟨h1, h2⟩ := h
    subst h1; subst h2
    simp
  | cons it rest ih =>
    intro base rel base1 h
    unfold run_relative at h
    simp only at h
    cases hs : it.2.sub (base.subscript it.1).1 with
    | error e => rw [hs] at h; simp at h
    | ok r =>
      rw [hs] at h
      simp only at h
      cases hr : run_relative rest (base.subscript it.1).2 with
      | mk res base2 =>
        rw [hr] at h
        cases res with
        | error e => simp at h
        | ok rs =>
          simp only [Prod.mk.injEq, Except.ok.injEq] at h
          obtain ⟨h1, h2⟩ := h
          subst h1; subst h2
          obtain ⟨i1, i2, i3, i4, i5, i6⟩ := ih _ _ _ hr
          have hu : it.2.valUnits = (baselineOf base it.1).valUnits ∧
              r = rebaseEntry base it := by
            unfold unitval.sub at hs
            split_ifs at hs with hu
            · simp only [Except.ok.injEq] at hs
              exact ⟨hu, hs ▸ rfl⟩
            · simp [H_THROW] at hs
          refine ⟨?_, ?_, ?_, ?_, ?_, ?_⟩
          · rw [i1, hu.2]
            simp only [List.map_cons, List.cons.injEq, true_and]
            apply List.map_congr_left
            intro x _
            simp [rebaseEntry, baselineOf_subscript]
          · intro x hx
            rcases List.mem_cons.1 hx with hx | hx
            · rw [hx]; exact hu.1
            · rw [i2 x hx, baselineOf_subscript]
          · intro k; rw [i3 k, baselineOf_subscript]
          · intro hall
            have hc := hall it (List.mem_cons_self _ _)
            unfold StdMap.contains at hc
            obtain ⟨v, hv⟩ := Option.isSome_iff_exists.1 hc
            have hsub := subscript_of_find hv
            rw [hsub] at i4
            exact i4 (fun x hx => hall x (List.mem_cons_of_mem _ hx))
          · intro k hk
            exact i5 k (subscript_contains_mono base it.1 k hk)
          · intro x hx
            rcases List.mem_cons.1 hx with hx | hx
            · rw [hx]; exact i5 _ (subscript_contains_self base it.1)
            · exact i6 x hx

end ForcingComponent
end Hector

namespace Hector
open unit_types
namespace ForcingComponent

theorem tvector_get_set {α : Type} (tv : tvector α) (t : Rat) (v : α) :
    (tv.set t v).get t = Except.ok v := by
  unfold tvector.get tvector.set
  simp [StdMap.find_insert_self]

theorem run_ok {m : Libm} {core : Core} {fc : ForcingComponent} {runToDate : Rat}
    (hd : ¬ runToDate < fc.baseyear)
    (h : (run m core fc runToDate).1 = Except.ok ()) :
    ∃ Ca absolute recorded,
      core.sendMessage M_GETDATA D_ATMOSPHERIC_CO2 core.noData = Except.ok Ca ∧
      run_absolute m core (atStep fc runToDate Ca) runToDate Ca = Except.ok absolute ∧
      (run m core fc runToDate).2.forcings_ts = fc.forcings_ts.set runToDate recorded ∧
      recorded.entries = absolute.entries.map
        (fun it => (it.1, rebaseEntry (baselineAt fc runToDate absolute) it)) ∧
      (∀ it ∈ absolute.entries,
        it.2.valUnits = (baselineOf (baselineAt fc runToDate absolute) it.1).valUnits) ∧
      (∀ k, baselineOf (run m core fc runToDate).2.baseyear_forcings k
        = baselineOf (baselineAt fc runToDate absolute) k) ∧
      ((∀ it ∈ absolute.entries, (baselineAt fc runToDate absolute).contains it.1 = true) →
        (run m core fc runToDate).2.baseyear_forcings = baselineAt fc runToDate absolute) ∧
      (∀ it ∈ absolute.entries,
        (run m core fc runToDate).2.baseyear_forcings.contains it.1 = true) := by
  unfold run at h ⊢
  simp only [if_neg hd] at h ⊢
  cases hCa : core.sendMessage M_GETDATA D_ATMOSPHERIC_CO2 core.noData with
  | error e => rw [hCa] at h; simp at h
  | ok Ca =>
    rw [hCa] at h
    simp only at h ⊢
    have hfc2 : (if runToDate = fc.baseyear then
        { fc with currentYear := runToDate, C0 := Ca }
        else { fc with currentYear := runToDate }) = atStep fc runToDate Ca := rfl
    rw [hfc2] at h ⊢
    have hby : (atStep fc runToDate Ca).baseyear = fc.baseyear := by
      unfold atStep; split_ifs <;> rfl
    have hbf : (atStep fc runToDate Ca).baseyear_forcings = fc.baseyear_forcings := by
      unfold atStep; split_ifs <;> rfl
    have hts : (atStep fc runToDate Ca).forcings_ts = fc.forcings_ts := by
      unfold atStep; split_ifs <;> rfl
    cases habs : run_absolute m core (atStep fc runToDate Ca) runToDate Ca with
    | error e => rw [habs] at h; simp at h
    | ok absolute =>
      rw [habs] at h
      simp only at h ⊢
      have hbase : (if runToDate = (atStep fc runToDate Ca).baseyear then
          { atStep fc runToDate Ca with baseyear_forcings := absolute }
          else atStep fc runToDate Ca).baseyear_forcings = baselineAt fc runToDate absolute := by
        unfold baselineAt
        rw [hby]
        split_ifs
        · rfl
        · exact hbf
      have hts3 : (if runToDate = (atStep fc runToDate Ca).baseyear then
          { atStep fc runToDate Ca with baseyear_forcings := absolute }
          else atStep fc runToDate Ca).forcings_ts = fc.forcings_ts := by
        split_ifs
        · exact hts
        · exact hts
      rw [hbase, hts3] at h
      rw [hbase, hts3]
      cases hrel : run_relative absolute.entries (baselineAt fc runToDate absolute) with
      | mk res base1 =>
        rw [hrel] at h
        cases res with
        | error e => simp at h
        | ok rel =>
          obtain ⟨r1, r2, r3, r4, -, r6⟩ := run_relative_ok _ _ _ _ hrel
          refine ⟨Ca, absolute, assignAll rel absolute, rfl, habs, rfl, ?_, r2, r3, r4, r6⟩
          rw [r1]
          exact assignAll_entries _ absolute

end ForcingComponent
end Hector

namespace Hector
open unit_types

theorem bind_eq_ok {ε α β : Type} (x : Except ε α) (f : α → Except ε β) (b : β) :
    (x >>= f) = Except.ok b ↔ ∃ a, x = Except.ok a ∧ f a = Except.ok b := by
  cases x <;> simp [bind, Except.bind]

theorem pure_eq_ok {ε α : Type} (a : α) : (pure a : Except ε α) = Except.ok a := rfl

namespace ForcingComponent

theorem run_CO2_keys {m : Libm} {fc : ForcingComponent} {Ca : unitval}
    {forcings out : forcings_t} (h : run_CO2 m fc Ca forcings = Except.ok out) (k : String) :
    out.contains k = true ↔ (forcings.contains k = true ∨ k = D_RF_CO2) := by
  unfold run_CO2 at h
  simp only [bind_eq_ok, pure_eq_ok, Except.ok.injEq] at h
  obtain ⟨a, -, r, -, h⟩ := h
  subst h
  rw [StdMap.contains_insert]; tauto

theorem run_albedo_keys {core : Core} {d : Rat}
    {forcings out : forcings_t} (h : run_albedo core d forcings = Except.ok out) (k : String) :
    out.contains k = true ↔ (forcings.contains k = true ∨
      (k = D_RF_T_ALBEDO ∧ core.checkCapability D_RF_T_ALBEDO = true)) := by
  unfold run_albedo at h
  split_ifs at h with hc
  · simp only [bind_eq_ok, pure_eq_ok, Except.ok.injEq] at h
    obtain ⟨v, -, h⟩ := h
    subst h
    rw [StdMap.contains_insert]; simp [hc]; tauto
  · simp only [pure_eq_ok, Except.ok.injEq] at h
    subst h; simp [hc]

theorem run_CH4_N2O_keys {m : Libm} {core : Core} {fc : ForcingComponent} {d : Rat}
    {forcings out : forcings_t} (h : run_CH4_N2O m core fc d forcings = Except.ok out)
    (k : String) :
    out.contains k = true ↔ (forcings.contains k = true ∨
      ((k = D_RF_CH4 ∨ k = D_RF_N2O ∨ k = D_RF_H2O_STRAT) ∧
        (core.checkCapability D_ATMOSPHERIC_CH4 && core.checkCapability D_ATMOSPHERIC_N2O)
          = true)) := by
  unfold run_CH4_N2O at h
  split_ifs at h with hc
  · simp only [bind_eq_ok, pure_eq_ok, Except.ok.injEq] at h
    obtain ⟨_, -, _, -, _, -, _, -, _, -, _, -, _, -, _, -, _, -, _, -, _, -, h⟩ := h
    subst h
    rw [StdMap.contains_insert, StdMap.contains_insert, StdMap.contains_insert]
    simp only [hc, and_true]; tauto
  · simp only [pure_eq_ok, Except.ok.injEq] at h
    subst h; simp [hc]

end ForcingComponent
end Hector

namespace Hector
open unit_types
namespace ForcingComponent

theorem run_O3_keys {core : Core} {fc : ForcingComponent} {d : Rat}
    {forcings out : forcings_t} (h : run_O3 core fc d forcings = Except.ok out) (k : String) :
    out.contains k = true ↔ (forcings.contains k = true ∨
      (k = D_RF_O3_TROP ∧ core.checkCapability D_ATMOSPHERIC_O3 = true)) := by
  unfold run_O3 at h
  split_ifs at h with hc
  · simp only [bind_eq_ok, pure_eq_ok, Except.ok.injEq] at h
    obtain ⟨_, -, _, -, h⟩ := h
    subst h
    rw [StdMap.contains_insert]; simp only [hc, and_true]; tauto
  · simp only [pure_eq_ok, Except.ok.injEq] at h
    subst h; simp [hc]

theorem run_halos_keys {core : Core} {d : Rat} : ∀ (hs : List String)
    {forcings out : forcings_t}, run_halos core d hs forcings = Except.ok out → ∀ k : String,
    (out.contains k = true ↔ (forcings.contains k = true ∨
      (k ∈ hs ∧ core.checkCapability k = true))) := by
  intro hs
  induction hs with
  | nil =>
    intro forcings out h k
    simp only [run_halos, pure_eq_ok, Except.ok.injEq] at h
    subst h; simp
  | cons x xs ih =>
    intro forcings out h k
    unfold run_halos at h
    split_ifs at h with hc
    · simp only [bind_eq_ok] at h
      obtain ⟨v, -, h⟩ := h
      rw [ih h k, StdMap.contains_insert]
      simp only [List.mem_cons]
      constructor
      · rintro ((h1 | h1) | h1)
        · exact Or.inr ⟨Or.inl h1, h1 ▸ hc⟩
        · exact Or.inl h1
        · exact Or.inr ⟨Or.inr h1.1, h1.2⟩
      · rintro (h1 | ⟨h1 | h1, h2⟩)
        · exact Or.inl (Or.inr h1)
        · exact Or.inl (Or.inl h1)
        · exact Or.inr ⟨h1, h2⟩
    · rw [ih h k]
      simp only [List.mem_cons]
      constructor
      · rintro (h1 | h1)
        · exact Or.inl h1
        · exact Or.inr ⟨Or.inr h1.1, h1.2⟩
      · rintro (h1 | ⟨h1 | h1, h2⟩)
        · exact Or.inl h1
        · exact absurd (h1 ▸ h2) hc
        · exact Or.inr ⟨h1, h2⟩

theorem run_BC_keys {core : Core} {d : Rat}
    {forcings out : forcings_t} (h : run_BC core d forcings = Except.ok out) (k : String) :
    out.contains k = true ↔ (forcings.contains k = true ∨
      (k = D_RF_BC ∧ core.checkCapability D_EMISSIONS_BC = true)) := by
  unfold run_BC at h
  split_ifs at h with hc
  · simp only [bind_eq_ok, pure_eq_ok, Except.ok.injEq] at h
    obtain ⟨_, -, _, -, h⟩ := h
    subst h
    rw [StdMap.contains_insert]; simp only [hc, and_true]; tauto
  · simp only [pure_eq_ok, Except.ok.injEq] at h
    subst h; simp [hc]

theorem run_OC_keys {core : Core} {d : Rat}
    {forcings out : forcings_t} (h : run_OC core d forcings = Except.ok out) (k : String) :
    out.contains k = true ↔ (forcings.contains k = true ∨
      (k = D_RF_OC ∧ core.checkCapability D_EMISSIONS_OC = true)) := by
  unfold run_OC at h
  split_ifs at h with hc
  · simp only [bind_eq_ok, pure_eq_ok, Except.ok.injEq] at h
    obtain ⟨_, -, _, -, h⟩ := h
    subst h
    rw [StdMap.contains_insert]; simp only [hc, and_true]; tauto
  · simp only [pure_eq_ok, Except.ok.injEq] at h
    subst h; simp [hc]

theorem run_SO2_keys {m : Libm} {core : Core} {fc : ForcingComponent} {d : Rat}
    {forcings out : forcings_t} (h : run_SO2 m core fc d forcings = Except.ok out)
    (k : String) :
    out.contains k = true ↔ (forcings.contains k = true ∨
      ((k = D_RF_SO2d ∨ k = D_RF_SO2i) ∧
        (core.checkCapability D_NATURAL_SO2 && core.checkCapability D_EMISSIONS_SO2)
          = true)) := by
  unfold run_SO2 at h
  split_ifs at h with hc
  · simp only [bind_eq_ok, pure_eq_ok, Except.ok.injEq] at h
    obtain ⟨_, -, _, -, _, -, _, -, _, -, _, -, _, -, _, -, _, -, _, -, h⟩ := h
    subst h
    rw [StdMap.contains_insert, StdMap.contains_insert]
    simp only [hc, and_true]; tauto
  · simp only [pure_eq_ok, Except.ok.injEq] at h
    subst h; simp [hc]

theorem run_vol_keys {core : Core} {d : Rat}
    {forcings out : forcings_t} (h : run_vol core d forcings = Except.ok out) (k : String) :
    out.contains k = true ↔ (forcings.contains k = true ∨
      (k = D_RF_VOL ∧ core.checkCapability D_VOLCANIC_SO2 = true)) := by
  unfold run_vol at h
  split_ifs at h with hc
  · simp only [bind_eq_ok, pure_eq_ok, Except.ok.injEq] at h
    obtain ⟨_, -, h⟩ := h
    subst h
    rw [StdMap.contains_insert]; simp only [hc, and_true]; tauto
  · simp only [pure_eq_ok, Except.ok.injEq] at h
    subst h; simp [hc]

theorem agents_prop (co2 alb ch4 n2o h2o o3 hal bc oc so2d so2i vol : Prop)
    (cAlb cMN cO3 cHal cBC cOC cS cV : Prop) :
    (((((((((co2 ∨ (alb ∧ cAlb)) ∨ ((ch4 ∨ n2o ∨ h2o) ∧ cMN)) ∨ (o3 ∧ cO3)) ∨ (hal ∧ cHal)) ∨
      (bc ∧ cBC)) ∨ (oc ∧ cOC)) ∨ ((so2d ∨ so2i) ∧ cS)) ∨ (vol ∧ cV))) ↔
    (((co2 ∨ (alb ∧ cAlb) ∨ (ch4 ∧ cMN) ∨ (n2o ∧ cMN) ∨ (h2o ∧ cMN) ∨ (o3 ∧ cO3)) ∨
      (hal ∧ cHal)) ∨
      ((bc ∧ cBC) ∨ (oc ∧ cOC) ∨ (so2d ∧ cS) ∨ (so2i ∧ cS) ∨ (vol ∧ cV))) := by
  constructor
  · rintro ((((((((h | ⟨h, c⟩) | ⟨h | h | h, c⟩) | ⟨h, c⟩) | ⟨h, c⟩) | ⟨h, c⟩) | ⟨h, c⟩) |
      ⟨h | h, c⟩) | ⟨h, c⟩) <;>
      simp only [*, true_and, and_true, true_or, or_true, and_self]
  · rintro (((h | ⟨h, c⟩ | ⟨h, c⟩ | ⟨h, c⟩ | ⟨h, c⟩ | ⟨h, c⟩) | ⟨h, c⟩) |
      (⟨h, c⟩ | ⟨h, c⟩ | ⟨h, c⟩ | ⟨h, c⟩ | ⟨h, c⟩)) <;>
      simp only [*, true_and, and_true, true_or, or_true, and_self]

theorem run_agents_keys {m : Libm} {core : Core} {fc : ForcingComponent} {d : Rat}
    {Ca : unitval} {out : forcings_t} (h : run_agents m core fc d Ca = Except.ok out)
    (k : String) : out.contains k = true ↔ (k, true) ∈ agentTable core := by
  unfold run_agents at h
  simp only [bind_eq_ok] at h
  obtain ⟨f1, h1, f2, h2, f3, h3, f4, h4, f5, h5, f6, h6, f7, h7, f8, h8, h9⟩ := h
  rw [run_vol_keys h9, run_SO2_keys h8, run_OC_keys h7, run_BC_keys h6, run_halos_keys _ h5,
    run_O3_keys h4, run_CH4_N2O_keys h3, run_albedo_keys h2, run_CO2_keys h1]
  have he : (StdMap.empty : forcings_t).contains k = false := rfl
  have hh : (∃ a ∈ halos, a = k ∧ core.checkCapability a = true) ↔
      (k ∈ halos ∧ core.checkCapability k = true) := by
    constructor
    · rintro ⟨a, ha, rfl, hc⟩; exact ⟨ha, hc⟩
    · rintro ⟨ha, hc⟩; exact ⟨k, ha, rfl, hc⟩
  simp only [he, agentTable, List.mem_append, List.mem_cons, List.mem_map, Prod.mk.injEq,
    List.mem_singleton, List.not_mem_nil, or_false, Bool.false_eq_true, false_or, hh,
    @eq_comm Bool true, and_true]
  exact agents_prop _ _ _ _ _ _ _ _ _ _ _ _ _ _ _ _ _ _ _ _

end ForcingComponent
end Hector

namespace Hector
open unit_types
namespace ForcingComponent

theorem run_Ftot_ok : ∀ (l : List (String × unitval)) (acc Ftot : unitval),
    run_Ftot l acc = Except.ok Ftot →
      Ftot = ⟨acc.val + (l.map (fun e => e.2.val)).sum, acc.valUnits⟩ ∧
      ∀ e ∈ l, e.2.valUnits = acc.valUnits := by
  intro l
  induction l with
  | nil =>
    intro acc Ftot h
    simp only [run_Ftot, pure_eq_ok, Except.ok.injEq] at h
    subst h; simp
  | cons it rest ih =>
    intro acc Ftot h
    unfold run_Ftot at h
    simp only [bind_eq_ok] at h
    obtain ⟨F1, h1, h2⟩ := h
    unfold unitval.add at h1
    split_ifs at h1 with hu
    · simp only [Except.ok.injEq] at h1
      subst h1
      obtain ⟨i1, i2⟩ := ih _ _ h2
      refine ⟨?_, ?_⟩
      · rw [i1]; simp [add_assoc]
      · intro e he
        rcases List.mem_cons.1 he with he | he
        · rw [he]; exact hu.symm
        · exact i2 e he
    · simp [H_THROW] at h1

theorem sum_lookup_eq (l : List (String × unitval))
    (hl : l.Pairwise (fun a b => a.1 < b.1)) (L : List String) (hL : L.Nodup)
    (hk : ∀ e ∈ l, e.1 ∈ L) :
    (L.map (fun a => match lookupList a l with
      | some v => v.val
      | none => 0)).sum = (l.map (fun e => e.2.val)).sum := by
  induction l with
  | nil => simp [lookupList]
  | cons hd tl ih =>
    obtain ⟨k, v⟩ := hd
    rw [List.pairwise_cons] at hl
    have hnone : lookupList k tl = none := by
      cases hlk : lookupList k tl with
      | none => rfl
      | some w => exact absurd (hl.1 _ (lookupList_mem hlk)) (lt_irrefl _)
    have hsplit : ∀ a : String, (match lookupList a ((k, v) :: tl) with
        | some v => v.val
        | none => 0) = (if a = k then v.val else 0) + (match lookupList a tl with
        | some v => v.val
        | none => 0) := by
      intro a
      by_cases h : a = k
      · subst h; rw [lookupList, if_pos rfl]; simp [hnone]
      · rw [lookupList, if_neg h]; simp [h]
    simp only [hsplit, List.map_cons, List.sum_cons]
    rw [List.sum_map_add, ih hl.2 (fun e he => hk e (List.mem_cons_of_mem _ he))]
    congr 1
    have hkL : k ∈ L := hk (k, v) (List.mem_cons_self _ _)
    rw [← List.sum_toFinset _ hL, Finset.sum_ite_eq']
    simp [hkL]

theorem sum_forcingOf (forcings : forcings_t) (L : List String) (hL : L.Nodup)
    (hk : ∀ e ∈ forcings.entries, e.1 ∈ L) :
    (L.map (forcingOf forcings)).sum = (forcings.entries.map (fun e => e.2.val)).sum :=
  sum_lookup_eq forcings.entries forcings.sorted L hL hk

theorem agentTable_names (core : Core) : (agentTable core).map Prod.fst = agentNames := by
  simp [agentTable, agentNames, halos]

theorem agentNames_nodup : agentNames.Nodup := by decide!

theorem total_not_agent : D_RF_TOTAL ∉ agentNames := by decide!

theorem run_absolute_ok {m : Libm} {core : Core} {fc : ForcingComponent} {d : Rat}
    {Ca : unitval} {absolute : forcings_t}
    (h : run_absolute m core fc d Ca = Except.ok absolute) :
    ∃ forcings Ftot tot, run_agents m core fc d Ca = Except.ok forcings ∧
      run_Ftot forcings.entries (unitval.set 0 U_W_M2) = Except.ok Ftot ∧
      run_total fc d Ftot = Except.ok tot ∧
      absolute = forcings.insert D_RF_TOTAL tot := by
  unfold run_absolute at h
  simp only [bind_eq_ok, pure_eq_ok, Except.ok.injEq] at h
  obtain ⟨forcings, h1, Ftot, h2, tot, h3, h4⟩ := h
  exact ⟨forcings, Ftot, tot, h1, h2, h3, h4.symm⟩

end ForcingComponent
end Hector

namespace Hector
open unit_types
namespace ForcingComponent

theorem tseries_get_units {ts : tseries} {t : Rat} {v : unitval}
    (hts : ∀ e ∈ ts.mapdata.entries, e.2.valUnits = U_W_M2)
    (h : ts.get t = Except.ok v) : v.valUnits = U_W_M2 := by
  unfold tseries.get at h
  cases hf : ts.mapdata.find t with
  | some w =>
    rw [hf] at h
    simp only [Except.ok.injEq] at h
    subst h
    exact hts _ (lookupList_mem hf)
  | none =>
    rw [hf] at h
    simp only at h
    split_ifs at h with hi
    · split at h
      · rename_i p0 p1 h0 h1
        have hp0 : p0 ∈ ts.mapdata.entries :=
          List.mem_of_mem_filter (List.mem_of_getLast?_eq_some h0)
        unfold tseries.interpolate at h
        simp only [bind_eq_ok] at h
        obtain ⟨d, -, h⟩ := h
        unfold unitval.add at h
        split_ifs at h
        · simp only [Except.ok.injEq] at h
          subst h
          exact hts _ hp0
        · simp [H_THROW] at h
      · simp [H_THROW] at h
    · simp [H_THROW] at h

theorem run_total_units {fc : ForcingComponent} {d : Rat} {Ftot tot : unitval}
    (hwf : constraintInWM2 fc) (hF : Ftot.valUnits = U_W_M2)
    (h : run_total fc d Ftot = Except.ok tot) : tot.valUnits = U_W_M2 := by
  unfold run_total at h
  simp only [bind_eq_ok] at h
  obtain ⟨g, -, h⟩ := h
  split_ifs at h
  · exact tseries_get_units hwf h
  · simp only [pure_eq_ok, Except.ok.injEq] at h
    subst h; exact hF

theorem absolute_units {m : Libm} {core : Core} {fc : ForcingComponent} {d : Rat}
    {Ca : unitval} {absolute : forcings_t} (hwf : constraintInWM2 fc)
    (h : run_absolute m core fc d Ca = Except.ok absolute) :
    ∀ e ∈ absolute.entries, e.2.valUnits = U_W_M2 := by
  obtain ⟨forcings, Ftot, tot, -, h2, h3, h4⟩ := run_absolute_ok h
  obtain ⟨hF, hu⟩ := run_Ftot_ok _ _ _ h2
  have hFu : Ftot.valUnits = U_W_M2 := by rw [hF]; rfl
  intro e he
  rw [h4] at he
  rcases mem_insertList he with he | he
  · rw [he]; exact run_total_units hwf hFu h3
  · exact hu e he

theorem atStep_constraint (fc : ForcingComponent) (d : Rat) (Ca : unitval) :
    (atStep fc d Ca).Ftot_constrain = fc.Ftot_constrain := by
  unfold atStep; split_ifs <;> rfl

theorem find_of_entries_map {recorded absolute : forcings_t} {g : String × unitval → unitval}
    (h : recorded.entries = absolute.entries.map (fun it => (it.1, g it))) (k : String) :
    recorded.find k = (absolute.find k).map (fun v => g (k, v)) := by
  unfold StdMap.find
  rw [h, lookupList_map_snd]

theorem baselineOf_of_find {base : forcings_t} {k : String} {v : unitval}
    (h : base.find k = some v) : baselineOf base k = v := by
  rw [baselineOf_eq, h]; rfl

theorem absolute_find_CO2 {m : Libm} {core : Core} {fc : ForcingComponent} {d : Rat}
    {Ca : unitval} {absolute : forcings_t}
    (h : run_absolute m core fc d Ca = Except.ok absolute) :
    ∃ v, absolute.find D_RF_CO2 = some v := by
  obtain ⟨forcings, Ftot, tot, h1, -, -, h4⟩ := run_absolute_ok h
  have hc : forcings.contains D_RF_CO2 = true := by
    rw [run_agents_keys h1]
    simp [agentTable]
  have hne : D_RF_CO2 ≠ D_RF_TOTAL := by decide
  rw [h4, StdMap.find_insert_ne forcings hne]
  exact Option.isSome_iff_exists.1 hc

end ForcingComponent
end Hector

namespace Hector
open unit_types
namespace ForcingComponent

theorem run_relative_complete : ∀ (l : List (String × unitval)) (base : forcings_t),
    (∀ it ∈ l, it.2.valUnits = (baselineOf base it.1).valUnits) →
    ∃ rel base1, run_relative l base = (Except.ok rel, base1) := by
  intro l
  induction l with
  | nil => intro base _; exact ⟨[], base, rfl⟩
  | cons it rest ih =>
    intro base hu
    have h1 : it.2.valUnits = (base.subscript it.1).1.valUnits :=
      hu it (List.mem_cons_self _ _)
    obtain ⟨rs, base1, hr⟩ := ih (base.subscript it.1).2 (fun x hx => by
      rw [baselineOf_subscript]; exact hu x (List.mem_cons_of_mem _ hx))
    refine ⟨(it.1, ⟨it.2.val - (base.subscript it.1).1.val, it.2.valUnits⟩) :: rs, base1, ?_⟩
    unfold run_relative
    simp only [unitval.sub, if_pos h1, hr]

theorem run_complete {m : Libm} {core : Core} {fc : ForcingComponent} {runToDate : Rat}
    {Ca : unitval} {absolute : forcings_t}
    (hd : ¬ runToDate < fc.baseyear)
    (hCa : core.sendMessage M_GETDATA D_ATMOSPHERIC_CO2 core.noData = Except.ok Ca)
    (habs : run_absolute m core (atStep fc runToDate Ca) runToDate Ca = Except.ok absolute)
    (hu : ∀ it ∈ absolute.entries,
      it.2.valUnits = (baselineOf (baselineAt fc runToDate absolute) it.1).valUnits) :
    (run m core fc runToDate).1 = Except.ok () := by
  unfold run
  simp only [if_neg hd, hCa]
  have hfc2 : (if runToDate = fc.baseyear then
      { fc with currentYear := runToDate, C0 := Ca }
      else { fc with currentYear := runToDate }) = atStep fc runToDate Ca := rfl
  rw [hfc2, habs]
  simp only
  have hby : (atStep fc runToDate Ca).baseyear = fc.baseyear := by
    unfold atStep; split_ifs <;> rfl
  have hbf : (atStep fc runToDate Ca).baseyear_forcings = fc.baseyear_forcings := by
    unfold atStep; split_ifs <;> rfl
  have hbase : (if runToDate = (atStep fc runToDate Ca).baseyear then
      { atStep fc runToDate Ca with baseyear_forcings := absolute }
      else atStep fc runToDate Ca).baseyear_forcings = baselineAt fc runToDate absolute := by
    unfold baselineAt
    rw [hby]
    split_ifs
    · rfl
    · exact hbf
  rw [hbase]
  obtain ⟨rel, base1, hr⟩ := run_relative_complete _ _ hu
  rw [hr]

theorem atStep_withoutConstraint (fc : ForcingComponent) (d : Rat) (Ca : unitval) :
    atStep (withoutConstraint fc) d Ca = withoutConstraint (atStep fc d Ca) := by
  unfold atStep withoutConstraint
  split_ifs <;> rfl

theorem run_agents_withoutConstraint (m : Libm) (core : Core) (fc : ForcingComponent)
    (d : Rat) (Ca : unitval) :
    run_agents m core (withoutConstraint fc) d Ca = run_agents m core fc d Ca := rfl

theorem run_total_withoutConstraint (fc : ForcingComponent) (d : Rat) (Ftot : unitval) :
    run_total (withoutConstraint fc) d Ftot = Except.ok Ftot := rfl

theorem run_absolute_withoutConstraint {m : Libm} {core : Core} {fc : ForcingComponent}
    {d : Rat} {Ca : unitval} {forcings : forcings_t} {Ftot : unitval}
    (h1 : run_agents m core fc d Ca = Except.ok forcings)
    (h2 : run_Ftot forcings.entries (unitval.set 0 U_W_M2) = Except.ok Ftot) :
    run_absolute m core (withoutConstraint fc) d Ca
      = Except.ok (forcings.insert D_RF_TOTAL Ftot) := by
  unfold run_absolute
  rw [run_agents_withoutConstraint, h1]
  simp only [bind, Except.bind, h2, run_total_withoutConstraint, pure, Except.pure]

end ForcingComponent
end Hector

namespace Hector
open unit_types
namespace ForcingComponent

theorem size_ne_zero_of_lastdate {ts : tseries} {t1 : Rat}
    (h : ts.lastdate = Except.ok t1) : ts.size ≠ 0 := by
  unfold tseries.lastdate at h
  unfold tseries.size StdMap.size
  intro h0
  rw [List.length_eq_zero.1 h0] at h
  simp [H_THROW] at h

theorem run_total_covered {fc : ForcingComponent} {d t1 : Rat} (Ftot : unitval)
    (hlast : fc.Ftot_constrain.lastdate = Except.ok t1) (hcov : d ≤ t1) :
    run_total fc d Ftot = fc.Ftot_constrain.get d := by
  unfold run_total
  simp only [if_pos (size_ne_zero_of_lastdate hlast), hlast, bind, Except.bind, pure,
    Except.pure, decide_eq_true hcov, if_true]

theorem run_total_after_last {fc : ForcingComponent} {d t1 : Rat} (Ftot : unitval)
    (hlast : fc.Ftot_constrain.lastdate = Except.ok t1) (hcov : t1 < d) :
    run_total fc d Ftot = Except.ok Ftot := by
  unfold run_total
  simp only [if_pos (size_ne_zero_of_lastdate hlast), hlast, bind, Except.bind, pure,
    Except.pure, decide_eq_false (not_le.2 hcov), Bool.false_eq_true, if_false]

theorem total_not_in_agents {m : Libm} {core : Core} {fc : ForcingComponent} {d : Rat}
    {Ca : unitval} {forcings : forcings_t} (h : run_agents m core fc d Ca = Except.ok forcings) :
    forcings.find D_RF_TOTAL = none := by
  cases hf : forcings.find D_RF_TOTAL with
  | none => rfl
  | some v =>
    have hc : forcings.contains D_RF_TOTAL = true := by
      unfold StdMap.contains; rw [hf]; rfl
    have hm := List.mem_map_of_mem Prod.fst ((run_agents_keys h D_RF_TOTAL).1 hc)
    rw [agentTable_names] at hm
    exact absurd hm total_not_agent

theorem baselineOf_congr {base base2 : forcings_t} {k : String}
    (h : base.find k = base2.find k) : baselineOf base k = baselineOf base2 k := by
  rw [baselineOf_eq, baselineOf_eq, h]

end ForcingComponent
end Hector

namespace Hector
open unit_types
namespace ForcingComponent

theorem run_absolute_after_last {m : Libm} {core : Core} {fc : ForcingComponent}
    {d t1 : Rat} (Ca : unitval)
    (hlast : fc.Ftot_constrain.lastdate = Except.ok t1) (hcov : t1 < d) :
    run_absolute m core fc d Ca = run_absolute m core (withoutConstraint fc) d Ca := by
  unfold run_absolute
  rw [run_agents_withoutConstraint]
  simp only [run_total_after_last _ hlast hcov, run_total_withoutConstraint]

theorem run_congr_constraint {m : Libm} {core : Core} {fc : ForcingComponent} {d : Rat}
    (X : tseries)
    (hX : ∀ Ca, run_absolute m core (atStep fc d Ca) d Ca
      = run_absolute m core (atStep { fc with Ftot_constrain := X } d Ca) d Ca) :
    (run m core fc d).1 = (run m core { fc with Ftot_constrain := X } d).1 ∧
    (run m core fc d).2 = { (run m core { fc with Ftot_constrain := X } d).2 with
      Ftot_constrain := fc.Ftot_constrain } := by
  unfold run
  by_cases hd : d < fc.baseyear
  · simp only [if_pos hd]
    exact ⟨trivial, trivial⟩
  · simp only [if_neg hd]
    cases hCa : core.sendMessage M_GETDATA D_ATMOSPHERIC_CO2 core.noData with
    | error e => exact ⟨rfl, rfl⟩
    | ok Ca =>
      have hx := hX Ca
      unfold atStep at hx
      by_cases hby : d = fc.baseyear
      · simp only [if_pos hby] at hx ⊢
        rw [hx]
        cases run_absolute m core
          { fc with Ftot_constrain := X, currentYear := d, C0 := Ca } d Ca with
        | error e => exact ⟨rfl, rfl⟩
        | ok absolute =>
          simp only
          cases hr : run_relative absolute.entries absolute with
          | mk res base1 =>
            cases res with
            | error e => exact ⟨rfl, rfl⟩
            | ok rel => exact ⟨rfl, rfl⟩
      · simp only [if_neg hby] at hx ⊢
        rw [hx]
        cases run_absolute m core { fc with Ftot_constrain := X, currentYear := d } d Ca with
        | error e => exact ⟨rfl, rfl⟩
        | ok absolute =>
          simp only
          cases hr : run_relative absolute.entries fc.baseyear_forcings with
          | mk res base1 =>
            cases res with
            | error e => exact ⟨rfl, rfl⟩
            | ok rel => exact ⟨rfl, rfl⟩

end ForcingComponent
end Hector

namespace Hector
open unit_types
namespace ForcingComponent

/-- C1: when `run` at the base year completes, the forcing history has an entry
for the base year; it holds a total and a CO2 forcing, and every value recorded
in it is exactly 0, in W/m2: for each agent in every state, and for the total
too when no constraint is read or the constraint series holds W/m2 values, as
`setData` stores them. -/
theorem run_baseyear_records_zero (m : Libm) (core : Core) (fc : ForcingComponent)
    (h : (run m core fc fc.baseyear).1 = Except.ok ()) :
    ∃ recorded, (run m core fc fc.baseyear).2.forcings_ts.get fc.baseyear = Except.ok recorded ∧
      (∃ v, recorded.find D_RF_TOTAL = some v) ∧
      (∃ v, recorded.find D_RF_CO2 = some v) ∧
      ∀ k v, recorded.find k = some v →
        v.val = 0 ∧
        (k ≠ D_RF_TOTAL → v.valUnits = U_W_M2) ∧
        (constraintInWM2 fc → v = ⟨0, U_W_M2⟩) := by
  obtain ⟨Ca, absolute, recorded, -, habs, hts, hrec, -, -, -, -⟩ := run_ok (lt_irrefl _) h
  obtain ⟨forcings, Ftot, tot, -, h2, -, h4⟩ := run_absolute_ok habs
  obtain ⟨-, hFu⟩ := run_Ftot_ok _ _ _ h2
  have hb : baselineAt fc fc.baseyear absolute = absolute := by simp [baselineAt]
  rw [hb] at hrec
  have hfind := find_of_entries_map hrec
  have hself : ∀ k v, absolute.find k = some v →
      rebaseEntry absolute (k, v) = ⟨0, v.valUnits⟩ := by
    intro k v hv
    unfold rebaseEntry
    simp only [baselineOf_of_find hv, sub_self]
  have ht : absolute.find D_RF_TOTAL = some tot := by
    rw [h4]; exact StdMap.find_insert_self _ _ _
  refine ⟨recorded, ?_, ?_, ?_, ?_⟩
  · rw [hts]; exact tvector_get_set _ _ _
  · exact ⟨_, by rw [hfind, ht, Option.map_some']⟩
  · obtain ⟨v, hv⟩ := absolute_find_CO2 habs
    exact ⟨_, by rw [hfind, hv, Option.map_some']⟩
  · intro k v hv
    rw [hfind] at hv
    cases ha : absolute.find k with
    | none => rw [ha] at hv; simp at hv
    | some w =>
      rw [ha, Option.map_some', hself _ _ ha] at hv
      have hv2 : v = ⟨0, w.valUnits⟩ := (Option.some.inj hv).symm
      subst hv2
      refine ⟨rfl, ?_, ?_⟩
      · intro hk
        rw [h4, StdMap.find_insert_ne forcings hk] at ha
        exact hFu (k, w) (lookupList_mem ha)
      · intro hwf
        have hwf2 : constraintInWM2 (atStep fc fc.baseyear Ca) := by
          unfold constraintInWM2; rw [atStep_constraint]; exact hwf
        have h1 : w.valUnits = U_W_M2 := absolute_units hwf2 habs (k, w) (lookupList_mem ha)
        simp only [h1]

theorem run_baseyear_records_zero_witness :
    (run demoLibm demoCore demoFcConstrained demoFcConstrained.baseyear).1 = Except.ok () ∧
    ∃ recorded,
      (run demoLibm demoCore demoFcConstrained demoFcConstrained.baseyear).2.forcings_ts.get
        demoFcConstrained.baseyear = Except.ok recorded ∧
      (∃ v, recorded.find D_RF_TOTAL = some v) ∧
      (∃ v, recorded.find D_RF_CO2 = some v) ∧
      ∀ k v, recorded.find k = some v →
        v.val = 0 ∧
        (k ≠ D_RF_TOTAL → v.valUnits = U_W_M2) ∧
        (constraintInWM2 demoFcConstrained → v = ⟨0, U_W_M2⟩) :=
  ⟨by decide!,
    run_baseyear_records_zero demoLibm demoCore demoFcConstrained (by decide!)⟩

end ForcingComponent
end Hector

namespace Hector
open unit_types
namespace ForcingComponent

/-- C2: when `run` completes at a date after the base year, the value recorded at
that date under a name held in the baseline snapshot is the absolute forcing
computed in this step minus the value stored in the snapshot (and nothing is
recorded under a name for which this step computed no forcing). -/
theorem run_after_baseyear_relative (m : Libm) (core : Core) (fc : ForcingComponent)
    (runToDate : Rat) (hd : fc.baseyear < runToDate)
    (h : (run m core fc runToDate).1 = Except.ok ()) :
    ∃ Ca absolute recorded,
      core.sendMessage M_GETDATA D_ATMOSPHERIC_CO2 core.noData = Except.ok Ca ∧
      run_absolute m core { fc with currentYear := runToDate } runToDate Ca
        = Except.ok absolute ∧
      (run m core fc runToDate).2.forcings_ts.get runToDate = Except.ok recorded ∧
      ∀ k b, fc.baseyear_forcings.find k = some b →
        recorded.find k
          = (absolute.find k).map (fun v => (⟨v.val - b.val, v.valUnits⟩ : unitval)) ∧
        ∀ v, absolute.find k = some v → v.valUnits = b.valUnits := by
  have hne : runToDate ≠ fc.baseyear := ne_of_gt hd
  obtain ⟨Ca, absolute, recorded, hCa, habs, hts, hrec, hun, -, -, -⟩ :=
    run_ok (not_lt.2 (le_of_lt hd)) h
  have hstep : atStep fc runToDate Ca = { fc with currentYear := runToDate } := by
    unfold atStep; rw [if_neg hne]
  have hb : baselineAt fc runToDate absolute = fc.baseyear_forcings := by
    unfold baselineAt; rw [if_neg hne]
  rw [hstep] at habs
  rw [hb] at hrec hun
  refine ⟨Ca, absolute, recorded, hCa, habs, ?_, ?_⟩
  · rw [hts]; exact tvector_get_set _ _ _
  · intro k b hkb
    have hbo : baselineOf fc.baseyear_forcings k = b := baselineOf_of_find hkb
    refine ⟨?_, ?_⟩
    · rw [find_of_entries_map hrec]
      cases absolute.find k with
      | none => rfl
      | some v => simp [rebaseEntry, hbo]
    · intro v hv
      have := hun (k, v) (lookupList_mem hv)
      rw [hbo] at this
      exact this

theorem run_after_baseyear_relative_witness :
    demoFcBase.baseyear < 1747 ∧
    (run demoLibm demoCoreLater demoFcBase 1747).1 = Except.ok () ∧
    ∃ Ca absolute recorded,
      demoCoreLater.sendMessage M_GETDATA D_ATMOSPHERIC_CO2 demoCoreLater.noData
        = Except.ok Ca ∧
      run_absolute demoLibm demoCoreLater { demoFcBase with currentYear := 1747 } 1747 Ca
        = Except.ok absolute ∧
      (run demoLibm demoCoreLater demoFcBase 1747).2.forcings_ts.get 1747
        = Except.ok recorded ∧
      ∀ k b, demoFcBase.baseyear_forcings.find k = some b →
        recorded.find k
          = (absolute.find k).map (fun v => (⟨v.val - b.val, v.valUnits⟩ : unitval)) ∧
        ∀ v, absolute.find k = some v → v.valUnits = b.valUnits :=
  ⟨by decide!, by decide!,
    run_after_baseyear_relative demoLibm demoCoreLater demoFcBase 1747 (by decide!)
      (by decide!)⟩

/-- C3: in a step of `run` at or after the base year with an empty constraint
series, the names in the map of absolute forcings are exactly the agents whose
condition holds (`agentTable`), the total stored under `D_RF_TOTAL` is the sum of
their absolute forcings in W/m2, each agent is listed once, and `D_RF_TOTAL` is
not among the agents summed. -/
theorem run_total_is_sum_of_present_agents (m : Libm) (core : Core) (fc : ForcingComponent)
    (runToDate : Rat) (hd : ¬ runToDate < fc.baseyear)
    (hempty : fc.Ftot_constrain.size = 0)
    (h : (run m core fc runToDate).1 = Except.ok ()) :
    ∃ Ca forcings absolute,
      core.sendMessage M_GETDATA D_ATMOSPHERIC_CO2 core.noData = Except.ok Ca ∧
      run_agents m core (atStep fc runToDate Ca) runToDate Ca = Except.ok forcings ∧
      run_absolute m core (atStep fc runToDate Ca) runToDate Ca = Except.ok absolute ∧
      (∀ k, forcings.contains k = true ↔ (k, true) ∈ agentTable core) ∧
      (∀ k, k ≠ D_RF_TOTAL → absolute.find k = forcings.find k) ∧
      absolute.find D_RF_TOTAL = some ⟨(agentNames.map (forcingOf forcings)).sum, U_W_M2⟩ ∧
      (agentTable core).map Prod.fst = agentNames ∧
      agentNames.Nodup ∧ D_RF_TOTAL ∉ agentNames := by
  obtain ⟨Ca, absolute, recorded, hCa, habs, -, -, -, -, -, -⟩ := run_ok hd h
  obtain ⟨forcings, Ftot, tot, h1, h2, h3, h4⟩ := run_absolute_ok habs
  have hkeys := run_agents_keys h1
  have htot : tot = Ftot := by
    unfold run_total at h3
    rw [atStep_constraint] at h3
    simp only [hempty, ne_eq, not_true_eq_false, if_false, bind_eq_ok, pure_eq_ok,
      Except.ok.injEq] at h3
    obtain ⟨g, hg, h3⟩ := h3
    subst hg
    simpa using h3.symm
  obtain ⟨hF, -⟩ := run_Ftot_ok _ _ _ h2
  have hsub : ∀ e ∈ forcings.entries, e.1 ∈ agentNames := by
    intro e he
    have hf : forcings.find e.1 = some e.2 := mem_lookupList forcings.sorted he
    have hc : forcings.contains e.1 = true := by
      unfold StdMap.contains; rw [hf]; rfl
    rw [← agentTable_names core]
    exact List.mem_map_of_mem Prod.fst ((hkeys e.1).1 hc)
  refine ⟨Ca, forcings, absolute, hCa, h1, habs, hkeys, ?_, ?_, agentTable_names core,
    agentNames_nodup, total_not_agent⟩
  · intro k hk
    rw [h4]; exact StdMap.find_insert_ne forcings hk tot
  · rw [h4, StdMap.find_insert_self, htot, hF, sum_forcingOf forcings agentNames
      agentNames_nodup hsub]
    simp [unitval.set]

theorem run_total_is_sum_of_present_agents_witness :
    ¬ (1746 : Rat) < demoFc.baseyear ∧ demoFc.Ftot_constrain.size = 0 ∧
    (run demoLibm demoCore demoFc 1746).1 = Except.ok () ∧
    ∃ Ca forcings absolute,
      demoCore.sendMessage M_GETDATA D_ATMOSPHERIC_CO2 demoCore.noData = Except.ok Ca ∧
      run_agents demoLibm demoCore (atStep demoFc 1746 Ca) 1746 Ca = Except.ok forcings ∧
      run_absolute demoLibm demoCore (atStep demoFc 1746 Ca) 1746 Ca = Except.ok absolute ∧
      (∀ k, forcings.contains k = true ↔ (k, true) ∈ agentTable demoCore) ∧
      (∀ k, k ≠ D_RF_TOTAL → absolute.find k = forcings.find k) ∧
      absolute.find D_RF_TOTAL = some ⟨(agentNames.map (forcingOf forcings)).sum, U_W_M2⟩ ∧
      (agentTable demoCore).map Prod.fst = agentNames ∧
      agentNames.Nodup ∧ D_RF_TOTAL ∉ agentNames :=
  ⟨by decide!, by decide!, by decide!,
    run_total_is_sum_of_present_agents demoLibm demoCore demoFc 1746 (by decide!)
      (by decide!) (by decide!)⟩

end ForcingComponent
end Hector

namespace Hector
open unit_types
namespace ForcingComponent

/-- C4: when the constraint series reaches `runToDate` (`runToDate` is not after
its last date, which is the case when the series covers it) and `run` completes
at or after the base year, the total recorded for `runToDate` is the series value
at `runToDate` minus the total held in the baseline snapshot.  When the series
holds W/m2 values, as `setData` stores them, the same call with no constraint
supplied completes too; and whenever it completes, it records the same value as
the constrained call under every name other than `D_RF_TOTAL`. -/
theorem run_constrained_total (m : Libm) (core : Core) (fc : ForcingComponent)
    (runToDate t1 : Rat)
    (hlast : fc.Ftot_constrain.lastdate = Except.ok t1) (hcov : runToDate ≤ t1)
    (hd : ¬ runToDate < fc.baseyear)
    (h : (run m core fc runToDate).1 = Except.ok ()) :
    ∃ c b recorded,
      fc.Ftot_constrain.get runToDate = Except.ok c ∧
      (run m core fc runToDate).2.baseyear_forcings.find D_RF_TOTAL = some b ∧
      (run m core fc runToDate).2.forcings_ts.get runToDate = Except.ok recorded ∧
      recorded.find D_RF_TOTAL = some ⟨c.val - b.val, c.valUnits⟩ ∧
      (constraintInWM2 fc → c.valUnits = U_W_M2 ∧
        (run m core (withoutConstraint fc) runToDate).1 = Except.ok ()) ∧
      ((run m core (withoutConstraint fc) runToDate).1 = Except.ok () →
        ∃ recordedFree,
          (run m core (withoutConstraint fc) runToDate).2.forcings_ts.get runToDate
            = Except.ok recordedFree ∧
          ∀ k, k ≠ D_RF_TOTAL → recorded.find k = recordedFree.find k) := by
  obtain ⟨Ca, absolute, recorded, hCa, habs, hts, hrec, hun, hbo, -, hcont⟩ := run_ok hd h
  obtain ⟨forcings, Ftot, tot, h1, h2, h3, h4⟩ := run_absolute_ok habs
  have hlast2 : (atStep fc runToDate Ca).Ftot_constrain.lastdate = Except.ok t1 := by
    rw [atStep_constraint]; exact hlast
  rw [run_total_covered Ftot hlast2 hcov, atStep_constraint] at h3
  have htot : absolute.find D_RF_TOTAL = some tot := by
    rw [h4]; exact StdMap.find_insert_self _ _ _
  have hmem : (D_RF_TOTAL, tot) ∈ absolute.entries := lookupList_mem htot
  obtain ⟨b, hb⟩ := Option.isSome_iff_exists.1 (hcont _ hmem)
  have hb2 : baselineOf (baselineAt fc runToDate absolute) D_RF_TOTAL = b := by
    rw [← hbo, baselineOf_of_find hb]
  obtain ⟨hF, hFu⟩ := run_Ftot_ok _ _ _ h2
  have hFW : Ftot.valUnits = U_W_M2 := by rw [hF]; rfl
  -- the same step with no constraint supplied
  have habsF : run_absolute m core (atStep (withoutConstraint fc) runToDate Ca) runToDate Ca
      = Except.ok (forcings.insert D_RF_TOTAL Ftot) := by
    rw [atStep_withoutConstraint]
    exact run_absolute_withoutConstraint h1 h2
  have hfindne : ∀ k, k ≠ D_RF_TOTAL →
      (forcings.insert D_RF_TOTAL Ftot).find k = absolute.find k := by
    intro k hk
    rw [h4, StdMap.find_insert_ne forcings hk, StdMap.find_insert_ne forcings hk]
  have hbaseF : ∀ k, k ≠ D_RF_TOTAL →
      baselineOf (baselineAt (withoutConstraint fc) runToDate
        (forcings.insert D_RF_TOTAL Ftot)) k
      = baselineOf (baselineAt fc runToDate absolute) k := by
    intro k hk
    unfold baselineAt
    by_cases hby : runToDate = fc.baseyear
    · have hby2 : runToDate = (withoutConstraint fc).baseyear := hby
      rw [if_pos hby, if_pos hby2]
      exact baselineOf_congr (hfindne k hk)
    · have hby2 : ¬ runToDate = (withoutConstraint fc).baseyear := hby
      rw [if_neg hby, if_neg hby2]
      rfl
  have hdF : ¬ runToDate < (withoutConstraint fc).baseyear := hd
  refine ⟨tot, b, recorded, h3, hb, ?_, ?_, ?_, ?_⟩
  · rw [hts]; exact tvector_get_set _ _ _
  · rw [find_of_entries_map hrec, htot, Option.map_some']
    unfold rebaseEntry
    simp only [hb2]
  · intro hwf
    have hcu : tot.valUnits = U_W_M2 := tseries_get_units hwf h3
    refine ⟨hcu, run_complete hdF hCa habsF ?_⟩
    intro it hit
    have hfi : (forcings.insert D_RF_TOTAL Ftot).find it.1 = some it.2 :=
      mem_lookupList (forcings.insert D_RF_TOTAL Ftot).sorted hit
    by_cases hk : it.1 = D_RF_TOTAL
    · rw [hk, StdMap.find_insert_self] at hfi
      have hit2 : it.2 = Ftot := (Option.some.inj hfi).symm
      rw [hit2, hk, hFW]
      unfold baselineAt
      by_cases hby : runToDate = fc.baseyear
      · have hby2 : runToDate = (withoutConstraint fc).baseyear := hby
        rw [if_pos hby2, baselineOf_of_find (StdMap.find_insert_self _ _ _), hFW]
      · have hby2 : ¬ runToDate = (withoutConstraint fc).baseyear := hby
        rw [if_neg hby2]
        have := hun _ hmem
        unfold baselineAt at this
        rw [if_neg hby] at this
        rw [← hcu]
        exact this
    · rw [hbaseF it.1 hk]
      rw [hfindne it.1 hk] at hfi
      exact hun (it.1, it.2) (lookupList_mem hfi)
  · intro hrunF
    obtain ⟨Ca2, absF, recordedFree, hCa2, habs2, hts2, hrec2, -, -, -, -⟩ := run_ok hdF hrunF
    have hCaeq : Ca2 = Ca := by
      rw [hCa] at hCa2; exact (Except.ok.inj hCa2).symm
    subst hCaeq
    have habseq : absF = forcings.insert D_RF_TOTAL Ftot := by
      rw [habsF] at habs2; exact (Except.ok.inj habs2).symm
    subst habseq
    refine ⟨recordedFree, ?_, ?_⟩
    · rw [hts2]; exact tvector_get_set _ _ _
    · intro k hk
      rw [find_of_entries_map hrec, find_of_entries_map hrec2, hfindne k hk]
      unfold rebaseEntry
      simp only [hbaseF k hk]

end ForcingComponent
end Hector

namespace Hector
open unit_types
namespace ForcingComponent

theorem run_constrained_total_witness :
    demoFcConstrainedBase.Ftot_constrain.lastdate = Except.ok 1750 ∧
    (1747 : Rat) ≤ 1750 ∧ ¬ (1747 : Rat) < demoFcConstrainedBase.baseyear ∧
    (run demoLibm demoCoreLater demoFcConstrainedBase 1747).1 = Except.ok () ∧
    ∃ c b recorded,
      demoFcConstrainedBase.Ftot_constrain.get 1747 = Except.ok c ∧
      (run demoLibm demoCoreLater demoFcConstrainedBase 1747).2.baseyear_forcings.find
        D_RF_TOTAL = some b ∧
      (run demoLibm demoCoreLater demoFcConstrainedBase 1747).2.forcings_ts.get 1747
        = Except.ok recorded ∧
      recorded.find D_RF_TOTAL = some ⟨c.val - b.val, c.valUnits⟩ ∧
      (constraintInWM2 demoFcConstrainedBase → c.valUnits = U_W_M2 ∧
        (run demoLibm demoCoreLater (withoutConstraint demoFcConstrainedBase) 1747).1
          = Except.ok ()) ∧
      ((run demoLibm demoCoreLater (withoutConstraint demoFcConstrainedBase) 1747).1
          = Except.ok () →
        ∃ recordedFree,
          (run demoLibm demoCoreLater
            (withoutConstraint demoFcConstrainedBase) 1747).2.forcings_ts.get 1747
            = Except.ok recordedFree ∧
          ∀ k, k ≠ D_RF_TOTAL → recorded.find k = recordedFree.find k) :=
  ⟨by decide!, by decide!, by decide!, by decide!,
    run_constrained_total demoLibm demoCoreLater demoFcConstrainedBase 1747 1750 (by decide!)
      (by decide!) (by decide!) (by decide!)⟩

/-- C5 fails before the first date of the series: the constraint series of
`demoFcLate` is not empty and starts in 1750, after the base year 1746.  The step at 1746 without a
constraint completes and records a total; with the series, `run` reads it
(the guard only compares with its last date), the lookup fails outside the
recorded range, `run` throws and nothing is recorded for 1746. -/
theorem run_before_first_constraint_date_throws :
    demoFcLate.Ftot_constrain.size ≠ 0 ∧
    demoFcLate.Ftot_constrain.firstdate = Except.ok 1750 ∧
    ¬ (1746 : Rat) < demoFcLate.baseyear ∧
    (run demoLibm demoCore (withoutConstraint demoFcLate) 1746).1 = Except.ok () ∧
    ((run demoLibm demoCore (withoutConstraint demoFcLate) 1746).2.forcings_ts.get 1746).map
      (fun recorded => recorded.find D_RF_TOTAL) = Except.ok (some ⟨0, U_W_M2⟩) ∧
    (run demoLibm demoCore demoFcLate 1746).1
      = Except.error ["date outside the recorded range"] ∧
    completes ((run demoLibm demoCore demoFcLate 1746).2.forcings_ts.get 1746) = false := by
  decide!

/-- C5, for dates after the last date of the series: when the constraint series
is not empty and `runToDate` is after its last date, `run` does not read the series: its outcome, and the object it
leaves (the recorded total included), are those of the same call with no
constraint supplied, the series itself apart. -/
theorem run_after_last_constraint_date (m : Libm) (core : Core) (fc : ForcingComponent)
    (runToDate t1 : Rat) (hlast : fc.Ftot_constrain.lastdate = Except.ok t1)
    (hafter : t1 < runToDate) :
    (run m core fc runToDate).1 = (run m core (withoutConstraint fc) runToDate).1 ∧
    (run m core fc runToDate).2 =
      { (run m core (withoutConstraint fc) runToDate).2 with
        Ftot_constrain := fc.Ftot_constrain } := by
  apply run_congr_constraint
  intro Ca
  have hlast2 : (atStep fc runToDate Ca).Ftot_constrain.lastdate = Except.ok t1 := by
    rw [atStep_constraint]; exact hlast
  rw [run_absolute_after_last Ca hlast2 hafter]
  have := atStep_withoutConstraint fc runToDate Ca
  unfold withoutConstraint at this ⊢
  rw [this]

theorem run_after_last_constraint_date_witness :
    demoFcConstrainedBase.Ftot_constrain.lastdate = Except.ok 1750 ∧ (1750 : Rat) < 1751 ∧
    (run demoLibm demoCoreLater demoFcConstrainedBase 1751).1
      = (run demoLibm demoCoreLater (withoutConstraint demoFcConstrainedBase) 1751).1 ∧
    (run demoLibm demoCoreLater demoFcConstrainedBase 1751).2 =
      { (run demoLibm demoCoreLater (withoutConstraint demoFcConstrainedBase) 1751).2 with
        Ftot_constrain := demoFcConstrainedBase.Ftot_constrain } :=
  ⟨by decide!, by decide!,
    run_after_last_constraint_date demoLibm demoCoreLater demoFcConstrainedBase 1751 1750
      (by decide!) (by decide!)⟩

end ForcingComponent
end Hector

namespace Hector
open unit_types
namespace ForcingComponent

/-- C6: when the effective query date (the date given, or the current year when
no date is given) is before the base year, `getData` returns normally and leaves
the object as it was; it returns the stored value for each of the five
parameters `aCO2`, `aN2O`, `aCH4`, `atropO3`, `aso2d`, and 0 W/m2 for every other
name. -/
theorem getData_before_baseyear (core : Core) (fc : ForcingComponent) (varName : String)
    (date : Rat)
    (h : (if date = core.undefinedIndex then fc.currentYear else date) < fc.baseyear) :
    (getData core fc varName date).2 = fc ∧
    (varName = D_ACO2 → (getData core fc varName date).1 = Except.ok fc.aCO2) ∧
    (varName = D_AN2O → (getData core fc varName date).1 = Except.ok fc.aN2O) ∧
    (varName = D_ACH4 → (getData core fc varName date).1 = Except.ok fc.aCH4) ∧
    (varName = D_ATROPO3 → (getData core fc varName date).1 = Except.ok fc.atropO3) ∧
    (varName = D_ASO2D → (getData core fc varName date).1 = Except.ok fc.aso2d) ∧
    (varName ∉ [D_ACO2, D_AN2O, D_ACH4, D_ATROPO3, D_ASO2D] →
      (getData core fc varName date).1 = Except.ok ⟨0, U_W_M2⟩) := by
  unfold getData
  simp only [if_pos h]
  refine ⟨trivial, ?_, ?_, ?_, ?_, ?_, ?_⟩
  · intro hv; subst hv; rfl
  · intro hv; subst hv; rfl
  · intro hv; subst hv; rfl
  · intro hv; subst hv; rfl
  · intro hv; subst hv; rfl
  · intro hv
    simp only [List.mem_cons, List.mem_singleton, List.not_mem_nil, or_false, not_or] at hv
    obtain ⟨h1, h2, h3, h4, h5⟩ := hv
    simp only [if_neg h1, if_neg h2, if_neg h3, if_neg h4, if_neg h5, unitval.set]

theorem getData_before_baseyear_witness :
    (if (1700 : Rat) = demoCore.undefinedIndex then demoFcBase.currentYear else 1700)
      < demoFcBase.baseyear ∧
    (getData demoCore demoFcBase D_RF_TOTAL 1700).2 = demoFcBase ∧
    (D_RF_TOTAL = D_ACO2 →
      (getData demoCore demoFcBase D_RF_TOTAL 1700).1 = Except.ok demoFcBase.aCO2) ∧
    (D_RF_TOTAL = D_AN2O →
      (getData demoCore demoFcBase D_RF_TOTAL 1700).1 = Except.ok demoFcBase.aN2O) ∧
    (D_RF_TOTAL = D_ACH4 →
      (getData demoCore demoFcBase D_RF_TOTAL 1700).1 = Except.ok demoFcBase.aCH4) ∧
    (D_RF_TOTAL = D_ATROPO3 →
      (getData demoCore demoFcBase D_RF_TOTAL 1700).1 = Except.ok demoFcBase.atropO3) ∧
    (D_RF_TOTAL = D_ASO2D →
      (getData demoCore demoFcBase D_RF_TOTAL 1700).1 = Except.ok demoFcBase.aso2d) ∧
    (D_RF_TOTAL ∉ [D_ACO2, D_AN2O, D_ACH4, D_ATROPO3, D_ASO2D] →
      (getData demoCore demoFcBase D_RF_TOTAL 1700).1 = Except.ok ⟨0, U_W_M2⟩) :=
  ⟨by decide!, getData_before_baseyear demoCore demoFcBase D_RF_TOTAL 1700 (by decide!)⟩

/-- C7 does not hold once the base year has run: `init` registers `aCO2` as a
capability of the component, and before the base year a GET with no date returns the stored
parameter; once the component has run its base year (current year = base year =
1746) the same GET throws "unknown variable". -/
theorem getData_parameter_after_baseyear_throws :
    D_ACO2 ∈ registeredCapabilities ∧
    (getData demoCore demoFc D_ACO2 demoCore.undefinedIndex).1 = Except.ok ⟨5, U_W_M2⟩ ∧
    demoFcBase.aCO2 = ⟨5, U_W_M2⟩ ∧
    demoFcBase.currentYear = 1746 ∧ demoFcBase.baseyear = 1746 ∧
    (getData demoCore demoFcBase D_ACO2 demoCore.undefinedIndex).1
      = Except.error ["Caller is requesting unknown variable: D_ACO2"] := by
  decide!

end ForcingComponent
end Hector

namespace Hector
open unit_types
namespace ForcingComponent

theorem exists_ok_of_completes {ε α : Type} {x : Except ε α} (h : completes x = true) :
    ∃ v, x = Except.ok v := by
  cases x with
  | error e => simp [completes] at h
  | ok v => exact ⟨v, rfl⟩

/-- C8: given a payload convertible to the unit the variable expects, `setData`
throws if and only if the name is the base year or one of the five parameters
and a date is supplied, or the name is the total-forcing constraint and no date
is supplied, or the name is none of these seven variables. -/
theorem setData_throws_iff (core : Core) (fc : ForcingComponent) (varName : String)
    (data : message_data)
    (hpay1 : varName = D_RF_BASEYEAR → completes (data.getUnitval U_UNDEFINED) = true)
    (hpay2 : varName ≠ D_RF_BASEYEAR → completes (data.getUnitval U_W_M2) = true) :
    completes (setData core fc varName data).1 = false ↔
      ((varName ∈ [D_RF_BASEYEAR, D_ACO2, D_AN2O, D_ACH4, D_ATROPO3, D_ASO2D] ∧
          data.date ≠ core.undefinedIndex) ∨
        (varName = D_FTOT_CONSTRAIN ∧ data.date = core.undefinedIndex) ∨
        varName ∉ [D_RF_BASEYEAR, D_ACO2, D_AN2O, D_ACH4, D_ATROPO3, D_ASO2D,
          D_FTOT_CONSTRAIN]) := by
  unfold setData setData_try
  by_cases h1 : varName = D_RF_BASEYEAR
  · obtain ⟨v, hv⟩ := exists_ok_of_completes (hpay1 h1)
    subst h1
    by_cases hdate : data.date = core.undefinedIndex <;>
      simp [H_ASSERT, H_RETHROW, completes, hv, hdate, D_RF_BASEYEAR, D_FTOT_CONSTRAIN]
  · obtain ⟨v, hv⟩ := exists_ok_of_completes (hpay2 h1)
    by_cases h2 : varName = D_ACO2
    · subst h2
      by_cases hdate : data.date = core.undefinedIndex <;>
        simp [H_ASSERT, H_RETHROW, completes, hv, hdate, D_RF_BASEYEAR, D_FTOT_CONSTRAIN,
          D_ACO2]
    by_cases h3 : varName = D_AN2O
    · subst h3
      by_cases hdate : data.date = core.undefinedIndex <;>
        simp [H_ASSERT, H_RETHROW, completes, hv, hdate, D_RF_BASEYEAR, D_FTOT_CONSTRAIN,
          D_ACO2, D_AN2O]
    by_cases h4 : varName = D_ACH4
    · subst h4
      by_cases hdate : data.date = core.undefinedIndex <;>
        simp [H_ASSERT, H_RETHROW, completes, hv, hdate, D_RF_BASEYEAR, D_FTOT_CONSTRAIN,
          D_ACO2, D_AN2O, D_ACH4]
    by_cases h5 : varName = D_ATROPO3
    · subst h5
      by_cases hdate : data.date = core.undefinedIndex <;>
        simp [H_ASSERT, H_RETHROW, completes, hv, hdate, D_RF_BASEYEAR, D_FTOT_CONSTRAIN,
          D_ACO2, D_AN2O, D_ACH4, D_ATROPO3]
    by_cases h6 : varName = D_ASO2D
    · subst h6
      by_cases hdate : data.date = core.undefinedIndex <;>
        simp [H_ASSERT, H_RETHROW, completes, hv, hdate, D_RF_BASEYEAR, D_FTOT_CONSTRAIN,
          D_ACO2, D_AN2O, D_ACH4, D_ATROPO3, D_ASO2D]
    by_cases h7 : varName = D_FTOT_CONSTRAIN
    · subst h7
      by_cases hdate : data.date = core.undefinedIndex <;>
        simp [H_ASSERT, H_RETHROW, completes, hv, hdate, D_RF_BASEYEAR, D_FTOT_CONSTRAIN,
          D_ACO2, D_AN2O, D_ACH4, D_ATROPO3, D_ASO2D]
    simp [H_THROW, H_RETHROW, completes, h1, h2, h3, h4, h5, h6, h7]

theorem setData_throws_iff_witness :
    (D_ACO2 = D_RF_BASEYEAR →
      completes ((⟨1750, some ⟨3, U_W_M2⟩⟩ : message_data).getUnitval U_UNDEFINED) = true) ∧
    (D_ACO2 ≠ D_RF_BASEYEAR →
      completes ((⟨1750, some ⟨3, U_W_M2⟩⟩ : message_data).getUnitval U_W_M2) = true) ∧
    (completes (setData demoCore demoFc D_ACO2 ⟨1750, some ⟨3, U_W_M2⟩⟩).1 = false ↔
      ((D_ACO2 ∈ [D_RF_BASEYEAR, D_ACO2, D_AN2O, D_ACH4, D_ATROPO3, D_ASO2D] ∧
          (⟨1750, some ⟨3, U_W_M2⟩⟩ : message_data).date ≠ demoCore.undefinedIndex) ∨
        (D_ACO2 = D_FTOT_CONSTRAIN ∧
          (⟨1750, some ⟨3, U_W_M2⟩⟩ : message_data).date = demoCore.undefinedIndex) ∨
        D_ACO2 ∉ [D_RF_BASEYEAR, D_ACO2, D_AN2O, D_ACH4, D_ATROPO3, D_ASO2D,
          D_FTOT_CONSTRAIN])) :=
  ⟨by decide!, by decide!,
    setData_throws_iff demoCore demoFc D_ACO2 ⟨1750, some ⟨3, U_W_M2⟩⟩ (by decide!)
      (by decide!)⟩

end ForcingComponent
end Hector

namespace Hector
open unit_types
namespace ForcingComponent

theorem setData_try_frame (core : Core) (fc : ForcingComponent) (varName : String)
    (data : message_data) :
    (completes (setData_try core fc varName data).1 = false →
      (setData_try core fc varName data).2 = fc) ∧
    (completes (setData_try core fc varName data).1 = true →
      (setData_try core fc varName data).2.forcings_ts = fc.forcings_ts ∧
      (setData_try core fc varName data).2.baseyear_forcings = fc.baseyear_forcings ∧
      (setData_try core fc varName data).2.currentYear = fc.currentYear ∧
      (setData_try core fc varName data).2.C0 = fc.C0 ∧
      (setData_try core fc varName data).2.aso2in = fc.aso2in ∧
      (setData_try core fc varName data).2.forcing_name_map = fc.forcing_name_map ∧
      (varName ≠ D_RF_BASEYEAR → (setData_try core fc varName data).2.baseyear = fc.baseyear) ∧
      (varName ≠ D_ACO2 → (setData_try core fc varName data).2.aCO2 = fc.aCO2) ∧
      (varName ≠ D_AN2O → (setData_try core fc varName data).2.aN2O = fc.aN2O) ∧
      (varName ≠ D_ACH4 → (setData_try core fc varName data).2.aCH4 = fc.aCH4) ∧
      (varName ≠ D_ATROPO3 → (setData_try core fc varName data).2.atropO3 = fc.atropO3) ∧
      (varName ≠ D_ASO2D → (setData_try core fc varName data).2.aso2d = fc.aso2d) ∧
      (varName ≠ D_FTOT_CONSTRAIN →
        (setData_try core fc varName data).2.Ftot_constrain = fc.Ftot_constrain) ∧
      (varName = D_FTOT_CONSTRAIN → ∃ v, data.getUnitval U_W_M2 = Except.ok v ∧
        (setData_try core fc varName data).2.Ftot_constrain
          = fc.Ftot_constrain.set data.date v)) := by
  unfold setData_try
  by_cases h1 : varName = D_RF_BASEYEAR
  · subst h1
    rw [if_pos rfl]
    cases H_ASSERT (decide (data.date = core.undefinedIndex)) "date not allowed" <;>
      cases data.getUnitval U_UNDEFINED <;>
      simp [completes, D_RF_BASEYEAR, D_FTOT_CONSTRAIN, D_ACO2, D_AN2O, D_ACH4, D_ATROPO3,
        D_ASO2D]
  rw [if_neg h1]
  by_cases h2 : varName = D_ACO2
  · subst h2
    rw [if_pos rfl]
    cases H_ASSERT (decide (data.date = core.undefinedIndex)) "date not allowed" <;>
      cases data.getUnitval U_W_M2 <;>
      simp [completes, D_RF_BASEYEAR, D_FTOT_CONSTRAIN, D_ACO2, D_AN2O, D_ACH4, D_ATROPO3,
        D_ASO2D]
  rw [if_neg h2]
  by_cases h3 : varName = D_AN2O
  · subst h3
    rw [if_pos rfl]
    cases H_ASSERT (decide (data.date = core.undefinedIndex)) "date not allowed" <;>
      cases data.getUnitval U_W_M2 <;>
      simp [completes, D_RF_BASEYEAR, D_FTOT_CONSTRAIN, D_ACO2, D_AN2O, D_ACH4, D_ATROPO3,
        D_ASO2D]
  rw [if_neg h3]
  by_cases h4 : varName = D_ACH4
  · subst h4
    rw [if_pos rfl]
    cases H_ASSERT (decide (data.date = core.undefinedIndex)) "date not allowed" <;>
      cases data.getUnitval U_W_M2 <;>
      simp [completes, D_RF_BASEYEAR, D_FTOT_CONSTRAIN, D_ACO2, D_AN2O, D_ACH4, D_ATROPO3,
        D_ASO2D]
  rw [if_neg h4]
  by_cases h5 : varName = D_ATROPO3
  · subst h5
    rw [if_pos rfl]
    cases H_ASSERT (decide (data.date = core.undefinedIndex)) "date not allowed" <;>
      cases data.getUnitval U_W_M2 <;>
      simp [completes, D_RF_BASEYEAR, D_FTOT_CONSTRAIN, D_ACO2, D_AN2O, D_ACH4, D_ATROPO3,
        D_ASO2D]
  rw [if_neg h5]
  by_cases h6 : varName = D_ASO2D
  · subst h6
    rw [if_pos rfl]
    cases H_ASSERT (decide (data.date = core.undefinedIndex)) "date not allowed" <;>
      cases data.getUnitval U_W_M2 <;>
      simp [completes, D_RF_BASEYEAR, D_FTOT_CONSTRAIN, D_ACO2, D_AN2O, D_ACH4, D_ATROPO3,
        D_ASO2D]
  rw [if_neg h6]
  by_cases h7 : varName = D_FTOT_CONSTRAIN
  · subst h7
    rw [if_pos rfl]
    cases H_ASSERT (decide (data.date ≠ core.undefinedIndex)) "date required" <;>
      cases data.getUnitval U_W_M2 <;>
      simp [completes, D_RF_BASEYEAR, D_FTOT_CONSTRAIN, D_ACO2, D_AN2O, D_ACH4, D_ATROPO3,
        D_ASO2D]
  rw [if_neg h7]
  simp [completes, H_THROW]

theorem setData_eq_try (core : Core) (fc : ForcingComponent) (varName : String)
    (data : message_data) :
    (setData core fc varName data).2 = (setData_try core fc varName data).2 ∧
    completes (setData core fc varName data).1
      = completes (setData_try core fc varName data).1 := by
  unfold setData
  cases h : setData_try core fc varName data with
  | mk res fc1 =>
    cases res with
    | error e => exact ⟨rfl, rfl⟩
    | ok u => exact ⟨rfl, rfl⟩

/-- C9: `setData` is atomic and touches one field.  When it throws, the object is
unchanged.  When it returns, the forcing history, the baseline snapshot, the
current year, `C0`, `aso2in` and the name table are unchanged, every settable
field other than the one named by the variable is unchanged, and for the
constraint the series after the call is the series before it with the payload
stored at the given date: that date is bound to the payload and every other
date is bound as before. -/
theorem setData_frame (core : Core) (fc : ForcingComponent) (varName : String)
    (data : message_data) :
    (completes (setData core fc varName data).1 = false →
      (setData core fc varName data).2 = fc) ∧
    (completes (setData core fc varName data).1 = true →
      (setData core fc varName data).2.forcings_ts = fc.forcings_ts ∧
      (setData core fc varName data).2.baseyear_forcings = fc.baseyear_forcings ∧
      (setData core fc varName data).2.currentYear = fc.currentYear ∧
      (setData core fc varName data).2.C0 = fc.C0 ∧
      (setData core fc varName data).2.aso2in = fc.aso2in ∧
      (setData core fc varName data).2.forcing_name_map = fc.forcing_name_map ∧
      (varName ≠ D_RF_BASEYEAR → (setData core fc varName data).2.baseyear = fc.baseyear) ∧
      (varName ≠ D_ACO2 → (setData core fc varName data).2.aCO2 = fc.aCO2) ∧
      (varName ≠ D_AN2O → (setData core fc varName data).2.aN2O = fc.aN2O) ∧
      (varName ≠ D_ACH4 → (setData core fc varName data).2.aCH4 = fc.aCH4) ∧
      (varName ≠ D_ATROPO3 → (setData core fc varName data).2.atropO3 = fc.atropO3) ∧
      (varName ≠ D_ASO2D → (setData core fc varName data).2.aso2d = fc.aso2d) ∧
      (varName ≠ D_FTOT_CONSTRAIN →
        (setData core fc varName data).2.Ftot_constrain = fc.Ftot_constrain) ∧
      (varName = D_FTOT_CONSTRAIN → ∃ v, data.getUnitval U_W_M2 = Except.ok v ∧
        (setData core fc varName data).2.Ftot_constrain.interp_allowed
          = fc.Ftot_constrain.interp_allowed ∧
        (setData core fc varName data).2.Ftot_constrain.name = fc.Ftot_constrain.name ∧
        (setData core fc varName data).2.Ftot_constrain.mapdata.find data.date = some v ∧
        ∀ t, t ≠ data.date →
          (setData core fc varName data).2.Ftot_constrain.mapdata.find t
            = fc.Ftot_constrain.mapdata.find t)) := by
  obtain ⟨e1, e2⟩ := setData_eq_try core fc varName data
  obtain ⟨f1, f2⟩ := setData_try_frame core fc varName data
  rw [e1, e2]
  refine ⟨f1, fun hok => ?_⟩
  obtain ⟨g1, g2, g3, g4, g5, g6, g7, g8, g9, g10, g11, g12, g13, g14⟩ := f2 hok
  refine ⟨g1, g2, g3, g4, g5, g6, g7, g8, g9, g10, g11, g12, g13, fun hv => ?_⟩
  obtain ⟨v, hv1, hv2⟩ := g14 hv
  refine ⟨v, hv1, ?_, ?_, ?_, ?_⟩
  · rw [hv2]; rfl
  · rw [hv2]; rfl
  · rw [hv2]; exact StdMap.find_insert_self _ _ _
  · intro t ht
    rw [hv2]; exact StdMap.find_insert_ne _ ht _

/-- C10: at or after the base year (current year and effective query date both
not before it), with an entry in the history for the query date, a GET for a
name that is neither the base-year capability nor the SO2 total and whose
translation through the halocarbon name table is not a name of the forcing map
recorded for that date throws an error that carries the requested name. -/
theorem getData_unknown_name_throws (core : Core) (fc : ForcingComponent) (varName : String)
    (date : Rat) (forcings : forcings_t)
    (hcur : ¬ fc.currentYear < fc.baseyear)
    (hdate : ¬ (if date = core.undefinedIndex then fc.currentYear else date) < fc.baseyear)
    (hhist : fc.forcings_ts.get (if date = core.undefinedIndex then fc.currentYear else date)
      = Except.ok forcings)
    (h1 : varName ≠ D_RF_BASEYEAR) (h2 : varName ≠ D_RF_SO2)
    (h3 : forcings.find (match fc.forcing_name_map.find varName with
      | some raw => raw
      | none => varName) = none) :
    (getData core fc varName date).1
      = Except.error ["Caller is requesting unknown variable: " ++ varName] := by
  unfold getData
  simp only [if_neg hdate, hhist, if_neg h1, if_neg h2, if_neg hcur]
  cases hf : fc.forcing_name_map.find varName with
  | none =>
    rw [hf] at h3
    simp only at h3
    simp [h3, H_THROW]
  | some raw =>
    rw [hf] at h3
    simp only at h3
    simp [StdMap.subscript, hf, h3, H_THROW]

theorem getData_unknown_name_throws_witness :
    ¬ demoFcBase.currentYear < demoFcBase.baseyear ∧
    (getData demoCore demoFcBase "Fxyz" 1746).1
      = Except.error ["Caller is requesting unknown variable: " ++ "Fxyz"] :=
  ⟨by decide!,
    getData_unknown_name_throws demoCore demoFcBase "Fxyz" 1746
      ((demoFcBase.forcings_ts.mapdata.find 1746).getD StdMap.empty)
      (by decide!) (by decide!) (by decide!) (by decide!) (by decide!) (by decide!)⟩

end ForcingComponent
end Hector

namespace Hector
open unit_types
namespace ForcingComponent

theorem getUnitval_units {data : message_data} {u : unit_types} {v : unitval}
    (h : data.getUnitval u = Except.ok v) : v.valUnits = u := by
  unfold message_data.getUnitval at h
  cases hp : data.value_unitval with
  | none => rw [hp] at h; simp [H_THROW] at h
  | some w =>
    rw [hp] at h
    simp only at h
    split_ifs at h
    · simp only [Except.ok.injEq] at h
      rw [← h]
    · simp [H_THROW] at h

/-- The component as constructed and initialised holds no constraint, and
`setData` only ever stores W/m2 values in the constraint series. -/
theorem constraintInWM2_setData (core : Core) (fc : ForcingComponent) (varName : String)
    (data : message_data) :
    constraintInWM2 (default : ForcingComponent).init ∧
    (constraintInWM2 fc → constraintInWM2 (setData core fc varName data).2) := by
  refine ⟨by decide, fun hwf => ?_⟩
  obtain ⟨e1, e2⟩ := setData_eq_try core fc varName data
  obtain ⟨f1, f2⟩ := setData_try_frame core fc varName data
  rw [e1]
  cases hc : completes (setData_try core fc varName data).1 with
  | false => rw [f1 hc]; exact hwf
  | true =>
    obtain ⟨-, -, -, -, -, -, -, -, -, -, -, -, g13, g14⟩ := f2 hc
    by_cases hv : varName = D_FTOT_CONSTRAIN
    · obtain ⟨v, hv1, hv2⟩ := g14 hv
      unfold constraintInWM2
      rw [hv2]
      intro e he
      rcases mem_insertList he with he | he
      · rw [he]; exact getUnitval_units hv1
      · exact hwf e he
    · unfold constraintInWM2
      rw [g13 hv]
      exact hwf

end ForcingComponent
end Hector

namespace Hector
open unit_types
namespace ForcingComponent

/-- No member function other than `setData` writes the constraint series. -/
theorem Ftot_constrain_unchanged (m : Libm) (core : Core) (fc : ForcingComponent)
    (d : Rat) (varName : String) :
    (run m core fc d).2.Ftot_constrain = fc.Ftot_constrain ∧
    (prepareToRun core fc).2.Ftot_constrain = fc.Ftot_constrain ∧
    (getData core fc varName d).2.Ftot_constrain = fc.Ftot_constrain ∧
    (reset fc d).Ftot_constrain = fc.Ftot_constrain := by
  refine ⟨?_, ?_, ?_, rfl⟩
  · have h := (@run_congr_constraint m core fc d fc.Ftot_constrain (fun _ => rfl)).2
    rw [h]
  · unfold prepareToRun
    simp only
    split <;> split_ifs <;> rfl
  · unfold getData
    simp only
    repeat' first | rfl | split

end ForcingComponent
end Hector

namespace Hector

theorem lookupList_eraseList_ne {κ α : Type} [LinearOrder κ] {k k2 : κ} (h : k2 ≠ k)
    (l : List (κ × α)) : lookupList k2 (eraseList k l) = lookupList k2 l := by
  induction l with
  | nil => rfl
  | cons hd tl ih =>
    obtain ⟨k1, v1⟩ := hd
    unfold eraseList
    split_ifs with h1
    · subst h1
      rw [lookupList, if_neg h]
    · rw [lookupList, lookupList, ih]

theorem StdMap.find_erase_ne {κ α : Type} [LinearOrder κ] (m : StdMap κ α) {k k2 : κ}
    (h : k2 ≠ k) : (m.erase k).find k2 = m.find k2 :=
  lookupList_eraseList_ne h m.entries

theorem tvector_find_of_get {α : Type} {tv : tvector α} {t : Rat} {v : α}
    (h : tv.get t = Except.ok v) : tv.mapdata.find t = some v := by
  unfold tvector.get at h
  cases hf : tv.mapdata.find t with
  | none => rw [hf] at h; simp [H_THROW] at h
  | some w =>
    rw [hf] at h
    simp only [Except.ok.injEq] at h
    rw [h]

namespace SimpleNbox

variable {α : Type}

theorem sameOffKeys_refl (keys : List String) (ts : tvector (StdMap String α)) :
    sameOffKeys keys ts ts := by
  refine ⟨fun _ => rfl, ?_⟩
  intro d m m2 h1 h2 k _
  rw [h1] at h2
  rw [Option.some.inj h2]

theorem sameOffKeys_trans {keys : List String} {a b c : tvector (StdMap String α)}
    (hab : sameOffKeys keys a b) (hbc : sameOffKeys keys b c) : sameOffKeys keys a c := by
  refine ⟨fun d => by rw [hbc.1 d, hab.1 d], ?_⟩
  intro d m m2 h1 h2 k hk
  have hb : b.hasDate d = true := by
    rw [hab.1 d]
    unfold tvector.hasDate StdMap.contains
    rw [h1]; rfl
  obtain ⟨mb, hmb⟩ := Option.isSome_iff_exists.1 hb
  rw [hbc.2 d mb m2 hmb h2 k hk, hab.2 d m mb h1 hmb k hk]

theorem sameOffKeys_mono {keys keys2 : List String} {a b : tvector (StdMap String α)}
    (hsub : ∀ k, k ∈ keys → k ∈ keys2) (hab : sameOffKeys keys a b) :
    sameOffKeys keys2 a b :=
  ⟨hab.1, fun d m m2 h1 h2 k hk => hab.2 d m m2 h1 h2 k (fun hin => hk (hsub k hin))⟩

theorem sameOffKeys_set {keys : List String} {ts : tvector (StdMap String α)} {i : Rat}
    {m m2 : StdMap String α} (hm : ts.mapdata.find i = some m)
    (hagree : ∀ k, k ∉ keys → m2.find k = m.find k) :
    sameOffKeys keys ts (ts.set i m2) := by
  refine ⟨?_, ?_⟩
  · intro d
    unfold tvector.hasDate tvector.set
    by_cases hd : d = i
    · subst hd
      unfold StdMap.contains
      rw [StdMap.find_insert_self, hm]; rfl
    · unfold StdMap.contains
      rw [StdMap.find_insert_ne _ hd]
  · intro d ma mb h1 h2 k hk
    unfold tvector.set at h2
    by_cases hd : d = i
    · subst hd
      rw [StdMap.find_insert_self] at h2
      rw [hm] at h1
      rw [← Option.some.inj h2, ← Option.some.inj h1]
      exact hagree k hk
    · rw [StdMap.find_insert_ne _ hd, h1] at h2
      rw [Option.some.inj h2]

theorem add_biome_loop_frame (biome : String) (init_value : α) :
    ∀ (dates : List Rat) (ts : tvector (StdMap String α)),
      sameOffKeys [biome] ts (add_biome_loop biome init_value dates ts).2 := by
  intro dates
  induction dates with
  | nil => intro ts; exact sameOffKeys_refl _ _
  | cons i rest ih =>
    intro ts
    unfold add_biome_loop
    split_ifs with hi
    · cases hg : ts.get i with
      | error e => exact sameOffKeys_refl _ _
      | ok newval =>
        refine sameOffKeys_trans (sameOffKeys_set (tvector_find_of_get hg) ?_) (ih _)
        intro k hk
        exact StdMap.find_insert_ne _ (fun h => hk (by simp [h])) _
    · exact ih ts

theorem remove_biome_loop_frame (biome : String) :
    ∀ (dates : List Rat) (ts : tvector (StdMap String α)),
      sameOffKeys [biome] ts (remove_biome_loop biome dates ts).2 := by
  intro dates
  induction dates with
  | nil => intro ts; exact sameOffKeys_refl _ _
  | cons i rest ih =>
    intro ts
    unfold remove_biome_loop
    split_ifs with hi
    · cases hg : ts.get i with
      | error e => exact sameOffKeys_refl _ _
      | ok currval =>
        refine sameOffKeys_trans (sameOffKeys_set (tvector_find_of_get hg) ?_) (ih _)
        intro k hk
        exact StdMap.find_erase_ne _ (fun h => hk (by simp [h]))
    · exact ih ts

theorem rename_biome_loop_frame (oldname newname : String) :
    ∀ (dates : List Rat) (ts : tvector (StdMap String α)),
      sameOffKeys [oldname, newname] ts (rename_biome_loop oldname newname dates ts).2 := by
  intro dates
  induction dates with
  | nil => intro ts; exact sameOffKeys_refl _ _
  | cons i rest ih =>
    intro ts
    unfold rename_biome_loop
    split_ifs with hi
    · cases hg : ts.get i with
      | error e => exact sameOffKeys_refl _ _
      | ok currval =>
        simp only
        cases ha : currval.atKey oldname with
        | error e => exact sameOffKeys_refl _ _
        | ok v =>
          refine sameOffKeys_trans (sameOffKeys_set (tvector_find_of_get hg) ?_) (ih _)
          intro k hk
          have h1 : k ≠ oldname := fun h => hk (by simp [h])
          have h2 : k ≠ newname := fun h => hk (by simp [h])
          rw [StdMap.find_erase_ne _ h1, StdMap.find_insert_ne _ h2]
    · exact ih ts

theorem add_biome_to_ts_frame (ts : tvector (StdMap String α)) (biome : String)
    (init_value : α) : sameOffKeys [biome] ts (add_biome_to_ts ts biome init_value).2 := by
  unfold add_biome_to_ts
  repeat' first | exact sameOffKeys_refl _ _ | exact add_biome_loop_frame _ _ _ _ | split

theorem remove_biome_from_ts_frame (ts : tvector (StdMap String α)) (biome : String) :
    sameOffKeys [biome] ts (remove_biome_from_ts ts biome).2 := by
  unfold remove_biome_from_ts
  repeat' first | exact sameOffKeys_refl _ _ | exact remove_biome_loop_frame _ _ _ | split

theorem rename_biome_in_ts_frame (ts : tvector (StdMap String α)) (oldname newname : String) :
    sameOffKeys [oldname, newname] ts (rename_biome_in_ts ts oldname newname).2 := by
  unfold rename_biome_in_ts
  repeat' first | exact sameOffKeys_refl _ _ | exact rename_biome_loop_frame _ _ _ _ | split

end SimpleNbox
end Hector

namespace Hector
open unit_types
namespace ForcingComponent

theorem run_state_eq (m : Libm) (core : Core) (fc : ForcingComponent) (d : Rat) :
    (run m core fc d).2 = withState fc d (run m core fc d).2.C0
      (run m core fc d).2.baseyear_forcings (run m core fc d).2.forcings_ts := by
  unfold run withState
  by_cases hd : d < fc.baseyear
  · simp only [if_pos hd]
  · simp only [if_neg hd]
    cases hCa : core.sendMessage M_GETDATA D_ATMOSPHERIC_CO2 core.noData with
    | error e => rfl
    | ok Ca =>
      by_cases hby : d = fc.baseyear
      · simp only [if_pos hby]
        cases run_absolute m core { fc with currentYear := d, C0 := Ca } d Ca with
        | error e => rfl
        | ok absolute =>
          simp only
          cases hr : run_relative absolute.entries absolute with
          | mk res base1 =>
            cases res with
            | error e => rfl
            | ok rel => rfl
      · simp only [if_neg hby]
        cases run_absolute m core { fc with currentYear := d } d Ca with
        | error e => rfl
        | ok absolute =>
          simp only
          cases hr : run_relative absolute.entries fc.baseyear_forcings with
          | mk res base1 =>
            cases res with
            | error e => rfl
            | ok rel => rfl

theorem run_before_baseyear (m : Libm) (core : Core) (fc : ForcingComponent) (d : Rat)
    (hd : d < fc.baseyear) :
    run m core fc d = (Except.ok (), { fc with currentYear := d }) := by
  unfold run
  simp only [if_pos hd]

theorem run_C0_of_ne (m : Libm) (core : Core) (fc : ForcingComponent) (d : Rat)
    (hne : d ≠ fc.baseyear) : (run m core fc d).2.C0 = fc.C0 := by
  unfold run
  by_cases hd : d < fc.baseyear
  · simp only [if_pos hd]
  · simp only [if_neg hd, if_neg hne]
    cases hCa : core.sendMessage M_GETDATA D_ATMOSPHERIC_CO2 core.noData with
    | error e => rfl
    | ok Ca =>
      simp only
      cases run_absolute m core { fc with currentYear := d } d Ca with
      | error e => rfl
      | ok absolute =>
        simp only
        cases hr : run_relative absolute.entries fc.baseyear_forcings with
        | mk res base1 =>
          cases res with
          | error e => rfl
          | ok rel => rfl

theorem run_at_baseyear_forgets (m : Libm) (core : Core) (fc : ForcingComponent)
    (X : unitval) (Y : forcings_t)
    (h : (run m core fc fc.baseyear).1 = Except.ok ()) :
    run m core { fc with C0 := X, baseyear_forcings := Y } fc.baseyear
      = run m core fc fc.baseyear := by
  unfold run at h ⊢
  simp only [lt_irrefl, if_false, if_true] at h ⊢
  cases hCa : core.sendMessage M_GETDATA D_ATMOSPHERIC_CO2 core.noData with
  | error e => rw [hCa] at h; simp at h
  | ok Ca =>
    rw [hCa] at h
    simp only at h ⊢
    have hab : run_absolute m core
        { fc with C0 := Ca, baseyear_forcings := Y, currentYear := fc.baseyear } fc.baseyear Ca
        = run_absolute m core { fc with currentYear := fc.baseyear, C0 := Ca } fc.baseyear Ca :=
      rfl
    rw [hab]
    cases habs : run_absolute m core { fc with currentYear := fc.baseyear, C0 := Ca }
        fc.baseyear Ca with
    | error e => rw [habs] at h; simp at h
    | ok absolute => simp only

end ForcingComponent
end Hector

namespace Hector
open unit_types

theorem filter_insertList_gt {α : Type} (t d : Rat) (v : α) (hd : t < d) (l : List (Rat × α)) :
    (insertList d v l).filter (fun e => decide (e.1 ≤ t))
      = l.filter (fun e => decide (e.1 ≤ t)) := by
  have hnot : ¬ d ≤ t := not_le.2 hd
  induction l with
  | nil => simp [insertList, hnot]
  | cons hd1 tl ih =>
    obtain ⟨d1, v1⟩ := hd1
    unfold insertList
    split_ifs with h1 h2
    · rw [List.filter_cons_of_neg (by simpa using hnot)]
    · subst h2
      rw [List.filter_cons_of_neg (by simpa using hnot),
        List.filter_cons_of_neg (by simpa using hnot)]
    · by_cases h3 : d1 ≤ t
      · rw [List.filter_cons_of_pos (by simpa using h3),
          List.filter_cons_of_pos (by simpa using h3), ih]
      · rw [List.filter_cons_of_neg (by simpa using h3),
          List.filter_cons_of_neg (by simpa using h3), ih]

theorem tvector_ext {α : Type} {a b : tvector α}
    (h : a.mapdata.entries = b.mapdata.entries) : a = b := by
  cases a with
  | mk ma =>
    cases b with
    | mk mb =>
      have : ma = mb := StdMap.ext_entries h
      rw [this]

theorem truncate_set_gt {α : Type} (tv : tvector α) (t d : Rat) (v : α) (hd : t < d) :
    (tv.set d v).truncate t = tv.truncate t :=
  tvector_ext (filter_insertList_gt t d v hd tv.mapdata.entries)

theorem truncate_self {α : Type} (tv : tvector α) (t : Rat)
    (h : ∀ e ∈ tv.mapdata.entries, e.1 ≤ t) : tv.truncate t = tv := by
  apply tvector_ext
  show tv.mapdata.entries.filter (fun e => decide (e.1 ≤ t)) = tv.mapdata.entries
  rw [List.filter_eq_self]
  intro e he
  simpa using h e he

namespace ForcingComponent

theorem eq_ok_of_completes {x : Except h_exception Unit} (h : completes x = true) :
    x = Except.ok () := by
  cases x with
  | error e => simp [completes] at h
  | ok v => rfl

theorem run_baseyear_eq (m : Libm) (core : Core) (fc : ForcingComponent) (d : Rat) :
    (run m core fc d).2.baseyear = fc.baseyear := by
  rw [run_state_eq]; rfl

theorem run_currentYear_eq (m : Libm) (core : Core) (fc : ForcingComponent) (d : Rat) :
    (run m core fc d).2.currentYear = d := by
  rw [run_state_eq]; rfl

theorem run_history {m : Libm} {core : Core} {fc : ForcingComponent} {d : Rat}
    (h : (run m core fc d).1 = Except.ok ()) :
    (run m core fc d).2.forcings_ts = fc.forcings_ts ∨
    ∃ recorded, (run m core fc d).2.forcings_ts = fc.forcings_ts.set d recorded := by
  by_cases hd : d < fc.baseyear
  · left; rw [run_before_baseyear m core fc d hd]
  · obtain ⟨_, _, recorded, -, -, hts, -⟩ := run_ok hd h
    exact Or.inr ⟨recorded, hts⟩

theorem run_snapshot_has_total {m : Libm} {core : Core} {fc : ForcingComponent} {d : Rat}
    (hd : ¬ d < fc.baseyear) (h : (run m core fc d).1 = Except.ok ()) :
    (run m core fc d).2.baseyear_forcings.contains D_RF_TOTAL = true := by
  obtain ⟨Ca, absolute, recorded, -, habs, -, -, -, -, -, hcont⟩ := run_ok hd h
  obtain ⟨forcings, Ftot, tot, -, -, -, h4⟩ := run_absolute_ok habs
  have ht : absolute.find D_RF_TOTAL = some tot := by
    rw [h4]; exact StdMap.find_insert_self _ _ _
  exact hcont _ (lookupList_mem ht)

theorem run_snapshot_stable {m : Libm} {core : Core} {fc : ForcingComponent} {d : Rat}
    (hd : fc.baseyear < d)
    (hT : fc.baseyear_forcings.contains D_RF_TOTAL = true)
    (h : (run m core fc d).1 = Except.ok ()) :
    (run m core fc d).2.baseyear_forcings = fc.baseyear_forcings := by
  have hne : d ≠ fc.baseyear := ne_of_gt hd
  obtain ⟨Ca, absolute, recorded, -, habs, -, -, hun, -, hst, -⟩ :=
    run_ok (not_lt.2 (le_of_lt hd)) h
  have hb : baselineAt fc d absolute = fc.baseyear_forcings := by
    unfold baselineAt; rw [if_neg hne]
  rw [hb] at hun hst
  apply hst
  obtain ⟨forcings, Ftot, tot, -, h2, -, h4⟩ := run_absolute_ok habs
  obtain ⟨-, hFu⟩ := run_Ftot_ok _ _ _ h2
  intro it hit
  by_cases hk : it.1 = D_RF_TOTAL
  · rw [hk]; exact hT
  · cases hf : fc.baseyear_forcings.find it.1 with
    | some v => unfold StdMap.contains; rw [hf]; rfl
    | none =>
      exfalso
      have h1 := hun it hit
      rw [baselineOf_eq, hf] at h1
      have h3 : it ∈ forcings.entries := by
        rw [h4] at hit
        rcases mem_insertList hit with h5 | h5
        · exact absurd (by rw [h5]) hk
        · exact h5
      have h6 := hFu it h3
      rw [h6] at h1
      exact absurd h1 (by decide)

end ForcingComponent
end Hector

namespace Hector
open unit_types
namespace ForcingComponent

theorem runSeq_append (m : Libm) : ∀ (a b : List (Core × Rat)) (fc : ForcingComponent),
    runSeq m (a ++ b) fc = runSeq m b (runSeq m a fc) := by
  intro a
  induction a with
  | nil => intro b fc; rfl
  | cons s rest ih => intro b fc; exact ih b _

theorem runSeqCompletes_append (m : Libm) : ∀ (a b : List (Core × Rat))
    (fc : ForcingComponent),
    runSeqCompletes m (a ++ b) fc
      = (runSeqCompletes m a fc && runSeqCompletes m b (runSeq m a fc)) := by
  intro a
  induction a with
  | nil => intro b fc; simp [runSeqCompletes, runSeq]
  | cons s rest ih =>
    intro b fc
    rw [List.cons_append, runSeqCompletes, runSeqCompletes, runSeq, ih, Bool.and_assoc]

theorem withState_of_eq {A B : ForcingComponent} {a : Rat} {b : unitval} {c : forcings_t}
    {d : tvector forcings_t} (h : A = withState B a b c d) :
    A = withState B A.currentYear A.C0 A.baseyear_forcings A.forcings_ts := by
  rw [h]; rfl

theorem withState_trans {A B C : ForcingComponent} {a a2 : Rat} {b b2 : unitval}
    {c c2 : forcings_t} {d d2 : tvector forcings_t}
    (h1 : A = withState B a b c d) (h2 : B = withState C a2 b2 c2 d2) :
    A = withState C a b c d := by
  rw [h1, h2]; rfl

theorem runSeq_state_eq (m : Libm) : ∀ (steps : List (Core × Rat)) (fc : ForcingComponent),
    runSeq m steps fc = withState fc (runSeq m steps fc).currentYear (runSeq m steps fc).C0
      (runSeq m steps fc).baseyear_forcings (runSeq m steps fc).forcings_ts := by
  intro steps
  induction steps with
  | nil => intro fc; rfl
  | cons s rest ih =>
    intro fc
    have h1 : runSeq m (s :: rest) fc = _ := ih (run m s.1 fc s.2).2
    exact withState_of_eq (withState_trans h1 (run_state_eq m s.1 fc s.2))

theorem runSeq_truncate (m : Libm) (t : Rat) : ∀ (steps : List (Core × Rat))
    (fc : ForcingComponent), (∀ s ∈ steps, t < s.2) → runSeqCompletes m steps fc = true →
    (runSeq m steps fc).forcings_ts.truncate t = fc.forcings_ts.truncate t := by
  intro steps
  induction steps with
  | nil => intro fc _ _; rfl
  | cons s rest ih =>
    intro fc hd hc
    simp only [runSeqCompletes, Bool.and_eq_true] at hc
    rw [runSeq, ih _ (fun x hx => hd x (List.mem_cons_of_mem _ hx)) hc.2]
    rcases run_history (eq_ok_of_completes hc.1) with h | ⟨recorded, h⟩
    · rw [h]
    · rw [h, truncate_set_gt _ _ _ _ (hd s (List.mem_cons_self _ _))]

theorem runSeq_stable (m : Libm) : ∀ (steps : List (Core × Rat)) (fc : ForcingComponent),
    (∀ s ∈ steps, fc.baseyear < s.2) →
    fc.baseyear_forcings.contains D_RF_TOTAL = true →
    runSeqCompletes m steps fc = true →
    (runSeq m steps fc).baseyear_forcings = fc.baseyear_forcings ∧
    (runSeq m steps fc).C0 = fc.C0 := by
  intro steps
  induction steps with
  | nil => intro fc _ _ _; exact ⟨rfl, rfl⟩
  | cons s rest ih =>
    intro fc hd hT hc
    simp only [runSeqCompletes, Bool.and_eq_true] at hc
    have hs := hd s (List.mem_cons_self _ _)
    have hstab := run_snapshot_stable hs hT (eq_ok_of_completes hc.1)
    have hC0 := run_C0_of_ne m s.1 fc s.2 (ne_of_gt hs)
    have hby := run_baseyear_eq m s.1 fc s.2
    obtain ⟨i1, i2⟩ := ih (run m s.1 fc s.2).2
      (fun x hx => by rw [hby]; exact hd x (List.mem_cons_of_mem _ hx))
      (by rw [hstab]; exact hT) hc.2
    exact ⟨by rw [runSeq, i1, hstab], by rw [runSeq, i2, hC0]⟩

theorem runSeq_history_le (m : Libm) (t : Rat) : ∀ (steps : List (Core × Rat))
    (fc : ForcingComponent), (∀ s ∈ steps, s.2 ≤ t) →
    (∀ e ∈ fc.forcings_ts.mapdata.entries, e.1 ≤ t) →
    runSeqCompletes m steps fc = true →
    ∀ e ∈ (runSeq m steps fc).forcings_ts.mapdata.entries, e.1 ≤ t := by
  intro steps
  induction steps with
  | nil => intro fc _ h _; exact h
  | cons s rest ih =>
    intro fc hd hfc hc
    simp only [runSeqCompletes, Bool.and_eq_true] at hc
    apply ih _ (fun x hx => hd x (List.mem_cons_of_mem _ hx)) _ hc.2
    rcases run_history (eq_ok_of_completes hc.1) with h | ⟨recorded, h⟩
    · rw [h]; exact hfc
    · rw [h]
      intro e he
      rcases mem_insertList he with h1 | h1
      · rw [h1]; exact hd s (List.mem_cons_self _ _)
      · exact hfc e h1

theorem runSeq_before_baseyear (m : Libm) : ∀ (steps : List (Core × Rat))
    (fc : ForcingComponent), (∀ s ∈ steps, s.2 < fc.baseyear) →
    runSeq m steps fc = withState fc (runSeq m steps fc).currentYear fc.C0
      fc.baseyear_forcings fc.forcings_ts := by
  intro steps
  induction steps with
  | nil => intro fc _; rfl
  | cons s rest ih =>
    intro fc hd
    have hrun := run_before_baseyear m s.1 fc s.2 (hd s (List.mem_cons_self _ _))
    have h1 := ih { fc with currentYear := s.2 }
      (fun x hx => hd x (List.mem_cons_of_mem _ hx))
    have h2 : runSeq m (s :: rest) fc = runSeq m rest { fc with currentYear := s.2 } := by
      rw [runSeq, hrun]
    rw [h2]
    have h3 : ({ fc with currentYear := s.2 } : ForcingComponent)
        = withState fc s.2 fc.C0 fc.baseyear_forcings fc.forcings_ts := rfl
    exact withState_trans h1 h3

theorem runSeq_forgets (m : Libm) : ∀ (steps : List (Core × Rat)) (fc : ForcingComponent)
    (X : unitval) (Y : forcings_t),
    fc.baseyear ∈ steps.map Prod.snd →
    (steps.map Prod.snd).Pairwise (fun a b => a < b) →
    runSeqCompletes m steps fc = true →
    runSeq m steps { fc with C0 := X, baseyear_forcings := Y } = runSeq m steps fc ∧
    runSeqCompletes m steps { fc with C0 := X, baseyear_forcings := Y } = true := by
  intro steps
  induction steps with
  | nil => intro fc X Y hb _ _; simp at hb
  | cons s rest ih =>
    intro fc X Y hb hp hc
    have hc0 := hc
    simp only [runSeqCompletes, Bool.and_eq_true] at hc
    simp only [List.map_cons, List.pairwise_cons] at hp
    simp only [List.map_cons, List.mem_cons] at hb
    by_cases hs : s.2 = fc.baseyear
    · have h1 := hc.1
      rw [hs] at h1
      have hf := run_at_baseyear_forgets m s.1 fc X Y (eq_ok_of_completes h1)
      refine ⟨?_, ?_⟩
      · rw [runSeq, runSeq, hs, hf]
      · rw [runSeqCompletes, hs, hf, ← hs]
        exact hc0
    · have hin : fc.baseyear ∈ rest.map Prod.snd := by
        rcases hb with h | h
        · exact absurd h.symm hs
        · exact h
      have hlt : s.2 < fc.baseyear := hp.1 _ hin
      have hlt2 :
          s.2 < ({ fc with C0 := X, baseyear_forcings := Y } : ForcingComponent).baseyear := hlt
      have hc2 := hc.2
      rw [run_before_baseyear m s.1 fc s.2 hlt] at hc2
      obtain ⟨i1, i2⟩ := ih { fc with currentYear := s.2 } X Y hin hp.2 hc2
      refine ⟨?_, ?_⟩
      · rw [runSeq, runSeq, run_before_baseyear m s.1 fc s.2 hlt,
          run_before_baseyear m s.1 _ s.2 hlt2]
        exact i1
      · rw [runSeqCompletes, run_before_baseyear m s.1 _ s.2 hlt2]
        simp only [completes, Bool.true_and]
        exact i2

theorem withState_self_of (fc : ForcingComponent) (t : Rat) (h : fc.currentYear = t) :
    withState fc t fc.C0 fc.baseyear_forcings fc.forcings_ts = fc := by
  subst h; rfl

theorem withState_eq_update (fc : ForcingComponent) (t : Rat) (X : unitval) (Y : forcings_t)
    (h : fc.currentYear = t) :
    withState fc t X Y fc.forcings_ts = { fc with C0 := X, baseyear_forcings := Y } := by
  subst h; rfl

theorem reset_withState (fc : ForcingComponent) (a t : Rat) (b : unitval) (c : forcings_t)
    (d : tvector forcings_t) :
    reset (withState fc a b c d) t = withState fc t b c (d.truncate t) := rfl

end ForcingComponent
end Hector

namespace Hector
open unit_types
namespace ForcingComponent

theorem subscript_snd_of_isSome {κ α : Type} [LinearOrder κ] [Inhabited α]
    (m : StdMap κ α) (k : κ) (h : (m.find k).isSome = true) : (m.subscript k).2 = m := by
  unfold StdMap.subscript
  cases hk : m.find k with
  | some v => rfl
  | none => rw [hk] at h; simp at h

/-- C11: `getData` is read-only: for every variable name and date, whether it
returns a value or throws, the object after the call (current year, base year,
parameters, baseline snapshot, recorded history, constraint series and the
adjusted-to-raw halocarbon name table) is the object before the call. -/
theorem getData_read_only (core : Core) (fc : ForcingComponent) (varName : String)
    (date : Rat) : (getData core fc varName date).2 = fc := by
  have hmap : (if (fc.forcing_name_map.find varName).isSome = true
      then fc.forcing_name_map.subscript varName
      else (varName, fc.forcing_name_map)).2 = fc.forcing_name_map := by
    split_ifs with h
    · exact subscript_snd_of_isSome _ _ h
    · rfl
  unfold getData
  simp only [hmap]
  repeat' first | rfl | split

theorem lookupList_filter_le {α : Type} (t d : Rat) (l : List (Rat × α)) :
    lookupList d (l.filter (fun e => decide (e.1 ≤ t)))
      = if d ≤ t then lookupList d l else none := by
  induction l with
  | nil => simp [lookupList]
  | cons hd tl ih =>
    obtain ⟨d1, v1⟩ := hd
    by_cases h1 : d1 ≤ t
    · rw [List.filter_cons_of_pos (by simpa using h1), lookupList, lookupList, ih]
      by_cases h2 : d = d1
      · subst h2; simp [h1]
      · simp [h2]
    · rw [List.filter_cons_of_neg (by simpa using h1), ih, lookupList]
      by_cases h2 : d = d1
      · subst h2; simp [h1]
      · simp [h2]

/-- C12: `reset(t)` sets the current year to `t` and truncates the recorded
forcing history at `t`: no entry with a date after `t` remains and every date up
to `t` is bound as before; the base year, the baseline snapshot, `C0`, the
parameters, the constraint series and the name table are unchanged. -/
theorem reset_frame (fc : ForcingComponent) (t : Rat) :
    (reset fc t).currentYear = t ∧
    (∀ d, t < d → (reset fc t).forcings_ts.mapdata.find d = none) ∧
    (∀ d, d ≤ t → (reset fc t).forcings_ts.mapdata.find d = fc.forcings_ts.mapdata.find d) ∧
    (reset fc t).baseyear = fc.baseyear ∧
    (reset fc t).baseyear_forcings = fc.baseyear_forcings ∧
    (reset fc t).C0 = fc.C0 ∧
    (reset fc t).aCO2 = fc.aCO2 ∧ (reset fc t).aN2O = fc.aN2O ∧
    (reset fc t).aCH4 = fc.aCH4 ∧ (reset fc t).atropO3 = fc.atropO3 ∧
    (reset fc t).aso2d = fc.aso2d ∧ (reset fc t).aso2in = fc.aso2in ∧
    (reset fc t).Ftot_constrain = fc.Ftot_constrain ∧
    (reset fc t).forcing_name_map = fc.forcing_name_map := by
  refine ⟨rfl, ?_, ?_, rfl, rfl, rfl, rfl, rfl, rfl, rfl, rfl, rfl, rfl, rfl⟩
  · intro d hd
    show lookupList d (fc.forcings_ts.mapdata.entries.filter (fun e => decide (e.1 ≤ t))) = none
    rw [lookupList_filter_le, if_neg (not_le.2 hd)]
  · intro d hd
    show lookupList d (fc.forcings_ts.mapdata.entries.filter (fun e => decide (e.1 ≤ t)))
      = lookupList d fc.forcings_ts.mapdata.entries
    rw [lookupList_filter_le, if_pos hd]

end ForcingComponent
end Hector

namespace Hector

/-- The loop `for (double i = first; i < last; i++)` visits exactly the values
`first + k`, `k` a natural number, that are below `last`. -/
theorem mem_forDates (first last d : Rat) :
    d ∈ forDates first last ↔ ∃ k : Nat, d = first + (k : Rat) ∧ d < last := by
  unfold forDates
  rw [List.mem_map]
  constructor
  · rintro ⟨k, hk, rfl⟩
    refine ⟨k, rfl, ?_⟩
    have h1 : (k : Int) < ⌈last - first⌉ := Int.lt_toNat.1 (List.mem_range.1 hk)
    have h2 : ((k : Int) : Rat) < last - first := Int.lt_ceil.1 h1
    have h3 : (k : Rat) < last - first := by exact_mod_cast h2
    linarith
  · rintro ⟨k, rfl, hlt⟩
    refine ⟨k, List.mem_range.2 (Int.lt_toNat.2 (Int.lt_ceil.2 ?_)), rfl⟩
    have : (k : Rat) < last - first := by linarith
    exact_mod_cast this

namespace SimpleNbox

/-- C14 does not hold at the last date: on a history with records for 1745, 1746
and 1747 in which "boreal" is absent, `add_biome_to_ts` returns normally and
binds "boreal" to the initial value at 1745 and 1746, but the record of the last
date, 1747, has no key "boreal". -/
theorem add_biome_to_ts_misses_last_date :
    demoBiomeTs.firstdate = Except.ok 1745 ∧ demoBiomeTs.lastdate = Except.ok 1747 ∧
    (add_biome_to_ts demoBiomeTs "boreal" 0).1 = Except.ok () ∧
    ((add_biome_to_ts demoBiomeTs "boreal" 0).2.get 1745).map (fun m => m.find "boreal")
      = Except.ok (some 0) ∧
    ((add_biome_to_ts demoBiomeTs "boreal" 0).2.get 1746).map (fun m => m.find "boreal")
      = Except.ok (some 0) ∧
    ((add_biome_to_ts demoBiomeTs "boreal" 0).2.get 1747).map (fun m => m.find "boreal")
      = Except.ok none := by
  decide!

/-- C15 does not hold at the last date: on the same history,
`remove_biome_from_ts` erases "global" at 1745 and 1746, but the record of the
last date, 1747, still has the key "global". -/
theorem remove_biome_from_ts_misses_last_date :
    demoBiomeTs.lastdate = Except.ok 1747 ∧
    (remove_biome_from_ts demoBiomeTs "global").1 = Except.ok () ∧
    ((remove_biome_from_ts demoBiomeTs "global").2.get 1745).map (fun m => m.find "global")
      = Except.ok none ∧
    ((remove_biome_from_ts demoBiomeTs "global").2.get 1746).map (fun m => m.find "global")
      = Except.ok none ∧
    ((remove_biome_from_ts demoBiomeTs "global").2.get 1747).map (fun m => m.find "global")
      = Except.ok (some 12) := by
  decide!

/-- C16 does not hold at the last date: on the same history, in which "global"
is a key and "boreal" is not at every date, `rename_biome_in_ts` returns
normally and moves the value to "boreal" at 1745 and 1746, but the record of the
last date, 1747, still binds "global" and has no key "boreal". -/
theorem rename_biome_in_ts_misses_last_date :
    demoBiomeTs.lastdate = Except.ok 1747 ∧
    (rename_biome_in_ts demoBiomeTs "global" "boreal").1 = Except.ok () ∧
    ((rename_biome_in_ts demoBiomeTs "global" "boreal").2.get 1745).map
      (fun m => (m.find "global", m.find "boreal")) = Except.ok (none, some 10) ∧
    ((rename_biome_in_ts demoBiomeTs "global" "boreal").2.get 1746).map
      (fun m => (m.find "global", m.find "boreal")) = Except.ok (none, some 11) ∧
    ((rename_biome_in_ts demoBiomeTs "global" "boreal").2.get 1747).map
      (fun m => (m.find "global", m.find "boreal")) = Except.ok (some 12, none) := by
  decide!

/-- C17 does not hold on a history with a single record: there the first date is
also the last one, `rename_biome_in_ts(ts, "a", "b")` returns normally without
renaming anything, and `rename_biome_in_ts(ts, "b", "a")` then throws because
"b" is not found.  (On the three-record history the round trip does return the
original series.) -/
theorem rename_round_trip_throws_on_single_record :
    demoBiomeTsOne.firstdate = Except.ok 1745 ∧ demoBiomeTsOne.lastdate = Except.ok 1745 ∧
    (demoBiomeTsOne.get 1745).map (fun m => (m.find "a", m.find "b"))
      = Except.ok (some 10, none) ∧
    (rename_biome_in_ts demoBiomeTsOne "a" "b").1 = Except.ok () ∧
    (rename_biome_in_ts demoBiomeTsOne "a" "b").2 = demoBiomeTsOne ∧
    (rename_biome_in_ts (rename_biome_in_ts demoBiomeTsOne "a" "b").2 "b" "a").1
      = Except.error ["Biome 'b' not found in data."] ∧
    (rename_biome_in_ts (rename_biome_in_ts demoBiomeTs "global" "boreal").2
      "boreal" "global") = (Except.ok (), demoBiomeTs) := by
  decide!

/-- C18: each of `add_biome_to_ts`, `remove_biome_from_ts` and
`rename_biome_in_ts`, whether it returns or throws, and `add_biome_to_ts` of a
name followed by `remove_biome_from_ts` of the same name, leaves the set of
recorded dates unchanged and, at every recorded date, leaves the value of every
key other than the name(s) passed to the call unchanged. -/
theorem biome_sweeps_frame {α : Type} (ts : tvector (StdMap String α))
    (biome oldname newname : String) (init_value : α) :
    sameOffKeys [biome] ts (add_biome_to_ts ts biome init_value).2 ∧
    sameOffKeys [biome] ts (remove_biome_from_ts ts biome).2 ∧
    sameOffKeys [oldname, newname] ts (rename_biome_in_ts ts oldname newname).2 ∧
    sameOffKeys [biome] ts
      (remove_biome_from_ts (add_biome_to_ts ts biome init_value).2 biome).2 :=
  ⟨add_biome_to_ts_frame ts biome init_value, remove_biome_from_ts_frame ts biome,
    rename_biome_in_ts_frame ts oldname newname,
    sameOffKeys_trans (add_biome_to_ts_frame ts biome init_value)
      (remove_biome_from_ts_frame _ biome)⟩

/-- C19: when the biome is already a key of the mapping recorded at the first
date of the series, `add_biome_to_ts` throws an error that carries the biome
name and leaves the series as it was. -/
theorem add_biome_to_ts_rejects_existing {α : Type} (ts : tvector (StdMap String α))
    (biome : String) (init_value : α) (first : Rat) (m0 : StdMap String α)
    (hfirst : ts.firstdate = Except.ok first) (hget : ts.get first = Except.ok m0)
    (hkey : m0.contains biome = true) :
    add_biome_to_ts ts biome init_value
      = (Except.error ["Biome '" ++ biome ++ "' already exists in data."], ts) := by
  unfold add_biome_to_ts
  simp only [hfirst, hget, hkey, if_true, H_THROW]

theorem add_biome_to_ts_rejects_existing_witness :
    demoBiomeTs.firstdate = Except.ok 1745 ∧
    demoBiomeTs.get 1745 = Except.ok (biomeMap "global" 10) ∧
    add_biome_to_ts demoBiomeTs "global" 0
      = (Except.error ["Biome '" ++ "global" ++ "' already exists in data."], demoBiomeTs) :=
  ⟨by decide!, by decide!,
    add_biome_to_ts_rejects_existing demoBiomeTs "global" 0 1745 (biomeMap "global" 10)
      (by decide!) (by decide!) (by decide!)⟩

/-- C20: `rename_biome_in_ts` throws when `oldname` is not a key of the mapping
at the first recorded date, with an error that carries `oldname`, and throws when
`oldname` is a key and `newname` is one already, with an error that carries
`newname`; so it throws whenever `oldname` equals `newname`.  In each case the
series is left as it was. -/
theorem rename_biome_in_ts_rejects_bad_names {α : Type} (ts : tvector (StdMap String α))
    (oldname newname : String) (first : Rat) (m0 : StdMap String α)
    (hfirst : ts.firstdate = Except.ok first) (hget : ts.get first = Except.ok m0) :
    (m0.contains oldname = false →
      rename_biome_in_ts ts oldname newname
        = (Except.error ["Biome '" ++ oldname ++ "' not found in data."], ts)) ∧
    (m0.contains oldname = true → m0.contains newname = true →
      rename_biome_in_ts ts oldname newname
        = (Except.error ["Biome '" ++ newname ++ "' already exists in data."], ts)) ∧
    (oldname = newname →
      completes (rename_biome_in_ts ts oldname newname).1 = false ∧
      (rename_biome_in_ts ts oldname newname).2 = ts) := by
  have h1 : m0.contains oldname = false →
      rename_biome_in_ts ts oldname newname
        = (Except.error ["Biome '" ++ oldname ++ "' not found in data."], ts) := by
    intro h
    unfold rename_biome_in_ts
    simp [hfirst, hget, h, H_THROW]
  have h2 : m0.contains oldname = true → m0.contains newname = true →
      rename_biome_in_ts ts oldname newname
        = (Except.error ["Biome '" ++ newname ++ "' already exists in data."], ts) := by
    intro ha hb
    unfold rename_biome_in_ts
    simp [hfirst, hget, ha, hb, H_THROW]
  refine ⟨h1, h2, ?_⟩
  intro heq
  cases hc : m0.contains oldname with
  | false => rw [h1 hc]; exact ⟨rfl, rfl⟩
  | true => rw [h2 hc (heq ▸ hc)]; exact ⟨rfl, rfl⟩

theorem rename_biome_in_ts_rejects_bad_names_witness :
    demoBiomeTs.firstdate = Except.ok 1745 ∧
    demoBiomeTs.get 1745 = Except.ok (biomeMap "global" 10) ∧
    ((biomeMap "global" 10).contains "tundra" = false →
      rename_biome_in_ts demoBiomeTs "tundra" "global"
        = (Except.error ["Biome '" ++ "tundra" ++ "' not found in data."], demoBiomeTs)) ∧
    ((biomeMap "global" 10).contains "tundra" = true →
      (biomeMap "global" 10).contains "global" = true →
      rename_biome_in_ts demoBiomeTs "tundra" "global"
        = (Except.error ["Biome '" ++ "global" ++ "' already exists in data."],
            demoBiomeTs)) ∧
    ("tundra" = "global" →
      completes (rename_biome_in_ts demoBiomeTs "tundra" "global").1 = false ∧
      (rename_biome_in_ts demoBiomeTs "tundra" "global").2 = demoBiomeTs) :=
  ⟨by decide!, by decide!,
    rename_biome_in_ts_rejects_bad_names demoBiomeTs "tundra" "global" 1745
      (biomeMap "global" 10) (by decide!) (by decide!)⟩

end SimpleNbox
end Hector

namespace Hector
open unit_types
namespace ForcingComponent

/-- C13: rewind idempotence.  Take a sequence of steps with strictly increasing
dates that passes through the base year, all of which return normally, from a
component whose history holds no record after `D0` (as when it has not run
yet), and any step `D0` of the sequence.  Running the whole sequence, calling
`reset(D0)` and running the steps after `D0` again with the same answers from the
core returns normally at every step and leaves exactly the object of the
uninterrupted run. -/
theorem rewind_idempotent (m : Libm) (pre post : List (Core × Rat)) (core0 : Core)
    (D0 : Rat) (fc : ForcingComponent)
    (hinc : ((pre ++ (core0, D0) :: post).map Prod.snd).Pairwise (fun a b => a < b))
    (hbase : fc.baseyear ∈ (pre ++ (core0, D0) :: post).map Prod.snd)
    (hfresh : ∀ e ∈ fc.forcings_ts.mapdata.entries, e.1 ≤ D0)
    (hrun : runSeqCompletes m (pre ++ (core0, D0) :: post) fc = true) :
    runSeq m post (reset (runSeq m (pre ++ (core0, D0) :: post) fc) D0)
      = runSeq m (pre ++ (core0, D0) :: post) fc ∧
    runSeqCompletes m post (reset (runSeq m (pre ++ (core0, D0) :: post) fc) D0) = true := by
  have hfull : pre ++ (core0, D0) :: post = (pre ++ [(core0, D0)]) ++ post := by simp
  rw [hfull] at hinc hbase hrun ⊢
  rw [List.map_append, List.pairwise_append] at hinc
  obtain ⟨hp1, hp2, hp12⟩ := hinc
  rw [List.map_append, List.map_cons, List.map_nil, List.pairwise_append] at hp1
  have hpre_le : ∀ s ∈ pre ++ [(core0, D0)], s.2 ≤ D0 := by
    intro s hs
    rcases List.mem_append.1 hs with h | h
    · exact le_of_lt (hp1.2.2 s.2 (List.mem_map_of_mem Prod.snd h) D0 (by simp))
    · simp only [List.mem_singleton] at h
      rw [h]
  have hpost_gt : ∀ s ∈ post, D0 < s.2 := by
    intro s hs
    exact hp12 D0 (by simp) s.2 (List.mem_map_of_mem Prod.snd hs)
  rw [runSeqCompletes_append, Bool.and_eq_true] at hrun
  obtain ⟨hc1, hc2⟩ := hrun
  rw [runSeq_append]
  -- the object after the step at `D0`
  have hSj_by : (runSeq m (pre ++ [(core0, D0)]) fc).baseyear = fc.baseyear := by
    rw [runSeq_state_eq]; rfl
  have hSj_cy : (runSeq m (pre ++ [(core0, D0)]) fc).currentYear = D0 := by
    rw [runSeq_append]
    exact run_currentYear_eq m core0 _ D0
  have hSn := runSeq_state_eq m post (runSeq m (pre ++ [(core0, D0)]) fc)
  have htr := runSeq_truncate m D0 post (runSeq m (pre ++ [(core0, D0)]) fc) hpost_gt hc2
  rw [List.map_append, List.mem_append] at hbase
  rcases hbase with hb | hb
  · -- the base year is not after `D0`
    have hbD : fc.baseyear ≤ D0 := by
      obtain ⟨s, hs, hs2⟩ := List.mem_map.1 hb
      rw [← hs2]; exact hpre_le s hs
    have hlast : runSeqCompletes m [(core0, D0)] (runSeq m pre fc) = true := by
      rw [runSeqCompletes_append, Bool.and_eq_true] at hc1
      exact hc1.2
    simp only [runSeqCompletes, Bool.and_true] at hlast
    have hby0 : (runSeq m pre fc).baseyear = fc.baseyear := by
      rw [runSeq_state_eq]; rfl
    have hT : (runSeq m (pre ++ [(core0, D0)]) fc).baseyear_forcings.contains D_RF_TOTAL
        = true := by
      rw [runSeq_append]
      exact run_snapshot_has_total (by rw [hby0]; exact not_lt.2 hbD)
        (eq_ok_of_completes hlast)
    obtain ⟨hbf, hC0⟩ := runSeq_stable m post (runSeq m (pre ++ [(core0, D0)]) fc)
      (fun s hs => by rw [hSj_by]; exact lt_of_le_of_lt hbD (hpost_gt s hs)) hT hc2
    have hhist := runSeq_history_le m D0 (pre ++ [(core0, D0)]) fc hpre_le hfresh hc1
    have hreset : reset (runSeq m post (runSeq m (pre ++ [(core0, D0)]) fc)) D0
        = runSeq m (pre ++ [(core0, D0)]) fc := by
      rw [hSn, reset_withState, htr, truncate_self _ _ hhist, hbf, hC0]
      exact withState_self_of _ _ hSj_cy
    rw [hreset]
    exact ⟨rfl, hc2⟩
  · -- the base year is after `D0`
    have hlt : ∀ s ∈ pre ++ [(core0, D0)], s.2 < fc.baseyear := by
      intro s hs
      exact hp12 s.2 (List.mem_map_of_mem Prod.snd hs) fc.baseyear hb
    have hSj := runSeq_before_baseyear m (pre ++ [(core0, D0)]) fc hlt
    have hts : (runSeq m (pre ++ [(core0, D0)]) fc).forcings_ts = fc.forcings_ts := by
      rw [hSj]; rfl
    have hreset : reset (runSeq m post (runSeq m (pre ++ [(core0, D0)]) fc)) D0
        = { runSeq m (pre ++ [(core0, D0)]) fc with
            C0 := (runSeq m post (runSeq m (pre ++ [(core0, D0)]) fc)).C0
            baseyear_forcings :=
              (runSeq m post (runSeq m (pre ++ [(core0, D0)]) fc)).baseyear_forcings } := by
      rw [hSn, reset_withState, htr, truncate_self _ _ (by rw [hts]; exact hfresh)]
      exact withState_eq_update _ _ _ _ hSj_cy
    rw [hreset]
    exact runSeq_forgets m post _ _ _ (by rw [hSj_by]; exact hb) hp2 hc2

theorem rewind_idempotent_witness :
    (([(demoCore, (1745 : Rat))] ++ (demoCore, (1746 : Rat)) ::
      [(demoCoreLater, (1747 : Rat)), (demoCoreLater, (1748 : Rat))]).map
        Prod.snd).Pairwise (fun a b => a < b) ∧
    runSeqCompletes demoLibm ([(demoCore, (1745 : Rat))] ++ (demoCore, (1746 : Rat)) ::
      [(demoCoreLater, (1747 : Rat)), (demoCoreLater, (1748 : Rat))]) demoFc = true ∧
    runSeq demoLibm [(demoCoreLater, (1747 : Rat)), (demoCoreLater, (1748 : Rat))]
      (reset (runSeq demoLibm ([(demoCore, (1745 : Rat))] ++ (demoCore, (1746 : Rat)) ::
        [(demoCoreLater, (1747 : Rat)), (demoCoreLater, (1748 : Rat))]) demoFc) 1746)
      = runSeq demoLibm ([(demoCore, (1745 : Rat))] ++ (demoCore, (1746 : Rat)) ::
        [(demoCoreLater, (1747 : Rat)), (demoCoreLater, (1748 : Rat))]) demoFc ∧
    runSeqCompletes demoLibm [(demoCoreLater, (1747 : Rat)), (demoCoreLater, (1748 : Rat))]
      (reset (runSeq demoLibm ([(demoCore, (1745 : Rat))] ++ (demoCore, (1746 : Rat)) ::
        [(demoCoreLater, (1747 : Rat)), (demoCoreLater, (1748 : Rat))]) demoFc) 1746) = true :=
  ⟨by decide!, by decide!,
    rewind_idempotent demoLibm [(demoCore, 1745)]
      [(demoCoreLater, 1747), (demoCoreLater, 1748)] demoCore 1746 demoFc
      (by decide!) (by decide!) (by decide!) (by decide!)⟩

end ForcingComponent
end Hector

namespace Hector

theorem eraseList_of_lookup_none {κ α : Type} [LinearOrder κ] {k : κ} {l : List (κ × α)}
    (h : lookupList k l = none) : eraseList k l = l := by
  induction l with
  | nil => rfl
  | cons hd tl ih =>
    obtain ⟨k1, v1⟩ := hd
    unfold lookupList at h
    split_ifs at h with h1
    unfold eraseList
    rw [if_neg h1, ih h]

theorem insertList_of_lookup {κ α : Type} [LinearOrder κ] {k : κ} {v : α}
    {l : List (κ × α)} (hl : l.Pairwise (fun a b => a.1 < b.1))
    (h : lookupList k l = some v) : insertList k v l = l := by
  induction l with
  | nil => simp [lookupList] at h
  | cons hd tl ih =>
    obtain ⟨k1, v1⟩ := hd
    rw [List.pairwise_cons] at hl
    unfold lookupList at h
    unfold insertList
    split_ifs at h with h1
    · subst h1
      simp only [Option.some.injEq] at h
      rw [if_neg (lt_irrefl _), if_pos rfl, h]
    · have hlt : k1 < k := hl.1 _ (lookupList_mem h)
      rw [if_neg (not_lt.2 (le_of_lt hlt)), if_neg h1, ih hl.2 h]

theorem StdMap.erase_of_find_none {κ α : Type} [LinearOrder κ] {m : StdMap κ α} {k : κ}
    (h : m.find k = none) : m.erase k = m :=
  StdMap.ext_entries (eraseList_of_lookup_none h)

theorem tvector_set_of_find {α : Type} {tv : tvector α} {t : Rat} {v : α}
    (h : tv.mapdata.find t = some v) : tv.set t v = tv :=
  tvector_ext (insertList_of_lookup tv.mapdata.sorted h)

theorem tvector_get_of_hasDate {α : Type} {tv : tvector α} {t : Rat}
    (h : tv.hasDate t = true) : ∃ v, tv.get t = Except.ok v ∧ (t, v) ∈ tv.mapdata.entries := by
  unfold tvector.hasDate StdMap.contains at h
  cases hf : tv.mapdata.find t with
  | none => rw [hf] at h; simp at h
  | some v =>
    refine ⟨v, ?_, (StdMap.find_eq_some_iff _ _ _).1 hf⟩
    unfold tvector.get
    rw [hf]

namespace SimpleNbox

variable {α : Type}

theorem remove_biome_loop_ok (biome : String) :
    ∀ (dates : List Rat) (ts : tvector (StdMap String α)),
      (remove_biome_loop biome dates ts).1 = Except.ok () := by
  intro dates
  induction dates with
  | nil => intro ts; rfl
  | cons i rest ih =>
    intro ts
    unfold remove_biome_loop
    by_cases hi : ts.hasDate i = true
    · obtain ⟨v, hv, -⟩ := tvector_get_of_hasDate hi
      rw [if_pos hi, hv]
      exact ih _
    · rw [if_neg hi]
      exact ih _

theorem remove_biome_loop_absent (biome : String) :
    ∀ (dates : List Rat) (ts : tvector (StdMap String α)),
      (∀ e ∈ ts.mapdata.entries, e.2.find biome = none) →
      (remove_biome_loop biome dates ts).2 = ts := by
  intro dates
  induction dates with
  | nil => intro ts _; rfl
  | cons i rest ih =>
    intro ts habs
    unfold remove_biome_loop
    by_cases hi : ts.hasDate i = true
    · obtain ⟨v, hv, hmem⟩ := tvector_get_of_hasDate hi
      rw [if_pos hi, hv]
      simp only
      rw [StdMap.erase_of_find_none (habs _ hmem),
        tvector_set_of_find ((StdMap.find_eq_some_iff _ _ _).2 hmem)]
      exact ih ts habs
    · rw [if_neg hi]
      exact ih ts habs

theorem tvector_dates_of_size {α : Type} {tv : tvector α} (h : tv.size ≠ 0) :
    ∃ first last, tv.firstdate = Except.ok first ∧ tv.lastdate = Except.ok last := by
  unfold tvector.size StdMap.size at h
  unfold tvector.firstdate tvector.lastdate
  cases he : tv.mapdata.entries with
  | nil => rw [he] at h; simp at h
  | cons hd tl =>
    have hl : (hd :: tl).getLast? = some ((hd :: tl).getLast (List.cons_ne_nil _ _)) :=
      List.getLast?_eq_getLast _ _
    rw [hl]
    exact ⟨hd.1, _, rfl, rfl⟩

end SimpleNbox
end Hector

namespace Hector
open unit_types
namespace ForcingComponent

theorem init_name_map_find_not_mem : ∀ (as hs : List String) (m : StdMap String String)
    (a : String), a ∉ as → (init_name_map as hs m).find a = m.find a := by
  intro as
  induction as with
  | nil => intro hs m a _; rfl
  | cons x xs ih =>
    intro hs m a ha
    cases hs with
    | nil => rfl
    | cons h hs =>
      unfold init_name_map
      rw [ih hs _ a (fun hm => ha (List.mem_cons_of_mem _ hm))]
      exact StdMap.find_insert_ne _ (fun he => ha (by rw [he]; exact List.mem_cons_self _ _)) _

theorem init_name_map_find : ∀ (as hs : List String) (m : StdMap String String),
    as.Nodup → ∀ p ∈ as.zip hs, (init_name_map as hs m).find p.1 = some p.2 := by
  intro as
  induction as with
  | nil => intro hs m _ p hp; simp at hp
  | cons x xs ih =>
    intro hs m hnd p hp
    cases hs with
    | nil => simp at hp
    | cons h hs =>
      rw [List.nodup_cons] at hnd
      unfold init_name_map
      rw [List.zip_cons_cons] at hp
      rcases List.mem_cons.1 hp with he | hm
      · rw [he]
        simp only
        rw [init_name_map_find_not_mem xs hs _ x hnd.1]
        exact StdMap.find_insert_self _ _ _
      · exact ih hs _ hnd.2 p hm

end ForcingComponent
end Hector

namespace Hector
open unit_types

theorem unitval.value_ok {x : unitval} {u : unit_types} {a : Rat}
    (h : x.value u = Except.ok a) : a = x.val ∧ x.valUnits = u := by
  unfold unitval.value at h
  split_ifs at h with hu
  · simp only [Except.ok.injEq] at h
    exact ⟨h.symm, hu⟩
  · simp [H_THROW] at h

theorem unitval.div_ok {x y : unitval} {r : Rat}
    (h : x.div y = Except.ok r) : r = x.val / y.val ∧ x.valUnits = y.valUnits := by
  unfold unitval.div at h
  split_ifs at h with hu
  · simp only [Except.ok.injEq] at h
    exact ⟨h.symm, hu⟩
  · simp [H_THROW] at h

namespace ForcingComponent

theorem run_CO2_value {m : Libm} {fc : ForcingComponent} {Ca : unitval}
    {forcings out : forcings_t} (h : run_CO2 m fc Ca forcings = Except.ok out) :
    out = forcings.insert D_RF_CO2 ⟨fc.aCO2.val * m.log (Ca.val / fc.C0.val), U_W_M2⟩ := by
  unfold run_CO2 at h
  simp only [bind_eq_ok, pure_eq_ok, Except.ok.injEq] at h
  obtain ⟨a, ha, r, hr, h⟩ := h
  rw [← h, (unitval.value_ok ha).1, (unitval.div_ok hr).1]
  rfl

theorem run_albedo_find {core : Core} {d : Rat}
    {forcings out : forcings_t} (h : run_albedo core d forcings = Except.ok out) (k : String)
    (hk : k ≠ D_RF_T_ALBEDO) : out.find k = forcings.find k := by
  unfold run_albedo at h
  split_ifs at h with hc
  · simp only [bind_eq_ok, pure_eq_ok, Except.ok.injEq] at h
    obtain ⟨v, -, h⟩ := h
    subst h
    exact StdMap.find_insert_ne _ hk _
  · simp only [pure_eq_ok, Except.ok.injEq] at h
    subst h; rfl

theorem run_CH4_N2O_find {m : Libm} {core : Core} {fc : ForcingComponent} {d : Rat}
    {forcings out : forcings_t} (h : run_CH4_N2O m core fc d forcings = Except.ok out)
    (k : String) (h1 : k ≠ D_RF_CH4) (h2 : k ≠ D_RF_N2O) (h3 : k ≠ D_RF_H2O_STRAT) :
    out.find k = forcings.find k := by
  unfold run_CH4_N2O at h
  split_ifs at h with hc
  · simp only [bind_eq_ok, pure_eq_ok, Except.ok.injEq] at h
    obtain ⟨_, -, _, -, _, -, _, -, _, -, _, -, _, -, _, -, _, -, _, -, _, -, h⟩ := h
    subst h
    rw [StdMap.find_insert_ne _ h3, StdMap.find_insert_ne _ h2, StdMap.find_insert_ne _ h1]
  · simp only [pure_eq_ok, Except.ok.injEq] at h
    subst h; rfl

theorem run_CH4_N2O_value {m : Libm} {core : Core} {fc : ForcingComponent} {d : Rat}
    {forcings out : forcings_t}
    (hc : (core.checkCapability D_ATMOSPHERIC_CH4 && core.checkCapability D_ATMOSPHERIC_N2O)
      = true)
    (h : run_CH4_N2O m core fc d forcings = Except.ok out) :
    ∃ Ma M0 Na N0 : unitval,
      core.sendMessage M_GETDATA D_ATMOSPHERIC_CH4 (message_data.ofDate d) = Except.ok Ma ∧
      core.sendMessage M_GETDATA D_PREINDUSTRIAL_CH4 core.noData = Except.ok M0 ∧
      core.sendMessage M_GETDATA D_ATMOSPHERIC_N2O (message_data.ofDate d) = Except.ok Na ∧
      core.sendMessage M_GETDATA D_PREINDUSTRIAL_N2O core.noData = Except.ok N0 ∧
      out.find D_RF_CH4 = some ⟨fc.aCH4.val * (m.sqrt Ma.val - m.sqrt M0.val)
        - (f m Ma.val N0.val - f m M0.val N0.val), U_W_M2⟩ ∧
      out.find D_RF_N2O = some ⟨fc.aN2O.val * (m.sqrt Na.val - m.sqrt N0.val)
        - (f m M0.val Na.val - f m M0.val N0.val), U_W_M2⟩ ∧
      out.find D_RF_H2O_STRAT
        = some ⟨0.05 * (fc.aCH4.val * (m.sqrt Ma.val - m.sqrt M0.val)), U_W_M2⟩ := by
  unfold run_CH4_N2O at h
  rw [if_pos hc] at h
  simp only [bind_eq_ok, pure_eq_ok, Except.ok.injEq] at h
  obtain ⟨Ma, hMa, ma, hma, M0, hM0, m0, hm0, Na, hNa, na, hna, N0, hN0, n0, hn0,
    a1, ha1, a2, ha2, a3, ha3, h⟩ := h
  have e1 : D_RF_CH4 ≠ D_RF_N2O := by decide
  have e2 : D_RF_CH4 ≠ D_RF_H2O_STRAT := by decide
  have e3 : D_RF_N2O ≠ D_RF_H2O_STRAT := by decide
  refine ⟨Ma, M0, Na, N0, hMa, hM0, hNa, hN0, ?_, ?_, ?_⟩
  · rw [← h, StdMap.find_insert_ne _ e2, StdMap.find_insert_ne _ e1, StdMap.find_insert_self,
      (unitval.value_ok hma).1, (unitval.value_ok hm0).1, (unitval.value_ok hn0).1,
      (unitval.value_ok ha1).1]
    rfl
  · rw [← h, StdMap.find_insert_ne _ e3, StdMap.find_insert_self,
      (unitval.value_ok hna).1, (unitval.value_ok hm0).1, (unitval.value_ok hn0).1,
      (unitval.value_ok ha2).1]
    rfl
  · rw [← h, StdMap.find_insert_self,
      (unitval.value_ok hma).1, (unitval.value_ok hm0).1, (unitval.value_ok ha3).1]
    rfl

theorem run_O3_find {core : Core} {fc : ForcingComponent} {d : Rat}
    {forcings out : forcings_t} (h : run_O3 core fc d forcings = Except.ok out) (k : String)
    (hk : k ≠ D_RF_O3_TROP) : out.find k = forcings.find k := by
  unfold run_O3 at h
  split_ifs at h with hc
  · simp only [bind_eq_ok, pure_eq_ok, Except.ok.injEq] at h
    obtain ⟨_, -, _, -, h⟩ := h
    subst h
    exact StdMap.find_insert_ne _ hk _
  · simp only [pure_eq_ok, Except.ok.injEq] at h
    subst h; rfl

theorem run_halos_find {core : Core} {d : Rat} : ∀ (hs : List String)
    {forcings out : forcings_t}, run_halos core d hs forcings = Except.ok out →
    ∀ k : String, k ∉ hs → out.find k = forcings.find k := by
  intro hs
  induction hs with
  | nil =>
    intro forcings out h k _
    simp only [run_halos, pure_eq_ok, Except.ok.injEq] at h
    subst h; rfl
  | cons x xs ih =>
    intro forcings out h k hk
    have hkx : k ≠ x := fun he => hk (by rw [he]; exact List.mem_cons_self _ _)
    have hkxs : k ∉ xs := fun hm => hk (List.mem_cons_of_mem _ hm)
    unfold run_halos at h
    split_ifs at h with hc
    · simp only [bind_eq_ok] at h
      obtain ⟨v, -, h⟩ := h
      rw [ih h k hkxs]
      exact StdMap.find_insert_ne _ hkx _
    · exact ih h k hkxs

theorem run_BC_find {core : Core} {d : Rat}
    {forcings out : forcings_t} (h : run_BC core d forcings = Except.ok out) (k : String)
    (hk : k ≠ D_RF_BC) : out.find k = forcings.find k := by
  unfold run_BC at h
  split_ifs at h with hc
  · simp only [bind_eq_ok, pure_eq_ok, Except.ok.injEq] at h
    obtain ⟨_, -, _, -, h⟩ := h
    subst h
    exact StdMap.find_insert_ne _ hk _
  · simp only [pure_eq_ok, Except.ok.injEq] at h
    subst h; rfl

theorem run_OC_find {core : Core} {d : Rat}
    {forcings out : forcings_t} (h : run_OC core d forcings = Except.ok out) (k : String)
    (hk : k ≠ D_RF_OC) : out.find k = forcings.find k := by
  unfold run_OC at h
  split_ifs at h with hc
  · simp only [bind_eq_ok, pure_eq_ok, Except.ok.injEq] at h
    obtain ⟨_, -, _, -, h⟩ := h
    subst h
    exact StdMap.find_insert_ne _ hk _
  · simp only [pure_eq_ok, Except.ok.injEq] at h
    subst h; rfl

theorem run_SO2_find {m : Libm} {core : Core} {fc : ForcingComponent} {d : Rat}
    {forcings out : forcings_t} (h : run_SO2 m core fc d forcings = Except.ok out)
    (k : String) (h1 : k ≠ D_RF_SO2d) (h2 : k ≠ D_RF_SO2i) :
    out.find k = forcings.find k := by
  unfold run_SO2 at h
  split_ifs at h with hc
  · simp only [bind_eq_ok, pure_eq_ok, Except.ok.injEq] at h
    obtain ⟨_, -, _, -, _, -, _, -, _, -, _, -, _, -, _, -, _, -, _, -, h⟩ := h
    subst h
    rw [StdMap.find_insert_ne _ h2, StdMap.find_insert_ne _ h1]
  · simp only [pure_eq_ok, Except.ok.injEq] at h
    subst h; rfl

theorem run_vol_find {core : Core} {d : Rat}
    {forcings out : forcings_t} (h : run_vol core d forcings = Except.ok out) (k : String)
    (hk : k ≠ D_RF_VOL) : out.find k = forcings.find k := by
  unfold run_vol at h
  split_ifs at h with hc
  · simp only [bind_eq_ok, pure_eq_ok, Except.ok.injEq] at h
    obtain ⟨_, -, h⟩ := h
    subst h
    exact StdMap.find_insert_ne _ hk _
  · simp only [pure_eq_ok, Except.ok.injEq] at h
    subst h; rfl

/-- The blocks of `run` after the CH4 and N2O block leave every entry alone that
is not one of theirs. -/
theorem run_tail_find {m : Libm} {core : Core} {fc : ForcingComponent} {d : Rat}
    {f3 f4 f5 f6 f7 f8 out : forcings_t}
    (h4 : run_O3 core fc d f3 = Except.ok f4)
    (h5 : run_halos core d halos f4 = Except.ok f5)
    (h6 : run_BC core d f5 = Except.ok f6)
    (h7 : run_OC core d f6 = Except.ok f7)
    (h8 : run_SO2 m core fc d f7 = Except.ok f8)
    (h9 : run_vol core d f8 = Except.ok out)
    (k : String)
    (hk : k ∉ [D_RF_O3_TROP, D_RF_BC, D_RF_OC, D_RF_SO2d, D_RF_SO2i, D_RF_VOL] ++ halos) :
    out.find k = f3.find k := by
  simp only [List.mem_append, List.mem_cons, List.mem_singleton, List.not_mem_nil, or_false,
    not_or] at hk
  obtain ⟨⟨k1, k2, k3, k4, k5, k6⟩, kh⟩ := hk
  rw [run_vol_find h9 k k6, run_SO2_find h8 k k4 k5, run_OC_find h7 k k3, run_BC_find h6 k k2,
    run_halos_find _ h5 k kh, run_O3_find h4 k k1]

theorem run_agents_CO2 {m : Libm} {core : Core} {fc : ForcingComponent} {d : Rat}
    {Ca : unitval} {out : forcings_t} (h : run_agents m core fc d Ca = Except.ok out) :
    out.find D_RF_CO2 = some ⟨fc.aCO2.val * m.log (Ca.val / fc.C0.val), U_W_M2⟩ := by
  unfold run_agents at h
  simp only [bind_eq_ok] at h
  obtain ⟨f1, h1, f2, h2, f3, h3, f4, h4, f5, h5, f6, h6, f7, h7, f8, h8, h9⟩ := h
  rw [run_tail_find h4 h5 h6 h7 h8 h9 D_RF_CO2 (by decide),
    run_CH4_N2O_find h3 D_RF_CO2 (by decide) (by decide) (by decide),
    run_albedo_find h2 D_RF_CO2 (by decide), run_CO2_value h1]
  exact StdMap.find_insert_self _ _ _

theorem run_agents_CH4 {m : Libm} {core : Core} {fc : ForcingComponent} {d : Rat}
    {Ca : unitval} {out : forcings_t}
    (hc : (core.checkCapability D_ATMOSPHERIC_CH4 && core.checkCapability D_ATMOSPHERIC_N2O)
      = true)
    (h : run_agents m core fc d Ca = Except.ok out) :
    ∃ Ma M0 Na N0 : unitval,
      core.sendMessage M_GETDATA D_ATMOSPHERIC_CH4 (message_data.ofDate d) = Except.ok Ma ∧
      core.sendMessage M_GETDATA D_PREINDUSTRIAL_CH4 core.noData = Except.ok M0 ∧
      core.sendMessage M_GETDATA D_ATMOSPHERIC_N2O (message_data.ofDate d) = Except.ok Na ∧
      core.sendMessage M_GETDATA D_PREINDUSTRIAL_N2O core.noData = Except.ok N0 ∧
      out.find D_RF_CH4 = some ⟨fc.aCH4.val * (m.sqrt Ma.val - m.sqrt M0.val)
        - (f m Ma.val N0.val - f m M0.val N0.val), U_W_M2⟩ ∧
      out.find D_RF_N2O = some ⟨fc.aN2O.val * (m.sqrt Na.val - m.sqrt N0.val)
        - (f m M0.val Na.val - f m M0.val N0.val), U_W_M2⟩ ∧
      out.find D_RF_H2O_STRAT
        = some ⟨0.05 * (fc.aCH4.val * (m.sqrt Ma.val - m.sqrt M0.val)), U_W_M2⟩ := by
  unfold run_agents at h
  simp only [bind_eq_ok] at h
  obtain ⟨f1, h1, f2, h2, f3, h3, f4, h4, f5, h5, f6, h6, f7, h7, f8, h8, h9⟩ := h
  obtain ⟨Ma, M0, Na, N0, hMa, hM0, hNa, hN0, v1, v2, v3⟩ := run_CH4_N2O_value hc h3
  refine ⟨Ma, M0, Na, N0, hMa, hM0, hNa, hN0, ?_, ?_, ?_⟩
  · rw [run_tail_find h4 h5 h6 h7 h8 h9 D_RF_CH4 (by decide), v1]
  · rw [run_tail_find h4 h5 h6 h7 h8 h9 D_RF_N2O (by decide), v2]
  · rw [run_tail_find h4 h5 h6 h7 h8 h9 D_RF_H2O_STRAT (by decide), v3]

/-- The total is stored under a name of its own: the entries of the agents are
those of the map of absolute forcings. -/
theorem run_absolute_find {m : Libm} {core : Core} {fc : ForcingComponent} {d : Rat}
    {Ca : unitval} {absolute : forcings_t}
    (h : run_absolute m core fc d Ca = Except.ok absolute) :
    ∃ forcings, run_agents m core fc d Ca = Except.ok forcings ∧
      ∀ k, k ≠ D_RF_TOTAL → absolute.find k = forcings.find k := by
  obtain ⟨forcings, Ftot, tot, h1, -, -, h4⟩ := run_absolute_ok h
  refine ⟨forcings, h1, fun k hk => ?_⟩
  rw [h4]
  exact StdMap.find_insert_ne _ hk _

end ForcingComponent
end Hector

namespace Hector
open unit_types
namespace ForcingComponent

theorem run_C0_at_baseyear {m : Libm} {core : Core} {fc : ForcingComponent} {Ca : unitval}
    (hCa : core.sendMessage M_GETDATA D_ATMOSPHERIC_CO2 core.noData = Except.ok Ca) :
    (run m core fc fc.baseyear).2.C0 = Ca := by
  unfold run
  simp only [lt_irrefl, if_false, if_true, hCa]
  cases run_absolute m core { fc with currentYear := fc.baseyear, C0 := Ca } fc.baseyear Ca with
  | error e => rfl
  | ok absolute =>
    simp only
    cases hr : run_relative absolute.entries absolute with
    | mk res base1 =>
      cases res with
      | error e => rfl
      | ok rel => rfl

theorem atStep_aCO2 (fc : ForcingComponent) (d : Rat) (Ca : unitval) :
    (atStep fc d Ca).aCO2 = fc.aCO2 := by
  unfold atStep; split_ifs <;> rfl

theorem atStep_aCH4 (fc : ForcingComponent) (d : Rat) (Ca : unitval) :
    (atStep fc d Ca).aCH4 = fc.aCH4 := by
  unfold atStep; split_ifs <;> rfl

theorem atStep_C0_of_ne (fc : ForcingComponent) (d : Rat) (Ca : unitval)
    (h : d ≠ fc.baseyear) : (atStep fc d Ca).C0 = fc.C0 := by
  unfold atStep; rw [if_neg h]

theorem atStep_C0_at_baseyear (fc : ForcingComponent) (Ca : unitval) :
    (atStep fc fc.baseyear Ca).C0 = Ca := by
  unfold atStep; rw [if_pos rfl]

theorem runSeq_aCO2 (m : Libm) (steps : List (Core × Rat)) (fc : ForcingComponent) :
    (runSeq m steps fc).aCO2 = fc.aCO2 ∧ (runSeq m steps fc).baseyear = fc.baseyear := by
  rw [runSeq_state_eq]
  exact ⟨rfl, rfl⟩

theorem run_aCO2 (m : Libm) (core : Core) (fc : ForcingComponent) (d : Rat) :
    (run m core fc d).2.aCO2 = fc.aCO2 := by
  rw [run_state_eq]; rfl

/-- The absolute CO2 forcing of a step. -/
theorem run_absolute_CO2 {m : Libm} {core : Core} {fc : ForcingComponent} {d : Rat}
    {Ca : unitval} {absolute : forcings_t}
    (h : run_absolute m core fc d Ca = Except.ok absolute) :
    absolute.find D_RF_CO2 = some ⟨fc.aCO2.val * m.log (Ca.val / fc.C0.val), U_W_M2⟩ := by
  obtain ⟨forcings, hag, hfind⟩ := run_absolute_find h
  rw [hfind D_RF_CO2 (by decide)]
  exact run_agents_CO2 hag

end ForcingComponent
end Hector

namespace Hector
open unit_types
namespace ForcingComponent

/-- Every forcing a step of `run` records, the total apart, is in W/m2: the
loop that sums the agents throws on any other unit. -/
theorem run_recorded_units {m : Libm} {core : Core} {fc : ForcingComponent} {d : Rat}
    (hd : ¬ d < fc.baseyear) (h : (run m core fc d).1 = Except.ok ()) :
    ∃ recorded, (run m core fc d).2.forcings_ts.get d = Except.ok recorded ∧
      ∀ e ∈ recorded.entries, e.1 ≠ D_RF_TOTAL → e.2.valUnits = U_W_M2 := by
  obtain ⟨Ca, absolute, recorded, -, habs, hts, hent, -⟩ := run_ok hd h
  refine ⟨recorded, by rw [hts]; exact tvector_get_set _ _ _, fun e he hne => ?_⟩
  rw [hent] at he
  obtain ⟨it, hit, rfl⟩ := List.mem_map.1 he
  obtain ⟨forcings, Ftot, tot, -, h2, -, h4⟩ := run_absolute_ok habs
  obtain ⟨-, hu⟩ := run_Ftot_ok _ _ _ h2
  rw [h4] at hit
  rcases mem_insertList hit with hit | hit
  · rw [hit] at hne
    exact absurd rfl hne
  · exact hu it hit

end ForcingComponent
end Hector

namespace Hector
namespace SimpleNbox

variable {α : Type}

/-- C21: on every non-empty time series `remove_biome_from_ts` returns normally
for any biome name, and when the biome is a key of no recorded mapping the
series after the call is the series before it. -/
theorem remove_biome_from_ts_noop_safe (ts : tvector (StdMap String α)) (biome : String)
    (hne : ts.size ≠ 0) :
    (remove_biome_from_ts ts biome).1 = Except.ok () ∧
    ((∀ e ∈ ts.mapdata.entries, e.2.contains biome = false) →
      (remove_biome_from_ts ts biome).2 = ts) := by
  obtain ⟨first, last, hf, hl⟩ := tvector_dates_of_size hne
  unfold remove_biome_from_ts
  rw [hf, hl]
  refine ⟨remove_biome_loop_ok biome _ ts, fun habs => ?_⟩
  refine remove_biome_loop_absent biome _ ts (fun e he => ?_)
  have := habs e he
  unfold StdMap.contains at this
  cases hfind : e.2.find biome with
  | none => rfl
  | some v => rw [hfind] at this; simp at this

theorem remove_biome_from_ts_noop_safe_witness :
    demoBiomeTs.size ≠ 0 ∧
    (remove_biome_from_ts demoBiomeTs "global").1 = Except.ok () ∧
    (remove_biome_from_ts demoBiomeTs "boreal").1 = Except.ok () ∧
    (remove_biome_from_ts demoBiomeTs "boreal").2 = demoBiomeTs :=
  ⟨by decide!,
    (remove_biome_from_ts_noop_safe demoBiomeTs "global" (by decide!)).1,
    (remove_biome_from_ts_noop_safe demoBiomeTs "boreal" (by decide!)).1,
    (remove_biome_from_ts_noop_safe demoBiomeTs "boreal" (by decide!)).2 (by decide!)⟩

end SimpleNbox
end Hector

namespace Hector
open unit_types
namespace ForcingComponent

/-- C22: the logarithm of the C library is taken with two properties of the
natural logarithm, `log 1 = 0` and `log x > 0` for `x > 1`.  After the step at
the base year, which records the concentration it fetches as `C0`, and any
later steps, a step at a later date that fetches the concentration `Ca` records
as CO2 forcing `aCO2 * log(Ca/C0)` minus its base-year value
`aCO2 * log(C0/C0)`; with `aCO2 > 0` and `C0 > 0` it is strictly positive when
`Ca > C0`, and it is 0 when `Ca = C0`. -/
theorem run_CO2_forcing_sign (m : Libm) (hlog1 : m.log 1 = 0)
    (hlogpos : ∀ x : Rat, 1 < x → 0 < m.log x)
    (core0 core : Core) (fc0 fcN : ForcingComponent) (steps : List (Core × Rat)) (d : Rat)
    (Ca : unitval)
    (h0 : (run m core0 fc0 fc0.baseyear).1 = Except.ok ())
    (hsteps : ∀ s ∈ steps, fc0.baseyear < s.2)
    (hc : runSeqCompletes m steps (run m core0 fc0 fc0.baseyear).2 = true)
    (hN : fcN = runSeq m steps (run m core0 fc0 fc0.baseyear).2)
    (hd : fc0.baseyear < d)
    (hCa : core.sendMessage M_GETDATA D_ATMOSPHERIC_CO2 core.noData = Except.ok Ca)
    (h1 : (run m core fcN d).1 = Except.ok ())
    (hC0 : 0 < fcN.C0.val) (ha : 0 < fcN.aCO2.val) :
    core0.sendMessage M_GETDATA D_ATMOSPHERIC_CO2 core0.noData = Except.ok fcN.C0 ∧
    ∃ recorded v, (run m core fcN d).2.forcings_ts.get d = Except.ok recorded ∧
      recorded.find D_RF_CO2 = some v ∧
      v.val = fcN.aCO2.val * m.log (Ca.val / fcN.C0.val)
        - fcN.aCO2.val * m.log (fcN.C0.val / fcN.C0.val) ∧
      (fcN.C0.val < Ca.val → 0 < v.val) ∧
      (Ca.val = fcN.C0.val → v.val = 0) := by
  have hirr : ¬ fc0.baseyear < fc0.baseyear := lt_irrefl _
  obtain ⟨Ca0, abs0, rec0, hCa0, habs0, -, -, -, -, hsnap, -⟩ := run_ok hirr h0
  have hbl0 : baselineAt fc0 fc0.baseyear abs0 = abs0 := by
    unfold baselineAt; rw [if_pos rfl]
  rw [hbl0] at hsnap
  have hsnapB : (run m core0 fc0 fc0.baseyear).2.baseyear_forcings = abs0 := by
    refine hsnap (fun it hit => ?_)
    unfold StdMap.contains
    rw [(StdMap.find_eq_some_iff abs0 it.1 it.2).2 hit]
    rfl
  have hC0B : (run m core0 fc0 fc0.baseyear).2.C0 = Ca0 := run_C0_at_baseyear hCa0
  obtain ⟨hbfN, hC0N⟩ := runSeq_stable m steps (run m core0 fc0 fc0.baseyear).2
    (by rw [run_baseyear_eq]; exact hsteps) (run_snapshot_has_total hirr h0) hc
  rw [← hN] at hbfN hC0N
  rw [hsnapB] at hbfN
  rw [hC0B] at hC0N
  obtain ⟨haN, hbyN⟩ := runSeq_aCO2 m steps (run m core0 fc0 fc0.baseyear).2
  rw [← hN, run_aCO2] at haN
  rw [← hN, run_baseyear_eq] at hbyN
  have hv0 := run_absolute_CO2 habs0
  rw [atStep_aCO2, atStep_C0_at_baseyear, ← haN, ← hC0N] at hv0
  have hdN : ¬ d < fcN.baseyear := by rw [hbyN]; exact not_lt.2 (le_of_lt hd)
  have hne : d ≠ fcN.baseyear := by rw [hbyN]; exact ne_of_gt hd
  obtain ⟨Ca1, abs1, rec1, hCa1, habs1, hts, hent, -, -, -, -⟩ := run_ok hdN h1
  rw [hCa] at hCa1
  have hCaeq : Ca1 = Ca := (Except.ok.inj hCa1).symm
  subst hCaeq
  have hbl1 : baselineAt fcN d abs1 = abs0 := by
    unfold baselineAt; rw [if_neg hne, hbfN]
  rw [hbl1] at hent
  have hv1 := run_absolute_CO2 habs1
  rw [atStep_aCO2, atStep_C0_of_ne _ _ _ hne] at hv1
  have hrec := find_of_entries_map hent D_RF_CO2
  rw [hv1] at hrec
  simp only [Option.map_some'] at hrec
  refine ⟨by rw [hC0N]; exact hCa0, rec1, _, by rw [hts]; exact tvector_get_set _ _ _, hrec,
    ?_, ?_, ?_⟩
  · unfold rebaseEntry
    rw [baselineOf_of_find hv0]
  · intro hlt
    unfold rebaseEntry
    rw [baselineOf_of_find hv0]
    simp only
    rw [div_self (ne_of_gt hC0), hlog1, mul_zero, sub_zero]
    exact mul_pos ha (hlogpos _ ((one_lt_div hC0).2 hlt))
  · intro heq
    unfold rebaseEntry
    rw [baselineOf_of_find hv0]
    simp only
    rw [heq, sub_self]

theorem run_CO2_forcing_sign_witness :
    demoLibm.log 1 = 0 ∧ (∀ x : Rat, 1 < x → 0 < demoLibm.log x) ∧
    demoFc.baseyear < 1747 ∧
    (0 < demoFcBase.C0.val ∧ 0 < demoFcBase.aCO2.val ∧ demoFcBase.C0.val < 290) ∧
    ∃ recorded v, (run demoLibm demoCoreLater demoFcBase 1747).2.forcings_ts.get 1747
        = Except.ok recorded ∧
      recorded.find D_RF_CO2 = some v ∧ 0 < v.val :=
  ⟨by decide!, fun x hx => sub_pos.2 hx, by decide!, by decide!,
    (run_CO2_forcing_sign demoLibm (by decide!) (fun x hx => sub_pos.2 hx)
      demoCore demoCoreLater demoFc demoFcBase [] 1747 ⟨290, U_PPMV_CO2⟩
      (by decide!) (by decide) (by decide) (by decide!) (by decide!) (by decide!) (by decide!)
      (by decide!) (by decide!)).2.elim
      (fun recorded hr => hr.elim
        (fun v hv => ⟨recorded, v, hv.1, hv.2.1, hv.2.2.2.1 (by decide!)⟩))⟩

/-- C28 fails when the band-overlap terms differ: with 1800 ppbv CH4 over a
preindustrial 700 and 270 ppbv preindustrial N2O, the step computes the
absolute CH4 forcing 147176956587771/4000000000000 and the stratospheric H2O
forcing 99/50, which is not 5% of it. -/
theorem run_H2O_not_five_percent_of_CH4 :
    (demoCoreCH4.checkCapability D_ATMOSPHERIC_CH4
      && demoCoreCH4.checkCapability D_ATMOSPHERIC_N2O) = true ∧
    (run_absolute demoLibm demoCoreCH4 (atStep demoFcCH4 1746 ⟨280, U_PPMV_CO2⟩) 1746
        ⟨280, U_PPMV_CO2⟩).map
      (fun a => ((a.find D_RF_CH4).map unitval.val, (a.find D_RF_H2O_STRAT).map unitval.val))
      = Except.ok (some (147176956587771 / 4000000000000), some (99 / 50)) ∧
    (99 / 50 : Rat) ≠ 0.05 * (147176956587771 / 4000000000000) := by
  decide!

/-- C28 as the code has it: when CH4 and N2O are both available, the absolute
stratospheric H2O forcing of a step is 5% of the CH4 term before the
band-overlap correction, `aCH4 * (sqrt(Ma) - sqrt(M0))`, that is 5% of the sum
of the absolute CH4 forcing of the step and `f(Ma,N0) - f(M0,N0)`; it is 5% of
the absolute CH4 forcing exactly when `f(Ma,N0) = f(M0,N0)`. -/
theorem run_H2O_five_percent_of_CH4_term (m : Libm) (core : Core) (fc : ForcingComponent)
    (d : Rat) (hd : ¬ d < fc.baseyear)
    (hcap : (core.checkCapability D_ATMOSPHERIC_CH4
      && core.checkCapability D_ATMOSPHERIC_N2O) = true)
    (h : (run m core fc d).1 = Except.ok ()) :
    ∃ (Ca Ma M0 N0 : unitval) (absolute : forcings_t) (ch4 h2o : unitval),
      core.sendMessage M_GETDATA D_ATMOSPHERIC_CO2 core.noData = Except.ok Ca ∧
      core.sendMessage M_GETDATA D_ATMOSPHERIC_CH4 (message_data.ofDate d) = Except.ok Ma ∧
      core.sendMessage M_GETDATA D_PREINDUSTRIAL_CH4 core.noData = Except.ok M0 ∧
      core.sendMessage M_GETDATA D_PREINDUSTRIAL_N2O core.noData = Except.ok N0 ∧
      run_absolute m core (atStep fc d Ca) d Ca = Except.ok absolute ∧
      absolute.find D_RF_CH4 = some ch4 ∧
      absolute.find D_RF_H2O_STRAT = some h2o ∧
      h2o.val = 0.05 * (fc.aCH4.val * (m.sqrt Ma.val - m.sqrt M0.val)) ∧
      h2o.val = 0.05 * (ch4.val + (f m Ma.val N0.val - f m M0.val N0.val)) ∧
      (h2o.val = 0.05 * ch4.val ↔ f m Ma.val N0.val = f m M0.val N0.val) := by
  obtain ⟨Ca, absolute, -, hCa, habs, -⟩ := run_ok hd h
  obtain ⟨forcings, hag, hfind⟩ := run_absolute_find habs
  obtain ⟨Ma, M0, Na, N0, hMa, hM0, -, hN0, v1, -, v3⟩ := run_agents_CH4 hcap hag
  rw [atStep_aCH4] at v1 v3
  refine ⟨Ca, Ma, M0, N0, absolute, _, _, hCa, hMa, hM0, hN0, habs,
    by rw [hfind D_RF_CH4 (by decide)]; exact v1,
    by rw [hfind D_RF_H2O_STRAT (by decide)]; exact v3, rfl, ?_, ?_⟩
  · simp only
    ring
  · simp only
    have h5 : (0.05 : Rat) ≠ 0 := by norm_num
    constructor
    · intro he
      have : (0.05 : Rat) * (f m Ma.val N0.val - f m M0.val N0.val) = 0 := by linarith
      rcases mul_eq_zero.1 this with h6 | h6
      · exact absurd h6 h5
      · linarith
    · intro he
      rw [he]
      ring

theorem run_H2O_five_percent_of_CH4_term_witness :
    ¬ (1746 : Rat) < demoFcCH4.baseyear ∧
    (demoCoreCH4.checkCapability D_ATMOSPHERIC_CH4
      && demoCoreCH4.checkCapability D_ATMOSPHERIC_N2O) = true ∧
    (run demoLibm demoCoreCH4 demoFcCH4 1746).1 = Except.ok () ∧
    ∃ (Ca Ma M0 N0 : unitval) (absolute : forcings_t) (ch4 h2o : unitval),
      demoCoreCH4.sendMessage M_GETDATA D_ATMOSPHERIC_CO2 demoCoreCH4.noData = Except.ok Ca ∧
      demoCoreCH4.sendMessage M_GETDATA D_ATMOSPHERIC_CH4 (message_data.ofDate 1746)
        = Except.ok Ma ∧
      demoCoreCH4.sendMessage M_GETDATA D_PREINDUSTRIAL_CH4 demoCoreCH4.noData = Except.ok M0 ∧
      demoCoreCH4.sendMessage M_GETDATA D_PREINDUSTRIAL_N2O demoCoreCH4.noData = Except.ok N0 ∧
      run_absolute demoLibm demoCoreCH4 (atStep demoFcCH4 1746 Ca) 1746 Ca
        = Except.ok absolute ∧
      absolute.find D_RF_CH4 = some ch4 ∧
      absolute.find D_RF_H2O_STRAT = some h2o ∧
      h2o.val = 0.05 * (demoFcCH4.aCH4.val * (demoLibm.sqrt Ma.val - demoLibm.sqrt M0.val)) ∧
      h2o.val = 0.05 * (ch4.val + (f demoLibm Ma.val N0.val - f demoLibm M0.val N0.val)) ∧
      (h2o.val = 0.05 * ch4.val ↔ f demoLibm Ma.val N0.val = f demoLibm M0.val N0.val) :=
  ⟨by decide!, by decide!, by decide!,
    run_H2O_five_percent_of_CH4_term demoLibm demoCoreCH4 demoFcCH4 1746
      (by decide!) (by decide!) (by decide!)⟩

end ForcingComponent
end Hector

namespace Hector
open unit_types
namespace ForcingComponent

/-- C23 does not hold for a base year equal to the model start date: with the
start date 1745 of `demoCore` and the base year 1745, which is greater than or
equal to the start date, `prepareToRun` fails, and the error is the message of
its own assertion, that the base year must be >= the model start date. -/
theorem prepareToRun_rejects_start_date :
    ({ demoFc with baseyear := 1745 } : ForcingComponent).baseyear ≥ demoCore.getStartDate ∧
    (prepareToRun demoCore { demoFc with baseyear := 1745 }).1
      = Except.error ["Base year must be >= model start date"] := by
  decide!

/-- C24 fails for a call that throws: `demoFcEarly` holds the baseline snapshot
of the step at 1746 and the base year 1700, which is not zero and lies before
the start date 1745; `prepareToRun` throws, and after the call the snapshot is
what it was, not empty. -/
theorem prepareToRun_failure_keeps_snapshot :
    demoFcEarly.baseyear = 1700 ∧
    (prepareToRun demoCore demoFcEarly).1
      = Except.error ["Base year must be >= model start date"] ∧
    (prepareToRun demoCore demoFcEarly).2.baseyear = 1700 ∧
    (prepareToRun demoCore demoFcEarly).2.baseyear_forcings ≠ StdMap.empty := by
  decide!

/-- C24 for calls that return: when the stored base year is 0.0, `prepareToRun`
sets it to the model start date plus 1 and returns normally; a non-zero base
year is left as supplied; in both cases the baseline snapshot is empty after a
call that returns normally, which changes nothing else, and a call that throws
leaves the object, its snapshot included, as it was. -/
theorem prepareToRun_default_baseyear (core : Core) (fc : ForcingComponent) :
    (fc.baseyear = 0 →
      (prepareToRun core fc).1 = Except.ok () ∧
      (prepareToRun core fc).2.baseyear = core.getStartDate + 1) ∧
    (fc.baseyear ≠ 0 → (prepareToRun core fc).2.baseyear = fc.baseyear) ∧
    ((prepareToRun core fc).1 = Except.ok () →
      (prepareToRun core fc).2.baseyear_forcings = StdMap.empty ∧
      (prepareToRun core fc).2
        = { fc with
            baseyear := (prepareToRun core fc).2.baseyear
            baseyear_forcings := StdMap.empty }) ∧
    ((prepareToRun core fc).1 ≠ Except.ok () → (prepareToRun core fc).2 = fc) := by
  unfold prepareToRun H_ASSERT
  by_cases h0 : fc.baseyear = 0
  · have hlt : core.getStartDate + 1 > core.getStartDate := lt_add_one _
    simp [h0, hlt]
  · simp only [if_neg h0]
    by_cases hgt : fc.baseyear > core.getStartDate
    · simp [h0, hgt]
    · simp [h0, hgt]

/-- C26: `sendMessage` dispatches on the verb.  A GET returns exactly what
`getData` returns for the name and the date of the message; a SET performs
`setData`, leaving the object as `setData` leaves it, and returns the default
value when `setData` returns and its error when it throws; every other verb
fails with an error that carries the verb and leaves the object unchanged. -/
theorem sendMessage_dispatch (core : Core) (fc : ForcingComponent) (message datum : String)
    (info : message_data) :
    (message = M_GETDATA →
      sendMessage core fc message datum info = getData core fc datum info.date) ∧
    (message = M_SETDATA →
      (sendMessage core fc message datum info).2 = (setData core fc datum info).2 ∧
      ((setData core fc datum info).1 = Except.ok () →
        (sendMessage core fc message datum info).1 = Except.ok (default : unitval)) ∧
      (∀ e, (setData core fc datum info).1 = Except.error e →
        (sendMessage core fc message datum info).1 = Except.error e)) ∧
    (message ≠ M_GETDATA → message ≠ M_SETDATA →
      sendMessage core fc message datum info
        = (Except.error ["Caller sent unknown message: " ++ message], fc)) := by
  refine ⟨fun h => ?_, fun h => ?_, fun h1 h2 => ?_⟩
  · unfold sendMessage
    rw [if_pos h]
  · have hne : message ≠ M_GETDATA := by rw [h]; decide
    unfold sendMessage
    rw [if_neg hne, if_pos h]
    cases hs : setData core fc datum info with
    | mk r fc1 =>
      cases r with
      | error e => simp
      | ok u => simp
  · unfold sendMessage
    rw [if_neg h1, if_neg h2]
    rfl

/-- C27: `accept` enters the handler of the visitor for `ForcingComponent`, with
the component itself and nothing else: the result of `accept` is the result of
that handler, and a journal kept by the handlers of any visitor gains exactly
one entry, for `ForcingComponent` with the component.  For a visitor that
overrides no handler, every `visit` and `reset` leave visitor and object
unchanged, and so does `accept`. -/
theorem accept_double_dispatch {V : Type} (visitor : AVisitor V) (v : V)
    (fc : ForcingComponent) (journal : List (Σ c : Visitable, c.object))
    (shouldVisit : V → Bool → Rat → Bool) :
    accept visitor v fc = visitor.visit Visitable.ForcingComponent v fc ∧
    accept visitor.journaled (v, journal) fc
      = (((visitor.visit Visitable.ForcingComponent v fc).1,
          journal ++ [⟨Visitable.ForcingComponent, fc⟩]),
         (visitor.visit Visitable.ForcingComponent v fc).2) ∧
    (∀ (c : Visitable) (x : c.object), (AVisitor.inherited shouldVisit).visit c v x = (v, x)) ∧
    (∀ date : Rat, (AVisitor.inherited shouldVisit).reset v date = v) ∧
    accept (AVisitor.inherited shouldVisit) v fc = (v, fc) :=
  ⟨rfl, rfl, fun _ _ => rfl, fun _ => rfl, rfl⟩

/-- C30: at a query date at or after the base year for which the history holds a
record, a GET for the SO2 total returns the sum of the direct and the indirect
SO2 forcing of the record when both are present (the unit-checked sum, which is
their sum in value when they carry the same unit, as the entries `run` stores
do), the one that is present when only one is, and 0 W/m2 when neither is; the
object is unchanged. -/
theorem getData_SO2_total (core : Core) (fc : ForcingComponent) (date : Rat)
    (forcings : forcings_t)
    (hdate : ¬ (if date = core.undefinedIndex then fc.currentYear else date) < fc.baseyear)
    (hhist : fc.forcings_ts.get (if date = core.undefinedIndex then fc.currentYear else date)
      = Except.ok forcings) :
    (∀ d i, forcings.find D_RF_SO2d = some d → forcings.find D_RF_SO2i = some i →
      getData core fc D_RF_SO2 date = (d.add i, fc) ∧
      (d.valUnits = i.valUnits →
        getData core fc D_RF_SO2 date = (Except.ok ⟨d.val + i.val, d.valUnits⟩, fc))) ∧
    (∀ d, forcings.find D_RF_SO2d = some d → forcings.find D_RF_SO2i = none →
      getData core fc D_RF_SO2 date = (Except.ok d, fc)) ∧
    (∀ i, forcings.find D_RF_SO2d = none → forcings.find D_RF_SO2i = some i →
      getData core fc D_RF_SO2 date = (Except.ok i, fc)) ∧
    (forcings.find D_RF_SO2d = none → forcings.find D_RF_SO2i = none →
      getData core fc D_RF_SO2 date = (Except.ok ⟨0, U_W_M2⟩, fc)) := by
  have hne : D_RF_SO2 ≠ D_RF_BASEYEAR := by decide
  unfold getData
  simp only [if_neg hdate, hhist, if_neg hne, if_true]
  refine ⟨fun d i hd hi => ?_, fun d hd hi => ?_, fun i hd hi => ?_, fun hd hi => ?_⟩
  · rw [hd, hi]
    refine ⟨rfl, fun hu => ?_⟩
    simp only [unitval.add, if_pos hu]
  · rw [hd, hi]
  · rw [hd, hi]
  · rw [hd, hi]
    rfl

theorem getData_SO2_total_witness :
    ¬ (if (1746 : Rat) = demoCore.undefinedIndex then demoFcSulfur.currentYear else 1746)
      < demoFcSulfur.baseyear ∧
    getData demoCore demoFcSulfur D_RF_SO2 1746
      = (Except.ok ⟨-3 / 10 + -5 / 10, U_W_M2⟩, demoFcSulfur) :=
  ⟨by decide!,
    ((getData_SO2_total demoCore demoFcSulfur 1746
      ((demoFcSulfur.forcings_ts.mapdata.find 1746).getD StdMap.empty)
      (by decide!) (by decide!)).1 ⟨-3 / 10, U_W_M2⟩ ⟨-5 / 10, U_W_M2⟩
      (by decide!) (by decide!)).2 (by decide)⟩

end ForcingComponent

namespace SimpleNbox

/-- C25: the mass-balance check after a step.  It returns normally exactly when
atmosphere + land total + ocean total + earth equals the running total of the
previous step plus the net external fluxes within `MB_EPSILON`, which is
0.001 Pg C, and the total then becomes the running total with the pools
untouched; a violation throws and leaves the state as it is. -/
theorem sanitychecks_mass_balance (s : SimpleNbox) (net_external : Rat) :
    MB_EPSILON = 1 / 1000 ∧
    total_c s = s.atmos_c + land_total s + s.ocean_c + s.earth_c ∧
    ((sanitychecks s net_external).1 = Except.ok () ↔
      |total_c s - (s.masstot + net_external)| ≤ MB_EPSILON) ∧
    ((sanitychecks s net_external).1 = Except.ok () →
      (sanitychecks s net_external).2 = { s with masstot := total_c s } ∧
      |total_c (sanitychecks s net_external).2 - (s.masstot + net_external)| ≤ MB_EPSILON) ∧
    (¬ |total_c s - (s.masstot + net_external)| ≤ MB_EPSILON →
      sanitychecks s net_external = (Except.error ["Mass not conserved"], s)) := by
  refine ⟨by decide!, rfl, ?_, ?_, ?_⟩
  · unfold sanitychecks
    split_ifs with h
    · simp [h]
    · simp [h, H_THROW]
  · unfold sanitychecks
    split_ifs with h
    · intro _
      exact ⟨rfl, h⟩
    · intro hc
      simp [H_THROW] at hc
  · intro h
    unfold sanitychecks
    rw [if_neg h]
    rfl

end SimpleNbox
end Hector

namespace Hector
open unit_types
namespace ForcingComponent

/-- C29: the table of adjusted names, the table of raw forcing names and the
list of halocarbons `run` fetches have 26 entries each and name the same gases
in the same order; in the name table `init` builds, each raw name is the
translation of exactly one adjusted name; and, for an adjusted name and the raw
name at the same position, a GET for the adjusted name at a date at or after the
base year returns the value the record of that date holds under the raw name,
leaving the object unchanged. -/
theorem getData_adjusted_halocarbon (core : Core) (fc fc0 : ForcingComponent) (date : Rat)
    (forcings : forcings_t) (adj raw : String) (v : unitval)
    (hmap : fc.forcing_name_map = (init fc0).forcing_name_map)
    (hp : (adj, raw) ∈ adjusted_halo_forcings.zip halo_forcing_names)
    (hdate : ¬ (if date = core.undefinedIndex then fc.currentYear else date) < fc.baseyear)
    (hhist : fc.forcings_ts.get (if date = core.undefinedIndex then fc.currentYear else date)
      = Except.ok forcings)
    (hv : forcings.find raw = some v) :
    adjusted_halo_forcings.length = N_HALO_FORCINGS ∧
    halo_forcing_names.length = N_HALO_FORCINGS ∧
    halos = halo_forcing_names ∧
    adjusted_halo_forcings.map (fun s => s.drop 8) = halos.map (fun s => s.drop 5) ∧
    (∀ r ∈ halos, ∃ a ∈ adjusted_halo_forcings, fc.forcing_name_map.find a = some r ∧
      ∀ b ∈ adjusted_halo_forcings, fc.forcing_name_map.find b = some r → b = a) ∧
    getData core fc adj date = (Except.ok v, fc) := by
  have hnd : adjusted_halo_forcings.Nodup := by decide!
  have hfind : ∀ p ∈ adjusted_halo_forcings.zip halo_forcing_names,
      fc.forcing_name_map.find p.1 = some p.2 := by
    intro p hp
    rw [hmap]
    exact init_name_map_find _ _ _ hnd p hp
  refine ⟨by decide, by decide, by decide!, by decide!, ?_, ?_⟩
  · have hex : ∀ r ∈ halos, ∃ p ∈ adjusted_halo_forcings.zip halo_forcing_names, p.2 = r := by
      decide!
    have hinj : ∀ p ∈ adjusted_halo_forcings.zip halo_forcing_names,
        ∀ q ∈ adjusted_halo_forcings.zip halo_forcing_names, p.2 = q.2 → p.1 = q.1 := by
      decide!
    have hzip : ∀ b ∈ adjusted_halo_forcings,
        ∃ q ∈ adjusted_halo_forcings.zip halo_forcing_names, q.1 = b := by
      decide!
    intro r hr
    obtain ⟨p, hpz, hpr⟩ := hex r hr
    refine ⟨p.1, (List.of_mem_zip hpz).1, ?_, fun b hb hbr => ?_⟩
    · rw [hfind p hpz, hpr]
    · obtain ⟨q, hqz, hqb⟩ := hzip b hb
      have hq := hfind q hqz
      rw [hqb, hbr] at hq
      rw [← hqb]
      exact hinj q hqz p hpz (by rw [← Option.some.inj hq, hpr])
  · have hadj : ∀ a ∈ adjusted_halo_forcings, a ≠ D_RF_BASEYEAR ∧ a ≠ D_RF_SO2 := by decide!
    have hmem : adj ∈ adjusted_halo_forcings := (List.of_mem_zip hp).1
    obtain ⟨h1, h2⟩ := hadj adj hmem
    have hf := hfind _ hp
    simp only at hf
    unfold getData
    simp only [if_neg hdate, hhist, if_neg h1, if_neg h2]
    simp [StdMap.subscript, hf, hv]

theorem getData_adjusted_halocarbon_witness :
    (D_RFADJ_CF4, D_RF_CF4) ∈ adjusted_halo_forcings.zip halo_forcing_names ∧
    ¬ (if (1747 : Rat) = demoCoreHalo.undefinedIndex then demoFcHalo.currentYear else 1747)
      < demoFcHalo.baseyear ∧
    getData demoCoreHalo demoFcHalo D_RFADJ_CF4 1747 = (Except.ok ⟨2 / 10, U_W_M2⟩, demoFcHalo) :=
  ⟨by decide!, by decide!,
    (getData_adjusted_halocarbon demoCoreHalo demoFcHalo default 1747
      ((demoFcHalo.forcings_ts.mapdata.find 1747).getD StdMap.empty)
      D_RFADJ_CF4 D_RF_CF4 ⟨2 / 10, U_W_M2⟩
      (by decide!) (by decide!) (by decide!) (by decide!) (by decide!)).2.2.2.2.2⟩

end ForcingComponent
end Hector

namespace Hector
namespace SimpleNbox

variable {α : Type}

/-- A sweep of `rename_biome_in_ts` that throws stops at the first date whose
record lacks `oldname`: the series it leaves is the one renamed at the dates
before that one. -/
theorem rename_biome_loop_fail (oldname newname : String) :
    ∀ (dates : List Rat) (ts : tvector (StdMap String α)),
      completes (rename_biome_loop oldname newname dates ts).1 = false →
      ∃ pre i post m, dates = pre ++ i :: post ∧
        completes (rename_biome_loop oldname newname pre ts).1 = true ∧
        (rename_biome_loop oldname newname dates ts).2
          = (rename_biome_loop oldname newname pre ts).2 ∧
        (rename_biome_loop oldname newname pre ts).2.get i = Except.ok m ∧
        m.contains oldname = false := by
  intro dates
  induction dates with
  | nil => intro ts h; simp [rename_biome_loop, completes] at h
  | cons i rest ih =>
    intro ts h
    unfold rename_biome_loop at h
    by_cases hi : ts.hasDate i = true
    · obtain ⟨v, hv, -⟩ := tvector_get_of_hasDate hi
      rw [if_pos hi, hv] at h
      simp only at h
      cases hat : v.atKey oldname with
      | error e =>
        refine ⟨[], i, rest, v, rfl, rfl, ?_, hv, ?_⟩
        · unfold rename_biome_loop
          rw [if_pos hi, hv]
          simp only
          rw [hat]
        · unfold StdMap.atKey at hat
          unfold StdMap.contains
          cases hf : v.find oldname with
          | none => rfl
          | some w => rw [hf] at hat; simp at hat
      | ok w =>
        rw [hat] at h
        simp only at h
        obtain ⟨pre, j, post, m, hd, hc, he, hg, hm⟩ := ih _ h
        refine ⟨i :: pre, j, post, m, by rw [hd]; rfl, ?_, ?_, ?_, hm⟩
        · unfold rename_biome_loop
          rw [if_pos hi, hv]
          simp only
          rw [hat]
          exact hc
        · rw [show rename_biome_loop oldname newname (i :: rest) ts
              = rename_biome_loop oldname newname rest
                (ts.set i ((v.insert newname w).erase oldname)) by
            rw [rename_biome_loop, if_pos hi, hv]; simp only; rw [hat]]
          rw [show rename_biome_loop oldname newname (i :: pre) ts
              = rename_biome_loop oldname newname pre
                (ts.set i ((v.insert newname w).erase oldname)) by
            rw [rename_biome_loop, if_pos hi, hv]; simp only; rw [hat]]
          exact he
        · rw [show rename_biome_loop oldname newname (i :: pre) ts
              = rename_biome_loop oldname newname pre
                (ts.set i ((v.insert newname w).erase oldname)) by
            rw [rename_biome_loop, if_pos hi, hv]; simp only; rw [hat]]
          exact hg
    · rw [if_neg hi] at h
      obtain ⟨pre, j, post, m, hd, hc, he, hg, hm⟩ := ih _ h
      have e1 : rename_biome_loop oldname newname (i :: rest) ts
          = rename_biome_loop oldname newname rest ts := by
        rw [rename_biome_loop, if_neg hi]
      have e2 : rename_biome_loop oldname newname (i :: pre) ts
          = rename_biome_loop oldname newname pre ts := by
        rw [rename_biome_loop, if_neg hi]
      exact ⟨i :: pre, j, post, m, by rw [hd]; rfl, by rw [e2]; exact hc,
        by rw [e1, e2]; exact he, by rw [e2]; exact hg, hm⟩

end SimpleNbox
end Hector

namespace Hector

theorem tvector_get_firstdate {α : Type} {tv : tvector α} {first : Rat}
    (h : tv.firstdate = Except.ok first) : ∃ v, tv.get first = Except.ok v := by
  unfold tvector.firstdate at h
  cases he : tv.mapdata.entries with
  | nil => rw [he] at h; simp [H_THROW] at h
  | cons hd tl =>
    rw [he] at h
    simp only [List.head?_cons, Except.ok.injEq] at h
    have hm : (first, hd.2) ∈ tv.mapdata.entries := by
      rw [he, ← h]; exact List.mem_cons_self _ _
    refine ⟨hd.2, ?_⟩
    unfold tvector.get
    rw [(StdMap.find_eq_some_iff _ _ _).2 hm]

end Hector

namespace Hector
open unit_types

theorem list_sum_map_sub {ι : Type} (l : List ι) (f g : ι → Rat) :
    (l.map (fun i => f i - g i)).sum = (l.map f).sum - (l.map g).sum := by
  induction l with
  | nil => simp
  | cons a t ih =>
    simp only [List.map_cons, List.sum_cons, ih]
    ring

namespace ForcingComponent

theorem atStep_aN2O (fc : ForcingComponent) (d : Rat) (Ca : unitval) :
    (atStep fc d Ca).aN2O = fc.aN2O := by
  unfold atStep; split_ifs <;> rfl

/-- With no constraint supplied, the map of absolute forcings of a step is the
map of the agents with their sum stored under the name of the total. -/
theorem run_absolute_free {m : Libm} {core : Core} {fc : ForcingComponent} {d : Rat}
    {Ca : unitval} {absolute : forcings_t} (hempty : fc.Ftot_constrain.size = 0)
    (h : run_absolute m core fc d Ca = Except.ok absolute) :
    ∃ forcings, run_agents m core fc d Ca = Except.ok forcings ∧
      absolute = forcings.insert D_RF_TOTAL
        ⟨(agentNames.map (forcingOf forcings)).sum, U_W_M2⟩ := by
  obtain ⟨forcings, Ftot, tot, h1, h2, h3, h4⟩ := run_absolute_ok h
  have hkeys := run_agents_keys h1
  have htot : tot = Ftot := by
    unfold run_total at h3
    simp only [hempty, ne_eq, not_true_eq_false, if_false, bind_eq_ok, pure_eq_ok,
      Except.ok.injEq] at h3
    obtain ⟨g, hg, h3⟩ := h3
    subst hg
    simpa using h3.symm
  obtain ⟨hF, -⟩ := run_Ftot_ok _ _ _ h2
  have hsub : ∀ e ∈ forcings.entries, e.1 ∈ agentNames := by
    intro e he
    have hf : forcings.find e.1 = some e.2 := mem_lookupList forcings.sorted he
    have hc : forcings.contains e.1 = true := by
      unfold StdMap.contains; rw [hf]; rfl
    rw [← agentTable_names core]
    exact List.mem_map_of_mem Prod.fst ((hkeys e.1).1 hc)
  refine ⟨forcings, h1, ?_⟩
  rw [h4, htot, hF, sum_forcingOf forcings agentNames agentNames_nodup hsub]
  simp [unitval.set]

theorem runSeq_constraint (m : Libm) (steps : List (Core × Rat)) (fc : ForcingComponent) :
    (runSeq m steps fc).Ftot_constrain = fc.Ftot_constrain := by
  rw [runSeq_state_eq]; rfl

theorem run_constraint (m : Libm) (core : Core) (fc : ForcingComponent) (d : Rat) :
    (run m core fc d).2.Ftot_constrain = fc.Ftot_constrain := by
  rw [run_state_eq]; rfl

theorem forcingOf_default_val (base : forcings_t) (k : String) :
    (baselineOf base k).val = forcingOf base k := by
  rw [baselineOf_eq]
  unfold forcingOf
  cases base.find k <;> rfl

end ForcingComponent
end Hector

namespace Hector
namespace SimpleNbox

variable {α : Type}

/-- C31 fails when `oldname` is missing at a later date: in a history where
"global" is a key at 1745 and 1747 but not at 1746, renaming "global" to
"boreal" throws at 1746, and the record of 1745 is left renamed. -/
theorem rename_biome_in_ts_fails_half_renamed :
    completes (rename_biome_in_ts demoBiomeTsGap "global" "boreal").1 = false ∧
    (demoBiomeTsGap.get 1745).map (fun m => (m.find "global", m.find "boreal"))
      = Except.ok (some 10, none) ∧
    ((rename_biome_in_ts demoBiomeTsGap "global" "boreal").2.get 1745).map
      (fun m => (m.find "global", m.find "boreal")) = Except.ok (none, some 10) ∧
    (rename_biome_in_ts demoBiomeTsGap "global" "boreal").2 ≠ demoBiomeTsGap := by
  decide!

/-- C31 as the code has it: when `rename_biome_in_ts` fails, either it failed
before its loop, on an empty series or at one of the two checks on the mapping
of the first date, and the series is exactly as it was; or it failed in the loop
at the first date whose mapping lacks `oldname`, and the series is the one
renamed at the dates the loop visited before that date. -/
theorem rename_biome_in_ts_failure (ts : tvector (StdMap String α))
    (oldname newname : String)
    (hfail : completes (rename_biome_in_ts ts oldname newname).1 = false) :
    (ts.size = 0 ∧ (rename_biome_in_ts ts oldname newname).2 = ts) ∨
    (∃ first m0, ts.firstdate = Except.ok first ∧ ts.get first = Except.ok m0 ∧
      (m0.contains oldname = false ∨ m0.contains newname = true) ∧
      (rename_biome_in_ts ts oldname newname).2 = ts) ∨
    (∃ first last pre i post m, ts.firstdate = Except.ok first ∧
      ts.lastdate = Except.ok last ∧ forDates first last = pre ++ i :: post ∧
      completes (rename_biome_loop oldname newname pre ts).1 = true ∧
      (rename_biome_in_ts ts oldname newname).2
        = (rename_biome_loop oldname newname pre ts).2 ∧
      (rename_biome_loop oldname newname pre ts).2.get i = Except.ok m ∧
      m.contains oldname = false) := by
  by_cases hs : ts.size = 0
  · refine Or.inl ⟨hs, ?_⟩
    have he : ts.mapdata.entries = [] := List.length_eq_zero.1 hs
    unfold rename_biome_in_ts tvector.firstdate
    rw [he]
    rfl
  · obtain ⟨first, last, hf, hl⟩ := tvector_dates_of_size hs
    obtain ⟨m0, hg⟩ := tvector_get_firstdate hf
    by_cases ho : m0.contains oldname = true
    · by_cases hn : m0.contains newname = true
      · refine Or.inr (Or.inl ⟨first, m0, hf, hg, Or.inr hn, ?_⟩)
        unfold rename_biome_in_ts
        simp [hf, hg, ho, hn]
      · have hloop : rename_biome_in_ts ts oldname newname
            = rename_biome_loop oldname newname (forDates first last) ts := by
          unfold rename_biome_in_ts
          simp [hf, hg, ho, hn, hl]
        rw [hloop] at hfail ⊢
        obtain ⟨pre, i, post, m, hd, hc, he, hgi, hm⟩ :=
          rename_biome_loop_fail oldname newname _ ts hfail
        exact Or.inr (Or.inr ⟨first, last, pre, i, post, m, hf, hl, hd, hc, he, hgi, hm⟩)
    · have ho2 : m0.contains oldname = false := by
        cases hb : m0.contains oldname with
        | true => exact absurd hb ho
        | false => rfl
      refine Or.inr (Or.inl ⟨first, m0, hf, hg, Or.inl ho2, ?_⟩)
      unfold rename_biome_in_ts
      simp [hf, hg, ho2]

theorem rename_biome_in_ts_failure_witness :
    completes (rename_biome_in_ts demoBiomeTsGap "global" "boreal").1 = false ∧
    ((demoBiomeTsGap.size = 0 ∧
        (rename_biome_in_ts demoBiomeTsGap "global" "boreal").2 = demoBiomeTsGap) ∨
      (∃ first m0, demoBiomeTsGap.firstdate = Except.ok first ∧
        demoBiomeTsGap.get first = Except.ok m0 ∧
        (m0.contains "global" = false ∨ m0.contains "boreal" = true) ∧
        (rename_biome_in_ts demoBiomeTsGap "global" "boreal").2 = demoBiomeTsGap) ∨
      (∃ first last pre i post m, demoBiomeTsGap.firstdate = Except.ok first ∧
        demoBiomeTsGap.lastdate = Except.ok last ∧ forDates first last = pre ++ i :: post ∧
        completes (rename_biome_loop "global" "boreal" pre demoBiomeTsGap).1 = true ∧
        (rename_biome_in_ts demoBiomeTsGap "global" "boreal").2
          = (rename_biome_loop "global" "boreal" pre demoBiomeTsGap).2 ∧
        (rename_biome_loop "global" "boreal" pre demoBiomeTsGap).2.get i = Except.ok m ∧
        m.contains "global" = false)) :=
  ⟨by decide!, rename_biome_in_ts_failure demoBiomeTsGap "global" "boreal" (by decide!)⟩

end SimpleNbox
end Hector

namespace Hector
open unit_types
namespace ForcingComponent

/-- C32: with an empty constraint series, after the step at the base year and
any later steps, a step at a date after the base year at which the agents
present are those present at the base year records, under the name of the
total, the sum of the forcings it records for the individual agents. -/
theorem run_relative_total_is_sum (m : Libm) (core0 core : Core)
    (fc0 fcN : ForcingComponent) (steps : List (Core × Rat)) (d : Rat)
    (hempty : fc0.Ftot_constrain.size = 0)
    (h0 : (run m core0 fc0 fc0.baseyear).1 = Except.ok ())
    (hsteps : ∀ s ∈ steps, fc0.baseyear < s.2)
    (hc : runSeqCompletes m steps (run m core0 fc0 fc0.baseyear).2 = true)
    (hN : fcN = runSeq m steps (run m core0 fc0 fc0.baseyear).2)
    (hd : fc0.baseyear < d)
    (hsame : ∀ k, (k, true) ∈ agentTable core ↔ (k, true) ∈ agentTable core0)
    (h1 : (run m core fcN d).1 = Except.ok ()) :
    ∃ recorded t, (run m core fcN d).2.forcings_ts.get d = Except.ok recorded ∧
      recorded.find D_RF_TOTAL = some t ∧
      t.val = (agentNames.map (forcingOf recorded)).sum ∧
      (∀ k, k ≠ D_RF_TOTAL →
        (recorded.contains k = true ↔ (k, true) ∈ agentTable core)) := by
  have hirr : ¬ fc0.baseyear < fc0.baseyear := lt_irrefl _
  obtain ⟨Ca0, abs0, rec0, hCa0, habs0, -, -, -, -, hsnap, -⟩ := run_ok hirr h0
  have hbl0 : baselineAt fc0 fc0.baseyear abs0 = abs0 := by
    unfold baselineAt; rw [if_pos rfl]
  rw [hbl0] at hsnap
  have hsnapB : (run m core0 fc0 fc0.baseyear).2.baseyear_forcings = abs0 := by
    refine hsnap (fun it hit => ?_)
    unfold StdMap.contains
    rw [(StdMap.find_eq_some_iff abs0 it.1 it.2).2 hit]
    rfl
  obtain ⟨hbfN, -⟩ := runSeq_stable m steps (run m core0 fc0 fc0.baseyear).2
    (by rw [run_baseyear_eq]; exact hsteps) (run_snapshot_has_total hirr h0) hc
  rw [← hN, hsnapB] at hbfN
  obtain ⟨-, hbyN⟩ := runSeq_aCO2 m steps (run m core0 fc0 fc0.baseyear).2
  rw [← hN, run_baseyear_eq] at hbyN
  have hcN : fcN.Ftot_constrain.size = 0 := by
    rw [hN, runSeq_constraint, run_constraint]; exact hempty
  have hdN : ¬ d < fcN.baseyear := by rw [hbyN]; exact not_lt.2 (le_of_lt hd)
  have hne : d ≠ fcN.baseyear := by rw [hbyN]; exact ne_of_gt hd
  obtain ⟨Ca1, abs1, rec1, hCa1, habs1, hts, hent, -⟩ := run_ok hdN h1
  have hbl1 : baselineAt fcN d abs1 = abs0 := by
    unfold baselineAt; rw [if_neg hne, hbfN]
  rw [hbl1] at hent
  obtain ⟨F0, hag0, hF0⟩ := run_absolute_free
    (by rw [atStep_constraint]; exact hempty) habs0
  obtain ⟨F1, hag1, hF1⟩ := run_absolute_free
    (by rw [atStep_constraint]; exact hcN) habs1
  have hk0 := run_agents_keys hag0
  have hk1 := run_agents_keys hag1
  have hrec : ∀ k, rec1.find k = (abs1.find k).map (fun v => rebaseEntry abs0 (k, v)) :=
    find_of_entries_map hent
  have hagent : ∀ k ∈ agentNames,
      forcingOf rec1 k = forcingOf F1 k - forcingOf F0 k := by
    intro k hk
    have hkT : k ≠ D_RF_TOTAL := fun he => total_not_agent (he ▸ hk)
    have e1 : abs1.find k = F1.find k := by rw [hF1]; exact StdMap.find_insert_ne _ hkT _
    have e0 : abs0.find k = F0.find k := by rw [hF0]; exact StdMap.find_insert_ne _ hkT _
    have hb : (baselineOf abs0 k).val = forcingOf F0 k := by
      rw [forcingOf_default_val]; unfold forcingOf; rw [e0]
    unfold forcingOf
    rw [hrec k, e1]
    cases hf1 : F1.find k with
    | some v =>
      simp only [Option.map_some', rebaseEntry]
      rw [hb]
      unfold forcingOf
      rfl
    | none =>
      have hc0 : ¬ F0.contains k = true := by
        intro hc0
        have := (hk1 k).2 ((hsame k).2 ((hk0 k).1 hc0))
        unfold StdMap.contains at this
        rw [hf1] at this
        simp at this
      have hf0 : F0.find k = none := by
        cases hf : F0.find k with
        | none => rfl
        | some w => exact absurd (by unfold StdMap.contains; rw [hf]; rfl) hc0
      simp only [Option.map_none', hf0, sub_self]
  have htot1 : abs1.find D_RF_TOTAL
      = some ⟨(agentNames.map (forcingOf F1)).sum, U_W_M2⟩ := by
    rw [hF1]; exact StdMap.find_insert_self _ _ _
  have htot0 : abs0.find D_RF_TOTAL
      = some ⟨(agentNames.map (forcingOf F0)).sum, U_W_M2⟩ := by
    rw [hF0]; exact StdMap.find_insert_self _ _ _
  have hrT : rec1.find D_RF_TOTAL = some (rebaseEntry abs0
      (D_RF_TOTAL, ⟨(agentNames.map (forcingOf F1)).sum, U_W_M2⟩)) := by
    rw [hrec D_RF_TOTAL, htot1]
    rfl
  refine ⟨rec1, _, by rw [hts]; exact tvector_get_set _ _ _, hrT, ?_, ?_⟩
  · unfold rebaseEntry
    rw [baselineOf_of_find htot0]
    simp only
    rw [← list_sum_map_sub]
    exact congrArg List.sum (List.map_congr_left (fun k hk => (hagent k hk).symm))
  · intro k hkT
    have e1 : abs1.find k = F1.find k := by rw [hF1]; exact StdMap.find_insert_ne _ hkT _
    rw [← hk1 k]
    unfold StdMap.contains
    rw [hrec k, e1]
    cases F1.find k <;> rfl

theorem run_relative_total_is_sum_witness :
    demoFc.Ftot_constrain.size = 0 ∧ demoFc.baseyear < 1747 ∧
    ∃ recorded t, (run demoLibm demoCoreLater demoFcBase 1747).2.forcings_ts.get 1747
        = Except.ok recorded ∧
      recorded.find D_RF_TOTAL = some t ∧
      t.val = (agentNames.map (forcingOf recorded)).sum ∧
      (∀ k, k ≠ D_RF_TOTAL →
        (recorded.contains k = true ↔ (k, true) ∈ agentTable demoCoreLater)) :=
  ⟨by decide!, by decide!,
    run_relative_total_is_sum demoLibm demoCore demoCoreLater demoFc demoFcBase [] 1747
      (by decide!) (by decide!) (by decide) (by decide) (by decide!) (by decide!)
      (fun _ => Iff.rfl) (by decide!)⟩

end ForcingComponent
end Hector

namespace Hector
open unit_types
namespace ForcingComponent

/-- C33: for every `runToDate` before the base year, `run` returns normally and
leaves the object as it was but for the current year, which becomes `runToDate`:
the forcing history, the baseline snapshot, `C0`, the parameters and the
constraint series are unchanged; and it sends no query to the core, the outcome
being the same with any other core and C library, one that answers no query
included. -/
theorem run_before_baseyear_only_clock (m m2 : Libm) (core core2 : Core)
    (fc : ForcingComponent) (runToDate : Rat) (hd : runToDate < fc.baseyear) :
    run m core fc runToDate = (Except.ok (), { fc with currentYear := runToDate }) ∧
    run m2 core2 fc runToDate = run m core fc runToDate ∧
    run m core fc runToDate = run m demoCoreSilent fc runToDate ∧
    (run m core fc runToDate).2.currentYear = runToDate ∧
    (run m core fc runToDate).2.forcings_ts = fc.forcings_ts ∧
    (run m core fc runToDate).2.baseyear_forcings = fc.baseyear_forcings ∧
    (run m core fc runToDate).2.C0 = fc.C0 ∧
    (run m core fc runToDate).2.baseyear = fc.baseyear ∧
    (run m core fc runToDate).2.aCO2 = fc.aCO2 ∧
    (run m core fc runToDate).2.aN2O = fc.aN2O ∧
    (run m core fc runToDate).2.aCH4 = fc.aCH4 ∧
    (run m core fc runToDate).2.atropO3 = fc.atropO3 ∧
    (run m core fc runToDate).2.aso2d = fc.aso2d ∧
    (run m core fc runToDate).2.aso2in = fc.aso2in ∧
    (run m core fc runToDate).2.Ftot_constrain = fc.Ftot_constrain ∧
    (run m core fc runToDate).2.forcing_name_map = fc.forcing_name_map := by
  rw [run_before_baseyear m core fc runToDate hd, run_before_baseyear m2 core2 fc runToDate hd,
    run_before_baseyear m demoCoreSilent fc runToDate hd]
  exact ⟨rfl, rfl, rfl, rfl, rfl, rfl, rfl, rfl, rfl, rfl, rfl, rfl, rfl, rfl, rfl, rfl⟩

theorem run_before_baseyear_only_clock_witness :
    (1745 : Rat) < demoFc.baseyear ∧
    run demoLibm demoCore demoFc 1745 = (Except.ok (), { demoFc with currentYear := 1745 }) ∧
    run demoLibm demoCore demoFc 1745 = run demoLibm demoCoreSilent demoFc 1745 :=
  ⟨by decide!,
    (run_before_baseyear_only_clock demoLibm demoLibm demoCore demoCoreSilent demoFc 1745
      (by decide!)).1,
    (run_before_baseyear_only_clock demoLibm demoLibm demoCore demoCoreSilent demoFc 1745
      (by decide!)).2.2.1⟩

/-- C34: in a step of `run` with the CH4 and N2O components present, the
absolute CH4 forcing is `aCH4 * (sqrt(Ma) - sqrt(M0)) - (f(Ma,N0) - f(M0,N0))`
and the absolute N2O forcing is
`aN2O * (sqrt(Na) - sqrt(N0)) - (f(M0,Na) - f(M0,N0))`; the first is 0 whenever
`Ma = M0`, for every `N0` and `aCH4`, and the second is 0 whenever `Na = N0`,
for every `M0` and `aN2O`, whatever the functions of the C library return. -/
theorem run_CH4_N2O_vanish_at_preindustrial (m : Libm) (core : Core)
    (fc : ForcingComponent) (d : Rat) (hd : ¬ d < fc.baseyear)
    (hcap : (core.checkCapability D_ATMOSPHERIC_CH4
      && core.checkCapability D_ATMOSPHERIC_N2O) = true)
    (h : (run m core fc d).1 = Except.ok ()) :
    ∃ (Ca Ma M0 Na N0 : unitval) (absolute : forcings_t) (ch4 n2o : unitval),
      core.sendMessage M_GETDATA D_ATMOSPHERIC_CO2 core.noData = Except.ok Ca ∧
      core.sendMessage M_GETDATA D_ATMOSPHERIC_CH4 (message_data.ofDate d) = Except.ok Ma ∧
      core.sendMessage M_GETDATA D_PREINDUSTRIAL_CH4 core.noData = Except.ok M0 ∧
      core.sendMessage M_GETDATA D_ATMOSPHERIC_N2O (message_data.ofDate d) = Except.ok Na ∧
      core.sendMessage M_GETDATA D_PREINDUSTRIAL_N2O core.noData = Except.ok N0 ∧
      run_absolute m core (atStep fc d Ca) d Ca = Except.ok absolute ∧
      absolute.find D_RF_CH4 = some ch4 ∧
      absolute.find D_RF_N2O = some n2o ∧
      ch4.val = fc.aCH4.val * (m.sqrt Ma.val - m.sqrt M0.val)
        - (f m Ma.val N0.val - f m M0.val N0.val) ∧
      n2o.val = fc.aN2O.val * (m.sqrt Na.val - m.sqrt N0.val)
        - (f m M0.val Na.val - f m M0.val N0.val) ∧
      (Ma.val = M0.val → ch4.val = 0) ∧
      (Na.val = N0.val → n2o.val = 0) := by
  obtain ⟨Ca, absolute, -, hCa, habs, -⟩ := run_ok hd h
  obtain ⟨forcings, hag, hfind⟩ := run_absolute_find habs
  obtain ⟨Ma, M0, Na, N0, hMa, hM0, hNa, hN0, v1, v2, -⟩ := run_agents_CH4 hcap hag
  rw [atStep_aCH4] at v1
  rw [atStep_aN2O] at v2
  refine ⟨Ca, Ma, M0, Na, N0, absolute, _, _, hCa, hMa, hM0, hNa, hN0, habs,
    by rw [hfind D_RF_CH4 (by decide)]; exact v1,
    by rw [hfind D_RF_N2O (by decide)]; exact v2, rfl, rfl, ?_, ?_⟩
  · intro he
    simp only
    rw [he]
    ring
  · intro he
    simp only
    rw [he]
    ring

theorem run_CH4_N2O_vanish_at_preindustrial_witness :
    ¬ (1746 : Rat) < demoFcCH4.baseyear ∧
    (demoCorePre.checkCapability D_ATMOSPHERIC_CH4
      && demoCorePre.checkCapability D_ATMOSPHERIC_N2O) = true ∧
    (run demoLibm demoCorePre demoFcCH4 1746).1 = Except.ok () ∧
    ∃ (Ca Ma M0 Na N0 : unitval) (absolute : forcings_t) (ch4 n2o : unitval),
      demoCorePre.sendMessage M_GETDATA D_ATMOSPHERIC_CO2 demoCorePre.noData = Except.ok Ca ∧
      demoCorePre.sendMessage M_GETDATA D_ATMOSPHERIC_CH4 (message_data.ofDate 1746)
        = Except.ok Ma ∧
      demoCorePre.sendMessage M_GETDATA D_PREINDUSTRIAL_CH4 demoCorePre.noData
        = Except.ok M0 ∧
      demoCorePre.sendMessage M_GETDATA D_ATMOSPHERIC_N2O (message_data.ofDate 1746)
        = Except.ok Na ∧
      demoCorePre.sendMessage M_GETDATA D_PREINDUSTRIAL_N2O demoCorePre.noData
        = Except.ok N0 ∧
      run_absolute demoLibm demoCorePre (atStep demoFcCH4 1746 Ca) 1746 Ca
        = Except.ok absolute ∧
      absolute.find D_RF_CH4 = some ch4 ∧
      absolute.find D_RF_N2O = some n2o ∧
      ch4.val = demoFcCH4.aCH4.val * (demoLibm.sqrt Ma.val - demoLibm.sqrt M0.val)
        - (f demoLibm Ma.val N0.val - f demoLibm M0.val N0.val) ∧
      n2o.val = demoFcCH4.aN2O.val * (demoLibm.sqrt Na.val - demoLibm.sqrt N0.val)
        - (f demoLibm M0.val Na.val - f demoLibm M0.val N0.val) ∧
      (Ma.val = M0.val → ch4.val = 0) ∧
      (Na.val = N0.val → n2o.val = 0) :=
  ⟨by decide!, by decide!, by decide!,
    run_CH4_N2O_vanish_at_preindustrial demoLibm demoCorePre demoFcCH4 1746
      (by decide!) (by decide!) (by decide!)⟩

end ForcingComponent
end Hector
